import Mathlib

/-! D2DX: the per-frame translation pipeline of `D2DXContext`.

A shallow embedding of `src/d2dx/D2DXContext.cpp`: the batch merger (`DrawBatches`), the
game-state classifier (`CheckMajorGameState`), the geometry submission paths (`OnDrawLine`,
`OnDrawVertexArray`, `OnDrawVertexArrayContiguous`), the blend and combine setters, the
vertex layout (`OnVertexLayout`), the palette table (`OnTexDownloadTable`) and the end of
the frame (`InsertLogoOnTitleScreen`, `OnBufferSwap`), followed by the properties proved
about them.

Conventions.
* Fixed-capacity buffers (`_batches`, `_vertices`) are lists whose length is the capacity,
  together with the separate counters `_batchCount` and `_vertexCount`.
* A failed `assert` is a fatal stop: the operation returns `none`. Where a write without a
  guarding assertion has to be told apart from a failed assertion, the operation returns
  `Except Fault`. `OnTexDownloadTable` has code after a failing assertion, so it takes the
  build flavour (`assertsEnabled`) as an argument.
* `float` values are modelled by the rational number they denote; the float operations of
  `OnDrawLine` are a parameter (`FloatOps`), exact arithmetic being one instance.
* `Batch.h`, `Vertex.h`, the Glide constants, the hash function, the render backend and the
  game helper are not part of the sources; what the embedded functions use of them is a
  parameter (`BatchOps`, `GameHelper`, `RenderBackend`, `Memory`, `LogoAsset`, `fnv`) or a
  record with one field per accessor.
-/

namespace D2DX

/-! ## Data model -/

/-- `MajorGameState`: the classification of a frame. -/
inductive MajorGameState where
  | Unknown
  | FmvIntro
  | Menus
  | TitleScreen
  | InGame
  deriving DecidableEq

/-- `PrimitiveType`: only `Triangles` is named in the sources. -/
inductive PrimitiveType where
  | Triangles
  | other (code : Nat)
  deriving DecidableEq

/-- `AlphaBlend`: the blend modes named in the sources (`Count` is the array-size sentinel). -/
inductive AlphaBlend where
  | Opaque
  | SrcAlphaInvSrcAlpha
  | Additive
  | Multiplicative
  | Count
  deriving DecidableEq

/-- `RgbCombine`. -/
inductive RgbCombine where
  | ColorMultipliedByTexture
  | ConstantColor
  deriving DecidableEq

/-- `AlphaCombine`. -/
inductive AlphaCombine where
  | One
  | Texture
  deriving DecidableEq

/-- `GameAddress`: the draw-site tag; only `DrawFloor` is named in the sources. -/
inductive GameAddress where
  | DrawFloor
  | other (code : Nat)
  deriving DecidableEq

/-- `TextureCategory`: only `TitleScreen` is named in the sources. -/
inductive TextureCategory where
  | TitleScreen
  | other (code : Nat)
  deriving DecidableEq

/-- Modelled from the spec: the `Batch` descriptor (`Batch.h` is not among the sources). One
field per accessor pair used in `D2DXContext.cpp`: a render-state descriptor (primitive type,
blend mode, combine modes, chroma key, palette index), the texture identity (source hash,
source address, width, height, category), the resolved atlas and slot, the draw-site tag and
the vertex range. -/
structure Batch where
  textureStartAddress : Nat
  textureHash : Nat
  width : Nat
  height : Nat
  textureCategory : TextureCategory
  textureAtlas : Nat
  textureIndex : Nat
  primitiveType : PrimitiveType
  alphaBlend : AlphaBlend
  rgbCombine : RgbCombine
  alphaCombine : AlphaCombine
  isChromaKeyEnabled : Bool
  paletteIndex : Nat
  gameAddress : GameAddress
  startVertex : Nat
  vertexCount : Nat
  deriving DecidableEq

/-- `Batch::SetVertexCount`. -/
def Batch.SetVertexCount (b : Batch) (vertexCount : Nat) : Batch :=
  { b with vertexCount := vertexCount }

/-- The vertex range `[startVertex, startVertex + vertexCount)` of a batch, as the list of its
vertex indices. -/
def Batch.vertexRange (b : Batch) : List Nat :=
  List.range' b.startVertex b.vertexCount

/-- The parts of `Batch` and of the render backend that the embedded functions call and that
are declared outside the sources: the default-constructed descriptor `Batch()`,
`Batch::IsValid`, `Batch::SelectColorAndAlpha` and the backend query
`GetTextureCache(batch)` (the identity of the cache a batch is served from). -/
structure BatchOps where
  defaultBatch : Batch
  IsValid : Batch → Bool
  GetTextureCache : Batch → Nat
  SelectColorAndAlpha : Batch → Nat → Nat → Nat

/-- What `DrawBatches` relies on from the missing parts: `Batch()` is not valid, and
extending the vertex count of a merged batch by a valid batch neither invalidates it nor
moves it to another texture cache. -/
structure BatchOps.Sound (ops : BatchOps) : Prop where
  default_invalid : ops.IsValid ops.defaultBatch = false
  merged_valid : ∀ m b : Batch, ops.IsValid m = true → ops.IsValid b = true →
    ops.IsValid (m.SetVertexCount (m.vertexCount + b.vertexCount)) = true
  cache_count : ∀ (m : Batch) (n : Nat),
    ops.GetTextureCache (m.SetVertexCount n) = ops.GetTextureCache m

/-! ## BatchMerger: `D2DXContext::DrawBatches` -/

/-- The test of `DrawBatches` that ends the current merged batch: another texture cache,
another atlas, another blend mode, another primitive type, or a summed vertex count above
65535. Vertex counts index the frame vertex buffer through `int32_t` indices, so the unsigned
sum of two of them does not wrap and is the sum of naturals. -/
def mustFlush (ops : BatchOps) (batch mergedBatch : Batch) : Bool :=
  ops.GetTextureCache batch != ops.GetTextureCache mergedBatch ||
  batch.textureAtlas != mergedBatch.textureAtlas ||
  batch.alphaBlend != mergedBatch.alphaBlend ||
  batch.primitiveType != mergedBatch.primitiveType ||
  decide (mergedBatch.vertexCount + batch.vertexCount > 65535)

/-- The `for` loop of `DrawBatches` over the remaining batches, with the loop state
`mergedBatch` and the batches passed to `Draw` so far. -/
def drawBatchesLoop (ops : BatchOps) : List Batch → Batch → List Batch → Batch × List Batch
  | [], mergedBatch, draws => (mergedBatch, draws)
  | batch :: rest, mergedBatch, draws =>
    if !ops.IsValid batch then
      drawBatchesLoop ops rest mergedBatch draws
    else if !ops.IsValid mergedBatch then
      drawBatchesLoop ops rest batch draws
    else if mustFlush ops batch mergedBatch then
      drawBatchesLoop ops rest batch (draws ++ [mergedBatch])
    else
      drawBatchesLoop ops rest
        (mergedBatch.SetVertexCount (mergedBatch.vertexCount + batch.vertexCount)) draws

/-- `D2DXContext::DrawBatches` on the frame's batch list (the first `_batchCount` entries of
`_batches`): the batches passed to the backend's `Draw`, in call order. The counter
`drawCalls` of the source is the length of the result. -/
def DrawBatches (ops : BatchOps) (batches : List Batch) : List Batch :=
  let r := drawBatchesLoop ops batches ops.defaultBatch []
  if ops.IsValid r.1 then r.2 ++ [r.1] else r.2

/-- The loop of `DrawBatches` with a ghost record: next to the merged batch it keeps the
input batches folded into it, and next to every draw the input batches it was built from. -/
def foldedLoop (ops : BatchOps) :
    List Batch → Batch × List Batch → List (Batch × List Batch) →
      (Batch × List Batch) × List (Batch × List Batch)
  | [], merged, draws => (merged, draws)
  | batch :: rest, merged, draws =>
    if !ops.IsValid batch then
      foldedLoop ops rest merged draws
    else if !ops.IsValid merged.1 then
      foldedLoop ops rest (batch, [batch]) draws
    else if mustFlush ops batch merged.1 then
      foldedLoop ops rest (batch, [batch]) (draws ++ [merged])
    else
      foldedLoop ops rest
        (merged.1.SetVertexCount (merged.1.vertexCount + batch.vertexCount),
          merged.2 ++ [batch]) draws

/-- `DrawBatches` with the ghost record of `foldedLoop`: every emitted draw paired with the
input batches whose vertices were folded into it (the first of them started the draw). -/
def DrawBatchesFolded (ops : BatchOps) (batches : List Batch) : List (Batch × List Batch) :=
  let r := foldedLoop ops batches (ops.defaultBatch, []) []
  if ops.IsValid r.1.1 then r.2 ++ [r.1] else r.2

/-- Two batches share texture cache, atlas, blend mode and primitive type. -/
def SameState (ops : BatchOps) (a b : Batch) : Prop :=
  ops.GetTextureCache a = ops.GetTextureCache b ∧ a.textureAtlas = b.textureAtlas ∧
  a.alphaBlend = b.alphaBlend ∧ a.primitiveType = b.primitiveType

instance (ops : BatchOps) (a b : Batch) : Decidable (SameState ops a b) := by
  unfold SameState; infer_instance

/-- The total vertex count of a list of batches. -/
def totalVertexCount (bs : List Batch) : Nat :=
  (bs.map Batch.vertexCount).sum

/-- A group of a partition: non-empty, all batches share texture cache, atlas, blend mode
and primitive type, and the total vertex count is at most 65535. -/
def GroupOk (ops : BatchOps) (g : List Batch) : Prop :=
  g ≠ [] ∧ (∀ a ∈ g, ∀ b ∈ g, SameState ops a b) ∧ totalVertexCount g ≤ 65535

/-- A partition of `bs` into contiguous groups, each satisfying `GroupOk`. -/
def IsPartition (ops : BatchOps) (bs : List Batch) (p : List (List Batch)) : Prop :=
  p.flatten = bs ∧ ∀ g ∈ p, GroupOk ops g

/-- Each batch starts where the previous one ends. -/
def Consecutive : List Batch → Prop
  | a :: b :: rest => a.startVertex + a.vertexCount = b.startVertex ∧ Consecutive (b :: rest)
  | _ => True

instance Consecutive.decidable : (bs : List Batch) → Decidable (Consecutive bs)
  | [] => isTrue trivial
  | [_] => isTrue trivial
  | a :: b :: rest =>
    @instDecidableAnd (a.startVertex + a.vertexCount = b.startVertex) (Consecutive (b :: rest))
      inferInstance (Consecutive.decidable (b :: rest))

/-- Modelled from the spec: an instance of the parts missing from the sources. `Batch()` is
the all-zero descriptor; a batch is valid iff it has a non-empty vertex range and a texture
reference (a non-zero source hash); the texture cache of a batch is the bucket of its size
class, the larger of width and height; the color selection takes the vertex color when the
RGB combine multiplies by texture and the constant color otherwise. -/
def specOps : BatchOps where
  defaultBatch :=
    { textureStartAddress := 0, textureHash := 0, width := 0, height := 0,
      textureCategory := TextureCategory.other 0, textureAtlas := 0, textureIndex := 0,
      primitiveType := PrimitiveType.other 0, alphaBlend := AlphaBlend.Opaque,
      rgbCombine := RgbCombine.ColorMultipliedByTexture, alphaCombine := AlphaCombine.One,
      isChromaKeyEnabled := false, paletteIndex := 0, gameAddress := GameAddress.other 0,
      startVertex := 0, vertexCount := 0 }
  IsValid := fun b => b.vertexCount != 0 && b.textureHash != 0
  GetTextureCache := fun b => max b.width b.height
  SelectColorAndAlpha := fun b iteratedColor constantColor =>
    if b.rgbCombine = RgbCombine.ColorMultipliedByTexture then iteratedColor else constantColor

/-- A 16x16 textured triangle batch with the given source hash, atlas slot and vertex
range, used as concrete input. -/
def sampleBatch (hash slot start count : Nat) : Batch :=
  { specOps.defaultBatch with
    textureHash := hash, width := 16, height := 16, textureIndex := slot,
    primitiveType := PrimitiveType.Triangles, startVertex := start, vertexCount := count }

/-- The draws of `DrawBatches` once its loop has ended in state `r`: the trailing flush of
a valid merged batch. -/
def finish (ops : BatchOps) (r : Batch × List Batch) : List Batch :=
  if ops.IsValid r.1 then r.2 ++ [r.1] else r.2

/-- The draws emitted from loop state `mergedBatch` on for the remaining batches. -/
def drawsFrom (ops : BatchOps) (mergedBatch : Batch) (bs : List Batch) : List Batch :=
  finish ops (drawBatchesLoop ops bs mergedBatch [])

/-- The invariant of the ghost record: the folded batches start with the batch the draw was
started from, the draw is that batch with the summed vertex count, and every folded batch
shares texture cache, atlas, blend mode and primitive type with it. -/
def FoldedOk (ops : BatchOps) (e : Batch × List Batch) : Prop :=
  ∃ first rest, e.2 = first :: rest ∧ e.1 = first.SetVertexCount (totalVertexCount e.2) ∧
    ∀ x ∈ e.2, SameState ops x first

/-! ## Frame state and collaborators -/

/-- Modelled from the spec: the canonical `Vertex` (`Vertex.h` is not among the sources), one
field per argument of the constructor call in `ReadVertex`: screen position, texture
coordinates, packed color, combine tags, chroma-key flag, atlas slot and palette index. -/
structure Vertex where
  x : Rat
  y : Rat
  s : Int
  t : Int
  color : Nat
  rgbCombine : RgbCombine
  alphaCombine : AlphaCombine
  isChromaKeyEnabled : Bool
  textureIndex : Nat
  paletteIndex : Nat
  deriving DecidableEq

/-- `TextureCacheLocation`: the (atlas, slot) pair returned by `UpdateTexture`. -/
structure TextureCacheLocation where
  textureAtlas : Nat
  textureIndex : Nat
  deriving DecidableEq

/-- The calls made to the external collaborators (render backend and game helper), in the
order they are made. -/
inductive ExternalCall where
  | SetIngameMousePos (x y : Int)
  | UpdateTexture (batch : Batch)
  | Draw (batch : Batch)
  | BulkWriteVertices (vertexCount : Nat)
  | Present
  | SetPalette (paletteIndex : Nat) (palette : List Nat)
  | Print (message : String)
  deriving DecidableEq

/-- The game-introspection collaborator `_gameHelper` (declared outside the sources): the
answers of its queries. -/
structure GameHelper where
  ScreenOpenMode : Int
  IdentifyGameAddress : Nat → GameAddress
  RefineTextureCategoryFromGameAddress : TextureCategory → GameAddress → TextureCategory

/-- The render backend `_d3d11Context` (declared outside the sources): the location
`UpdateTexture` answers for a batch and the TMU memory, which may depend on the calls made so
far, and the width and height that `GetGameSize` answers. -/
structure RenderBackend where
  UpdateTexture : List ExternalCall → Batch → List Nat → TextureCacheLocation
  GetGameSize : Int × Int

/-- The caller's memory as `ReadVertex` reads it: the `float` and the 32-bit word stored at
an address. -/
structure Memory where
  readFloat : Nat → Rat
  readUInt32 : Nat → Nat

/-- The `mode` argument of the vertex-array calls: the two handled Glide constants, or any
other value. -/
inductive VertexArrayMode where
  | GR_TRIANGLE_FAN
  | GR_TRIANGLE_STRIP
  | other (code : Nat)
  deriving DecidableEq

/-- The members of `D2DXContext` used by the embedded functions. `batches`, `vertices` and
`paletteKeys` are the fixed-capacity buffers `_batches.items`, `_vertices.items` and
`_paletteKeys.items` (their length is the capacity); `calls` records the calls made to the
external collaborators; `noLogo` is `_options.noLogo`. -/
structure D2DXContext where
  frame : Nat
  majorGameState : MajorGameState
  vertexLayout : Nat
  constantColor : Nat
  scratchBatch : Batch
  batchCount : Nat
  batches : List Batch
  vertexCount : Nat
  vertices : List Vertex
  tmuMemory : List Nat
  mouseX : Int
  mouseY : Int
  calls : List ExternalCall
  paletteKeys : List Nat
  logoTextureBatch : Batch
  sideTmuMemory : List Nat
  noLogo : Bool

/-- The value of `(int32_t)n` for an unsigned 32-bit `n`. -/
def int32Cast (n : Nat) : Int :=
  if n % 2 ^ 32 < 2 ^ 31 then ((n % 2 ^ 32 : Nat) : Int) else ((n % 2 ^ 32 : Nat) : Int) - 2 ^ 32

/-- The indices `0 <= i < batchCount` visited by the `for` loops over the batch list. -/
def loopIndices (batchCount : Int) : List Nat :=
  List.range batchCount.toNat

/-! ## GameStateTracker: `D2DXContext::CheckMajorGameState` -/

/-- The first scan of `CheckMajorGameState`: whether some batch has the draw-site tag
`DrawFloor` (the loop breaks at the first). A read past the buffer is no result. -/
def scanDrawFloor (batches : List Batch) : List Nat → Option Bool
  | [] => some false
  | i :: rest =>
    match batches[i]? with
    | none => none
    | some batch =>
      if batch.gameAddress = GameAddress.DrawFloor then some true
      else scanDrawFloor batches rest

/-- The second scan of `CheckMajorGameState`: for every batch the vertex at its start index
is read; the scan stops at the first batch with hash `0x4bea7b80` and `y0 >= 550`. A read
past either buffer is no result. -/
def scanTitleScreen (batches : List Batch) (vertices : List Vertex) : List Nat → Option Bool
  | [] => some false
  | i :: rest =>
    match batches[i]? with
    | none => none
    | some batch =>
      match vertices[batch.startVertex]? with
      | none => none
      | some v =>
        let y0 := v.y
        if batch.textureHash = 0x4bea7b80 ∧ y0 ≥ 550 then some true
        else scanTitleScreen batches vertices rest

/-- `D2DXContext::CheckMajorGameState`. -/
def CheckMajorGameState (gh : GameHelper) (ctx : D2DXContext) : Option D2DXContext :=
  let batchCount : Int := int32Cast ctx.batchCount
  let ctx1 :=
    if ctx.majorGameState = MajorGameState.Unknown ∧ batchCount = 0 then
      { ctx with majorGameState := MajorGameState.FmvIntro }
    else ctx
  let ctx2 := { ctx1 with majorGameState := MajorGameState.Menus }
  if gh.ScreenOpenMode = 3 then
    some { ctx2 with majorGameState := MajorGameState.InGame }
  else
    match scanDrawFloor ctx2.batches (loopIndices batchCount) with
    | none => none
    | some floor =>
      let ctx3 := if floor then { ctx2 with majorGameState := MajorGameState.InGame } else ctx2
      if ctx3.majorGameState = MajorGameState.Menus then
        match scanTitleScreen ctx3.batches ctx3.vertices (loopIndices batchCount) with
        | none => none
        | some title =>
          some (if title then { ctx3 with majorGameState := MajorGameState.TitleScreen }
            else ctx3)
      else some ctx3

/-! ## VertexDecoder and BatchAccumulator: `ReadVertex`, `OnDrawVertexArray` -/

/-- The conversion `(int16_t)f` of a `float`: truncation toward zero, reduced to 16 bits. -/
def floatToInt16 (f : Rat) : Int :=
  let truncated : Int := if 0 ≤ f then ⌊f⌋ else -⌊-f⌋
  (truncated + 2 ^ 15) % 2 ^ 16 - 2 ^ 15

/-- `D2DXContext::ReadVertex`. `_BitScanReverse` yields the index of the highest set bit
(`stShift` keeps its initial 0 for a zero mask); `8 - stShift` is unsigned 32-bit. The two
assertions on the texture coordinates are the only way to fail. -/
def ReadVertex (ops : BatchOps) (mem : Memory) (constantColor : Nat) (vertex : Nat)
    (vertexLayout : Nat) (batch : Batch) : Option Vertex :=
  let stShift0 : Nat := Nat.log2 (max batch.width batch.height)
  let stShift : Nat := (8 + 2 ^ 32 - stShift0) % 2 ^ 32
  let xyOffset : Nat := (vertexLayout >>> 16) &&& 0xFF
  let stOffset : Nat := (vertexLayout >>> 8) &&& 0xFF
  let pargbOffset : Nat := vertexLayout &&& 0xFF
  let xy0 := mem.readFloat (vertex + xyOffset)
  let xy1 := mem.readFloat (vertex + xyOffset + 4)
  let st0 := mem.readFloat (vertex + stOffset)
  let st1 := mem.readFloat (vertex + stOffset + 4)
  if st0 - (⌊st0⌋ : Rat) < 1000000 ∧ st1 - (⌊st1⌋ : Rat) < 1000000 then
    let s : Int := floatToInt16 st0 >>> stShift
    let t : Int := floatToInt16 st1 >>> stShift
    let pargb : Nat := if pargbOffset ≠ 0xFF then mem.readUInt32 (vertex + pargbOffset)
      else 0xFFFFFFFF
    some
      { x := xy0, y := xy1, s := s, t := t,
        color := ops.SelectColorAndAlpha batch pargb constantColor,
        rgbCombine := batch.rgbCombine, alphaCombine := batch.alphaCombine,
        isChromaKeyEnabled := batch.isChromaKeyEnabled,
        textureIndex := batch.textureIndex, paletteIndex := batch.paletteIndex }
  else none

/-- `D2DXContext::FixIngameMousePosition`. -/
def FixIngameMousePosition (ctx : D2DXContext) : D2DXContext :=
  if ctx.batchCount = 0 then
    { ctx with calls := ctx.calls ++ [ExternalCall.SetIngameMousePos ctx.mouseX ctx.mouseY] }
  else ctx

/-- `D2DXContext::PrepareBatchForSubmit`: the stamped batch, and the context after the
`UpdateTexture` call to the backend. The source ignores its `primitiveType` argument and
always stamps `Triangles`. -/
def PrepareBatchForSubmit (gh : GameHelper) (backend : RenderBackend) (ctx : D2DXContext)
    (batch : Batch) (_primitiveType : PrimitiveType) (vertexCount : Nat) (gameContext : Nat) :
    Batch × D2DXContext :=
  let gameAddress := gh.IdentifyGameAddress gameContext
  let batch1 := { batch with primitiveType := PrimitiveType.Triangles }
  let tcl := backend.UpdateTexture ctx.calls batch1 ctx.tmuMemory
  let batch2 := { batch1 with textureAtlas := tcl.textureAtlas, textureIndex := tcl.textureIndex }
  let batch3 := { batch2 with gameAddress := gameAddress, startVertex := ctx.vertexCount }
  let batch4 := batch3.SetVertexCount vertexCount
  let batch5 := { batch4 with
    textureCategory := gh.RefineTextureCategoryFromGameAddress batch4.textureCategory gameAddress }
  (batch5, { ctx with calls := ctx.calls ++ [ExternalCall.UpdateTexture batch1] })

/-- The three writes `_vertices.items[vertexWriteIndex++] = ...` of one triangle and the
update of `_vertexCount`, guarded by `assert((_vertexCount + 3) < _vertices.capacity)`. -/
def writeTriangle (ctx : D2DXContext) (a b c : Vertex) : Option D2DXContext :=
  if ctx.vertexCount + 3 < ctx.vertices.length then
    let vertexWriteIndex := ctx.vertexCount
    some { ctx with
      vertices := ((ctx.vertices.set vertexWriteIndex a).set (vertexWriteIndex + 1) b).set
        (vertexWriteIndex + 2) c
      vertexCount := vertexWriteIndex + 3 }
  else none

/-- The `for (i = 2; i < count; ++i)` loop of the fan case, over the remaining indices. -/
def fanLoop (read : Nat → Option Vertex) (firstVertex : Vertex) :
    List Nat → Vertex → D2DXContext → Option D2DXContext
  | [], _, ctx => some ctx
  | i :: rest, prevVertex, ctx =>
    match read i with
    | none => none
    | some currentVertex =>
      match writeTriangle ctx firstVertex prevVertex currentVertex with
      | none => none
      | some ctx1 => fanLoop read firstVertex rest currentVertex ctx1

/-- The `for (i = 2; i < count; ++i)` loop of the strip case, over the remaining indices. -/
def stripLoop (read : Nat → Option Vertex) :
    List Nat → Vertex → Vertex → D2DXContext → Option D2DXContext
  | [], _, _, ctx => some ctx
  | i :: rest, prevPrevVertex, prevVertex, ctx =>
    match read i with
    | none => none
    | some currentVertex =>
      match writeTriangle ctx prevPrevVertex prevVertex currentVertex with
      | none => none
      | some ctx1 => stripLoop read rest prevVertex currentVertex ctx1

/-- The tail of the vertex-array calls: `assert(_batchCount < _batches.capacity)` and
`_batches.items[_batchCount++] = batch`. -/
def appendBatch (ctx : D2DXContext) (batch : Batch) : Option D2DXContext :=
  if ctx.batchCount < ctx.batches.length then
    some { ctx with
      batches := ctx.batches.set ctx.batchCount batch
      batchCount := ctx.batchCount + 1 }
  else none

/-- `D2DXContext::OnDrawVertexArray`. `count` is an unsigned 32-bit value, `pointers` maps
an index of the pointer array to the address stored there; `(count - 2) * 3` is computed in
unsigned 32-bit arithmetic. An unhandled mode fails its assertion. -/
def OnDrawVertexArray (ops : BatchOps) (gh : GameHelper) (backend : RenderBackend)
    (mem : Memory) (mode : VertexArrayMode) (count : Nat) (pointers : Nat → Nat)
    (gameContext : Nat) (ctx : D2DXContext) : Option D2DXContext :=
  let ctx0 := FixIngameMousePosition ctx
  let prepared := PrepareBatchForSubmit gh backend ctx0 ctx0.scratchBatch
    PrimitiveType.Triangles (((count + 2 ^ 32 - 2) % 2 ^ 32 * 3) % 2 ^ 32) gameContext
  let batch := prepared.1
  let ctx1 := prepared.2
  let vertexLayout := ctx1.vertexLayout
  let read := fun i => ReadVertex ops mem ctx1.constantColor (pointers i) vertexLayout batch
  let indices := List.range' 2 (count - 2)
  match mode with
  | VertexArrayMode.GR_TRIANGLE_FAN =>
    match read 0, read 1 with
    | some firstVertex, some prevVertex =>
      match fanLoop read firstVertex indices prevVertex ctx1 with
      | none => none
      | some ctx2 => appendBatch ctx2 batch
    | _, _ => none
  | VertexArrayMode.GR_TRIANGLE_STRIP =>
    match read 0, read 1 with
    | some prevPrevVertex, some prevVertex =>
      match stripLoop read indices prevPrevVertex prevVertex ctx1 with
      | none => none
      | some ctx2 => appendBatch ctx2 batch
    | _, _ => none
  | VertexArrayMode.other _ => none

/-- The stamped batch and the context that `OnDrawVertexArray` has once
`FixIngameMousePosition` and `PrepareBatchForSubmit` have run. -/
def preparedSubmit (gh : GameHelper) (backend : RenderBackend) (count gameContext : Nat)
    (ctx : D2DXContext) : Batch × D2DXContext :=
  PrepareBatchForSubmit gh backend (FixIngameMousePosition ctx)
    (FixIngameMousePosition ctx).scratchBatch PrimitiveType.Triangles
    (((count + 2 ^ 32 - 2) % 2 ^ 32 * 3) % 2 ^ 32) gameContext

/-- A pointer array whose entries are 32 bytes apart, used as concrete input. -/
def samplePointers : Nat → Nat :=
  fun i => 32 * i

/-- A context as the constructor and `OnSstWinOpen` leave it, for given buffer capacities and
initial vertex: no batches, no vertices, state `Unknown`, layout `0xFF`, constant color
`0xFFFFFFFF`, all palette keys zero (four palette slots). -/
def D2DXContext.initial (ops : BatchOps) (maxBatches maxVertices : Nat) (v : Vertex) :
    D2DXContext :=
  { frame := 0, majorGameState := MajorGameState.Unknown, vertexLayout := 0xFF,
    constantColor := 0xFFFFFFFF, scratchBatch := ops.defaultBatch, batchCount := 0,
    batches := List.replicate maxBatches ops.defaultBatch, vertexCount := 0,
    vertices := List.replicate maxVertices v, tmuMemory := [], mouseX := 0, mouseY := 0,
    calls := [], paletteKeys := List.replicate 4 0, logoTextureBatch := ops.defaultBatch,
    sideTmuMemory := [], noLogo := false }

/-- The all-zero vertex, used as concrete buffer content. -/
def zeroVertex : Vertex :=
  { x := 0, y := 0, s := 0, t := 0, color := 0,
    rgbCombine := RgbCombine.ColorMultipliedByTexture, alphaCombine := AlphaCombine.One,
    isChromaKeyEnabled := false, textureIndex := 0, paletteIndex := 0 }

/-- A game helper whose screen-open-mode query answers `mode`, used as concrete input. -/
def sampleHelper (mode : Int) : GameHelper :=
  { ScreenOpenMode := mode,
    IdentifyGameAddress := fun _ => GameAddress.other 0,
    RefineTextureCategoryFromGameAddress := fun c _ => c }

/-- A backend that places every texture in slot 0 of atlas 0, used as concrete input. -/
def sampleBackend : RenderBackend :=
  { UpdateTexture := fun _ _ _ => { textureAtlas := 0, textureIndex := 0 },
    GetGameSize := (800, 600) }

/-- A memory holding the float 0 and the word 0 everywhere, used as concrete input. -/
def zeroMemory : Memory :=
  { readFloat := fun _ => 0, readUInt32 := fun _ => 0 }

/-! ## Float arithmetic -/

/-- The `float` operations of the target (`-`, `+`, `*`, `/` and `sqrtf`) on the values
floats denote. Their rounding is not part of the sources, so they are a parameter. -/
structure FloatOps where
  sub : Rat → Rat → Rat
  add : Rat → Rat → Rat
  mul : Rat → Rat → Rat
  div : Rat → Rat → Rat
  sqrtf : Rat → Rat

/-- Float operations without rounding error: the four arithmetic operations are those of the
rationals. -/
def FloatOps.Exact (F : FloatOps) : Prop :=
  (∀ a b, F.sub a b = a - b) ∧ (∀ a b, F.add a b = a + b) ∧ (∀ a b, F.mul a b = a * b) ∧
  (∀ a b, F.div a b = a / b)

/-- Exact rational arithmetic with the rational square root of perfect squares, used as
concrete input. -/
def exactFloat : FloatOps :=
  { sub := fun a b => a - b, add := fun a b => a + b, mul := fun a b => a * b,
    div := fun a b => a / b, sqrtf := Rat.sqrt }

/-- The value of the literal `0.01f`: the binary32 number nearest to 1/100. -/
def float001 : Rat :=
  5368709 / 536870912

/-! ## BatchAccumulator: `OnDrawLine`, `OnDrawVertexArrayContiguous` -/

/-- The six writes `_vertices.items[vertexWriteIndex++] = ...` of a quad and the update of
`_vertexCount`, guarded by `assert((_vertexCount + 6) < _vertices.capacity)`. -/
def writeQuad (ctx : D2DXContext) (a b c d e f : Vertex) : Option D2DXContext :=
  if ctx.vertexCount + 6 < ctx.vertices.length then
    let vertexWriteIndex := ctx.vertexCount
    some { ctx with
      vertices := (((((ctx.vertices.set vertexWriteIndex a).set (vertexWriteIndex + 1) b).set
        (vertexWriteIndex + 2) c).set (vertexWriteIndex + 3) d).set (vertexWriteIndex + 4) e).set
        (vertexWriteIndex + 5) f
      vertexCount := vertexWriteIndex + 6 }
  else none

/-- The offset `(dx, dy)` that `OnDrawLine` computes from the decoded end points: the
perpendicular `(sy - ey, ex - sx)` scaled by `1 / (2 * len)`, where `len` is `sqrtf(lensqr)`
if `lensqr > 0.01f` and `1` otherwise. -/
def lineOffset (F : FloatOps) (startVertex endVertex : Vertex) : Rat × Rat :=
  let dx := F.sub startVertex.y endVertex.y
  let dy := F.sub endVertex.x startVertex.x
  let lensqr := F.add (F.mul dx dx) (F.mul dy dy)
  let len := if lensqr > float001 then F.sqrtf lensqr else 1
  let halfinvlen := F.div 1 (F.mul 2 len)
  (F.mul dx halfinvlen, F.mul dy halfinvlen)

/-- The batch `OnDrawLine` stamps from the scratch batch before decoding the end points. -/
def lineBatch (gh : GameHelper) (gameContext : Nat) (ctx : D2DXContext) : Batch :=
  let gameAddress := gh.IdentifyGameAddress gameContext
  let batch1 := { ctx.scratchBatch with primitiveType := PrimitiveType.Triangles }
  let batch2 := { batch1 with gameAddress := gameAddress, startVertex := ctx.vertexCount }
  { batch2 with
    textureCategory := gh.RefineTextureCategoryFromGameAddress batch2.textureCategory gameAddress }

/-- `D2DXContext::OnDrawLine`. `v1` and `v2` are the addresses of the two vertex records. -/
def OnDrawLine (ops : BatchOps) (F : FloatOps) (gh : GameHelper) (mem : Memory)
    (v1 v2 gameContext : Nat) (ctx : D2DXContext) : Option D2DXContext :=
  let ctx0 := FixIngameMousePosition ctx
  let batch := lineBatch gh gameContext ctx0
  match ReadVertex ops mem ctx0.constantColor v1 ctx0.vertexLayout batch,
    ReadVertex ops mem ctx0.constantColor v2 ctx0.vertexLayout batch with
  | some startVertex, some endVertex =>
    let d := lineOffset F startVertex endVertex
    let dx := d.1
    let dy := d.2
    let vertex0 := { startVertex with x := F.sub startVertex.x dx, y := F.sub startVertex.y dy }
    let vertex1 := { startVertex with x := F.add startVertex.x dx, y := F.add startVertex.y dy }
    let vertex2 := { endVertex with x := F.sub endVertex.x dx, y := F.sub endVertex.y dy }
    let vertex3 := { endVertex with x := F.add endVertex.x dx, y := F.add endVertex.y dy }
    match writeQuad ctx0 vertex0 vertex1 vertex2 vertex1 vertex2 vertex3 with
    | none => none
    | some ctx1 => appendBatch ctx1 (batch.SetVertexCount 6)
  | _, _ => none

/-- The fan loop of `OnDrawVertexArrayContiguous`: `remaining` iterations are left, `vertex`
is the running pointer, advanced by `stride` after every read. -/
def fanLoopContiguous (readAt : Nat → Option Vertex) (stride : Nat) (firstVertex : Vertex) :
    Nat → Nat → Vertex → D2DXContext → Option D2DXContext
  | 0, _, _, ctx => some ctx
  | remaining + 1, vertex, prevVertex, ctx =>
    match readAt vertex with
    | none => none
    | some currentVertex =>
      match writeTriangle ctx firstVertex prevVertex currentVertex with
      | none => none
      | some ctx1 =>
        fanLoopContiguous readAt stride firstVertex remaining (vertex + stride) currentVertex ctx1

/-- The strip loop of `OnDrawVertexArrayContiguous`, with the running pointer `vertex`. -/
def stripLoopContiguous (readAt : Nat → Option Vertex) (stride : Nat) :
    Nat → Nat → Vertex → Vertex → D2DXContext → Option D2DXContext
  | 0, _, _, _, ctx => some ctx
  | remaining + 1, vertex, prevPrevVertex, prevVertex, ctx =>
    match readAt vertex with
    | none => none
    | some currentVertex =>
      match writeTriangle ctx prevPrevVertex prevVertex currentVertex with
      | none => none
      | some ctx1 =>
        stripLoopContiguous readAt stride remaining (vertex + stride) prevVertex currentVertex ctx1

/-- `D2DXContext::OnDrawVertexArrayContiguous`: the vertex records start at address `vertex`
and lie `stride` bytes apart. -/
def OnDrawVertexArrayContiguous (ops : BatchOps) (gh : GameHelper) (backend : RenderBackend)
    (mem : Memory) (mode : VertexArrayMode) (count : Nat) (vertex stride : Nat)
    (gameContext : Nat) (ctx : D2DXContext) : Option D2DXContext :=
  let ctx0 := FixIngameMousePosition ctx
  let prepared := PrepareBatchForSubmit gh backend ctx0 ctx0.scratchBatch
    PrimitiveType.Triangles (((count + 2 ^ 32 - 2) % 2 ^ 32 * 3) % 2 ^ 32) gameContext
  let batch := prepared.1
  let ctx1 := prepared.2
  let readAt := fun p => ReadVertex ops mem ctx1.constantColor p ctx1.vertexLayout batch
  match mode with
  | VertexArrayMode.GR_TRIANGLE_FAN =>
    match readAt vertex, readAt (vertex + stride) with
    | some firstVertex, some prevVertex =>
      match fanLoopContiguous readAt stride firstVertex (count - 2) (vertex + stride + stride)
        prevVertex ctx1 with
      | none => none
      | some ctx2 => appendBatch ctx2 batch
    | _, _ => none
  | VertexArrayMode.GR_TRIANGLE_STRIP =>
    match readAt vertex, readAt (vertex + stride) with
    | some prevPrevVertex, some prevVertex =>
      match stripLoopContiguous readAt stride (count - 2) (vertex + stride + stride)
        prevPrevVertex prevVertex ctx1 with
      | none => none
      | some ctx2 => appendBatch ctx2 batch
    | _, _ => none
  | VertexArrayMode.other _ => none

/-- A geometry submission: one call of `OnDrawLine`, `OnDrawVertexArray` or
`OnDrawVertexArrayContiguous` with its arguments. -/
inductive Submission where
  | line (v1 v2 gameContext : Nat)
  | vertexArray (mode : VertexArrayMode) (count : Nat) (pointers : Nat → Nat) (gameContext : Nat)
  | contiguous (mode : VertexArrayMode) (count : Nat) (vertex stride gameContext : Nat)

/-- The `count` argument of a vertex-array submission (a line has none). -/
def Submission.count? : Submission → Option Nat
  | Submission.line _ _ _ => none
  | Submission.vertexArray _ count _ _ => some count
  | Submission.contiguous _ count _ _ _ => some count

/-- One geometry submission applied to the context. -/
def submit (ops : BatchOps) (F : FloatOps) (gh : GameHelper) (backend : RenderBackend)
    (mem : Memory) : Submission → D2DXContext → Option D2DXContext
  | Submission.line v1 v2 gameContext, ctx => OnDrawLine ops F gh mem v1 v2 gameContext ctx
  | Submission.vertexArray mode count pointers gameContext, ctx =>
    OnDrawVertexArray ops gh backend mem mode count pointers gameContext ctx
  | Submission.contiguous mode count vertex stride gameContext, ctx =>
    OnDrawVertexArrayContiguous ops gh backend mem mode count vertex stride gameContext ctx

/-- A sequence of geometry submissions, each applied to the context the previous one left;
the first one that fails an assertion ends the run. -/
def submitAll (ops : BatchOps) (F : FloatOps) (gh : GameHelper) (backend : RenderBackend)
    (mem : Memory) : List Submission → D2DXContext → Option D2DXContext
  | [], ctx => some ctx
  | s :: rest, ctx =>
    match submit ops F gh backend mem s ctx with
    | none => none
    | some ctx1 => submitAll ops F gh backend mem rest ctx1

/-- The batches of the frame, `_batches.items[0 .. _batchCount)`, cover the vertex indices
from `start` to `stop` without gap or overlap: each batch starts where the previous one
ends. -/
def RangesCover : Nat → List Batch → Nat → Prop
  | start, [], stop => start = stop
  | start, b :: rest, stop => b.startVertex = start ∧ RangesCover (start + b.vertexCount) rest stop

/-! ## State setters: blend and combine modes -/

/-- `GrAlphaBlendFnc_t`: the blend factors named in the sources, or any other value. -/
inductive GrAlphaBlendFnc where
  | GR_BLEND_ZERO
  | GR_BLEND_ONE
  | GR_BLEND_SRC_ALPHA
  | GR_BLEND_ONE_MINUS_SRC_ALPHA
  | GR_BLEND_SRC_COLOR
  | other (code : Nat)
  deriving DecidableEq

/-- `GrCombineFunction_t`: the functions named in the sources, or any other value. -/
inductive GrCombineFunction where
  | GR_COMBINE_FUNCTION_ZERO
  | GR_COMBINE_FUNCTION_LOCAL
  | GR_COMBINE_FUNCTION_SCALE_OTHER
  | other (code : Nat)
  deriving DecidableEq

/-- `GrCombineFactor_t`: the factors named in the sources, or any other value. -/
inductive GrCombineFactor where
  | GR_COMBINE_FACTOR_ZERO
  | GR_COMBINE_FACTOR_LOCAL
  | other (code : Nat)
  deriving DecidableEq

/-- `GrCombineLocal_t`: the values named in the sources, or any other value. -/
inductive GrCombineLocal where
  | GR_COMBINE_LOCAL_ITERATED
  | GR_COMBINE_LOCAL_CONSTANT
  | other (code : Nat)
  deriving DecidableEq

/-- `GrCombineOther_t`: the values named in the sources, or any other value. -/
inductive GrCombineOther where
  | GR_COMBINE_OTHER_TEXTURE
  | GR_COMBINE_OTHER_CONSTANT
  | other (code : Nat)
  deriving DecidableEq

/-- `D2DXContext::OnAlphaBlendFunction`. The `switch` on the packed factors
(`D2DX_GLIDE_ALPHA_BLEND`, taken to pack distinct factor tuples into distinct values) has
four cases and no default: for any other tuple `alphaBlend` keeps its initial value `Opaque`.
The function has no assertion; it always returns. -/
def OnAlphaBlendFunction (rgb_sf rgb_df alpha_sf alpha_df : GrAlphaBlendFnc)
    (ctx : D2DXContext) : Option D2DXContext :=
  let alphaBlend :=
    match rgb_sf, rgb_df, alpha_sf, alpha_df with
    | GrAlphaBlendFnc.GR_BLEND_ONE, GrAlphaBlendFnc.GR_BLEND_ZERO,
        GrAlphaBlendFnc.GR_BLEND_ZERO, GrAlphaBlendFnc.GR_BLEND_ZERO => AlphaBlend.Opaque
    | GrAlphaBlendFnc.GR_BLEND_SRC_ALPHA, GrAlphaBlendFnc.GR_BLEND_ONE_MINUS_SRC_ALPHA,
        GrAlphaBlendFnc.GR_BLEND_ZERO, GrAlphaBlendFnc.GR_BLEND_ZERO =>
      AlphaBlend.SrcAlphaInvSrcAlpha
    | GrAlphaBlendFnc.GR_BLEND_ONE, GrAlphaBlendFnc.GR_BLEND_ONE,
        GrAlphaBlendFnc.GR_BLEND_ZERO, GrAlphaBlendFnc.GR_BLEND_ZERO => AlphaBlend.Additive
    | GrAlphaBlendFnc.GR_BLEND_ZERO, GrAlphaBlendFnc.GR_BLEND_SRC_COLOR,
        GrAlphaBlendFnc.GR_BLEND_ZERO, GrAlphaBlendFnc.GR_BLEND_ZERO =>
      AlphaBlend.Multiplicative
    | _, _, _, _ => AlphaBlend.Opaque
  some { ctx with scratchBatch := { ctx.scratchBatch with alphaBlend := alphaBlend } }

/-- `D2DXContext::OnColorCombine`; the `else` branch is `assert(false)`. The argument
`invert` is not used. -/
def OnColorCombine (function : GrCombineFunction) (factor : GrCombineFactor)
    (local_ : GrCombineLocal) (other : GrCombineOther) (_invert : Bool) (ctx : D2DXContext) :
    Option D2DXContext :=
  if function = GrCombineFunction.GR_COMBINE_FUNCTION_SCALE_OTHER ∧
      factor = GrCombineFactor.GR_COMBINE_FACTOR_LOCAL ∧
      local_ = GrCombineLocal.GR_COMBINE_LOCAL_ITERATED ∧
      other = GrCombineOther.GR_COMBINE_OTHER_TEXTURE then
    some { ctx with scratchBatch :=
      { ctx.scratchBatch with rgbCombine := RgbCombine.ColorMultipliedByTexture } }
  else if function = GrCombineFunction.GR_COMBINE_FUNCTION_LOCAL ∧
      factor = GrCombineFactor.GR_COMBINE_FACTOR_ZERO ∧
      local_ = GrCombineLocal.GR_COMBINE_LOCAL_CONSTANT ∧
      other = GrCombineOther.GR_COMBINE_OTHER_CONSTANT then
    some { ctx with scratchBatch := { ctx.scratchBatch with rgbCombine := RgbCombine.ConstantColor } }
  else none

/-- `D2DXContext::OnAlphaCombine`; the `else` branch is `assert(false)`. The argument
`invert` is not used. -/
def OnAlphaCombine (function : GrCombineFunction) (factor : GrCombineFactor)
    (local_ : GrCombineLocal) (other : GrCombineOther) (_invert : Bool) (ctx : D2DXContext) :
    Option D2DXContext :=
  if function = GrCombineFunction.GR_COMBINE_FUNCTION_ZERO ∧
      factor = GrCombineFactor.GR_COMBINE_FACTOR_ZERO ∧
      local_ = GrCombineLocal.GR_COMBINE_LOCAL_CONSTANT ∧
      other = GrCombineOther.GR_COMBINE_OTHER_CONSTANT then
    some { ctx with scratchBatch := { ctx.scratchBatch with alphaCombine := AlphaCombine.One } }
  else if function = GrCombineFunction.GR_COMBINE_FUNCTION_LOCAL ∧
      factor = GrCombineFactor.GR_COMBINE_FACTOR_ZERO ∧
      local_ = GrCombineLocal.GR_COMBINE_LOCAL_CONSTANT ∧
      other = GrCombineOther.GR_COMBINE_OTHER_CONSTANT then
    some { ctx with scratchBatch := { ctx.scratchBatch with alphaCombine := AlphaCombine.Texture } }
  else none

/-! ## Palette table: `D2DXContext::OnTexDownloadTable` -/

/-- `GrTexTable_t`: the table type named in the sources, or any other value. -/
inductive GrTexTable where
  | GR_TEXTABLE_PALETTE
  | other (code : Nat)
  deriving DecidableEq

/-- The first loop of `OnTexDownloadTable` from slot `i` on: it stops without result at the
first zero key and answers the first slot whose key is `hash`. -/
def findPaletteKey (hash : Nat) : List Nat → Nat → Option Nat
  | [], _ => none
  | key :: rest, i =>
    if key = 0 then none
    else if key = hash then some i
    else findPaletteKey hash rest (i + 1)

/-- The second loop of `OnTexDownloadTable` from slot `i` on: the first slot whose key is
zero. -/
def findFreeKey : List Nat → Nat → Option Nat
  | [], _ => none
  | key :: rest, i => if key = 0 then some i else findFreeKey rest (i + 1)

/-- `D2DXContext::OnTexDownloadTable`. `fnv` is `fnv_32a_buf` with its initial value (declared
outside the sources) and `data` the 1024 bytes of the table. The function continues after
two of its assertions (`return` after the type check, `ALWAYS_PRINT` after
`assert(false && "Too many palettes.")`): `assertsEnabled` tells whether assertions are
compiled in, in which case a failed assertion is the fatal stop `none`. -/
def OnTexDownloadTable (assertsEnabled : Bool) (fnv : List Nat → Nat) (type : GrTexTable)
    (data : List Nat) (ctx : D2DXContext) : Option D2DXContext :=
  if type ≠ GrTexTable.GR_TEXTABLE_PALETTE then
    if assertsEnabled then none else some ctx
  else
    let hash := fnv (data.take 1024)
    if assertsEnabled ∧ hash = 0 then none
    else
      match findPaletteKey hash ctx.paletteKeys 0 with
      | some i =>
        some { ctx with scratchBatch := { ctx.scratchBatch with paletteIndex := i } }
      | none =>
        match findFreeKey ctx.paletteKeys 0 with
        | some i =>
          some { ctx with
            paletteKeys := ctx.paletteKeys.set i hash
            scratchBatch := { ctx.scratchBatch with paletteIndex := i }
            calls := ctx.calls ++ [ExternalCall.SetPalette i data] }
        | none =>
          if assertsEnabled then none
          else some { ctx with calls := ctx.calls ++ [ExternalCall.Print "Too many palettes."] }

/-- A sequence of palette downloads, each applied to the context the previous one left. -/
def downloadAll (assertsEnabled : Bool) (fnv : List Nat → Nat) :
    List (List Nat) → D2DXContext → Option D2DXContext
  | [], ctx => some ctx
  | data :: rest, ctx =>
    match OnTexDownloadTable assertsEnabled fnv GrTexTable.GR_TEXTABLE_PALETTE data ctx with
    | none => none
    | some ctx1 => downloadAll assertsEnabled fnv rest ctx1

/-- A stand-in for `fnv_32a_buf` used as concrete input: the sum of the bytes plus one. -/
def sampleFnv (data : List Nat) : Nat :=
  data.sum + 1

/-! ## FrameController: `InsertLogoOnTitleScreen`, `OnBufferSwap` -/

/-- How an operation stops without result: a failed `assert`, or an access past the end of a
fixed-capacity buffer. -/
inductive Fault where
  | assertion
  | outOfBounds
  deriving DecidableEq

/-- The logo bitmap `dx_logo256` (`dx256_bmp.h`, not among the sources): the palette words at
offset `0x36` and the pixel byte at offset `0x436 + k`. -/
structure LogoAsset where
  palette : List Nat
  pixels : Nat → Nat

/-- `memset(data, 0, n)` on the bytes the buffer has. -/
def memsetZero (data : List Nat) (n : Nat) : List Nat :=
  List.replicate (min n data.length) 0 ++ data.drop n

/-- The two nested loops of `PrepareLogoTextureBatch`: the pixel read `k`-th from `srcPixels`
(`k = y * 80 + x`) goes to `data[x + (40 - y) * 128]`. -/
def copyLogoPixels (logo : LogoAsset) (data : List Nat) : List Nat :=
  (List.range 41).foldl
    (fun rows y =>
      (List.range 80).foldl
        (fun row x => row.set (x + (40 - y) * 128) (logo.pixels (y * 80 + x))) rows)
    data

/-- `D2DXContext::PrepareLogoTextureBatch`. -/
def PrepareLogoTextureBatch (ops : BatchOps) (fnv : List Nat → Nat) (logo : LogoAsset)
    (ctx : D2DXContext) : D2DXContext :=
  if ops.IsValid ctx.logoTextureBatch then ctx
  else
    let ctx1 := { ctx with calls := ctx.calls ++ [ExternalCall.SetPalette 15 logo.palette] }
    let hash := fnv ((List.range (81 * 40)).map logo.pixels)
    let batch : Batch :=
      { ctx1.logoTextureBatch with
        textureStartAddress := 0, textureHash := hash, width := 128, height := 128,
        textureCategory := TextureCategory.TitleScreen,
        primitiveType := PrimitiveType.Triangles,
        alphaBlend := AlphaBlend.SrcAlphaInvSrcAlpha, isChromaKeyEnabled := true,
        rgbCombine := RgbCombine.ColorMultipliedByTexture, alphaCombine := AlphaCombine.One,
        paletteIndex := 15, vertexCount := 6 }
    let data := memsetZero ctx1.sideTmuMemory (batch.width * batch.height)
    { ctx1 with logoTextureBatch := batch, sideTmuMemory := copyLogoPixels logo data }

/-- A vertex of the logo quad, as the constructor calls of `InsertLogoOnTitleScreen` build
it. -/
def logoVertex (x y : Rat) (s t : Int) (textureIndex : Nat) : Vertex :=
  { x := x, y := y, s := s, t := t, color := 0xFFFFa090,
    rgbCombine := RgbCombine.ColorMultipliedByTexture, alphaCombine := AlphaCombine.One,
    isChromaKeyEnabled := true, textureIndex := textureIndex, paletteIndex := 15 }

/-- `D2DXContext::InsertLogoOnTitleScreen`. The vertex writes are guarded by
`assert((_vertexCount + 6) < _vertices.capacity)`; the write
`_batches.items[_batchCount++] = _logoTextureBatch` has no assertion, so a write at an index
that is not below the capacity is the fault `outOfBounds`. -/
def InsertLogoOnTitleScreen (ops : BatchOps) (F : FloatOps) (fnv : List Nat → Nat)
    (logo : LogoAsset) (backend : RenderBackend) (ctx : D2DXContext) :
    Except Fault D2DXContext :=
  if ctx.noLogo ∨ ctx.majorGameState ≠ MajorGameState.TitleScreen ∨ ctx.batchCount ≤ 0 then
    Except.ok ctx
  else
    let ctx1 := PrepareLogoTextureBatch ops fnv logo ctx
    let tcl := backend.UpdateTexture ctx1.calls ctx1.logoTextureBatch ctx1.sideTmuMemory
    let ctx2 := { ctx1 with
      calls := ctx1.calls ++ [ExternalCall.UpdateTexture ctx1.logoTextureBatch]
      logoTextureBatch := { ctx1.logoTextureBatch with
        textureAtlas := tcl.textureAtlas, textureIndex := tcl.textureIndex,
        startVertex := ctx1.vertexCount } }
    let x : Rat := ((backend.GetGameSize.1 - 90 - 16 : Int) : Rat)
    let y : Rat := ((backend.GetGameSize.2 - 50 - 16 : Int) : Rat)
    let textureIndex := ctx2.logoTextureBatch.textureIndex
    let vertex0 := logoVertex x y 0 0 textureIndex
    let vertex1 := logoVertex (F.add x 80) y 80 0 textureIndex
    let vertex2 := logoVertex (F.add x 80) (F.add y 41) 80 41 textureIndex
    let vertex3 := logoVertex x (F.add y 41) 0 41 textureIndex
    match writeQuad ctx2 vertex0 vertex1 vertex2 vertex0 vertex2 vertex3 with
    | none => Except.error Fault.assertion
    | some ctx3 =>
      if ctx3.batchCount < ctx3.batches.length then
        Except.ok { ctx3 with
          batches := ctx3.batches.set ctx3.batchCount ctx3.logoTextureBatch
          batchCount := ctx3.batchCount + 1 }
      else Except.error Fault.outOfBounds

/-- `D2DXContext::DrawBatches` on the context: the draws of the first `(int32_t)_batchCount`
batches are passed to the backend. Reading a batch past the buffer is a fault. -/
def DrawBatchesOfFrame (ops : BatchOps) (ctx : D2DXContext) : Except Fault D2DXContext :=
  let batchCount := (int32Cast ctx.batchCount).toNat
  if batchCount ≤ ctx.batches.length then
    Except.ok { ctx with
      calls := ctx.calls ++ (DrawBatches ops (ctx.batches.take batchCount)).map ExternalCall.Draw }
  else Except.error Fault.outOfBounds

/-- `D2DXContext::OnBufferSwap`: classify, insert the logo, transfer the vertices, draw,
present, count the frame and reset the two per-frame counters. -/
def OnBufferSwap (ops : BatchOps) (F : FloatOps) (fnv : List Nat → Nat) (logo : LogoAsset)
    (gh : GameHelper) (backend : RenderBackend) (ctx : D2DXContext) :
    Except Fault D2DXContext :=
  match CheckMajorGameState gh ctx with
  | none => Except.error Fault.outOfBounds
  | some ctx1 =>
    match InsertLogoOnTitleScreen ops F fnv logo backend ctx1 with
    | Except.error fault => Except.error fault
    | Except.ok ctx2 =>
      let ctx3 := { ctx2 with
        calls := ctx2.calls ++ [ExternalCall.BulkWriteVertices ctx2.vertexCount] }
      match DrawBatchesOfFrame ops ctx3 with
      | Except.error fault => Except.error fault
      | Except.ok ctx4 =>
        let ctx5 := { ctx4 with calls := ctx4.calls ++ [ExternalCall.Present] }
        Except.ok { ctx5 with frame := ctx5.frame + 1, batchCount := 0, vertexCount := 0 }

/-- A logo asset with an empty palette and zero pixels, used as concrete input. -/
def sampleLogo : LogoAsset :=
  { palette := [], pixels := fun _ => 0 }

/-- The texture-coordinate shift as the spec states it:
`8 - floor(log2(max(width, height)))`. -/
def specShift (batch : Batch) : Nat :=
  8 - Nat.log2 (max batch.width batch.height)

/-- The frame classification as the spec states it, over the frame's batches: `InGame` if
any batch has the draw-site tag `DrawFloor`; otherwise `TitleScreen` if some batch has the
texture hash `0x4bea7b80` and the vertex at its start index has `y >= 550`; otherwise
`Menus`. -/
def classifyFrame (batches : List Batch) (vertices : List Vertex) : MajorGameState :=
  if batches.any (fun b => decide (b.gameAddress = GameAddress.DrawFloor)) then
    MajorGameState.InGame
  else if batches.any (fun b =>
      decide (b.textureHash = 0x4bea7b80) &&
        (match vertices[b.startVertex]? with
          | some v => decide (v.y ≥ 550)
          | none => false)) then
    MajorGameState.TitleScreen
  else MajorGameState.Menus

/-- The shape of the palette table in every state reached from an all-zero table: the used
slots, with non-zero and pairwise different keys, come first and the free (zero) slots
follow. -/
def PaletteInv (keys : List Nat) : Prop :=
  ∃ (used : List Nat) (free : Nat),
    keys = used ++ List.replicate free 0 ∧ (∀ h ∈ used, h ≠ 0) ∧ used.Nodup

/-- A vertex moved by minus the offset `d`, as `OnDrawLine` builds `vertex0` and
`vertex2`. -/
def Vertex.minus (F : FloatOps) (v : Vertex) (d : Rat × Rat) : Vertex :=
  { v with x := F.sub v.x d.1, y := F.sub v.y d.2 }

/-- A vertex moved by plus the offset `d`, as `OnDrawLine` builds `vertex1` and `vertex3`. -/
def Vertex.plus (F : FloatOps) (v : Vertex) (d : Rat × Rat) : Vertex :=
  { v with x := F.add v.x d.1, y := F.add v.y d.2 }

/-- The `param` argument of `OnVertexLayout`: the Glide constants its `switch` names (declared
outside the sources), or any other value. -/
inductive GrParam where
  | GR_PARAM_XY
  | GR_PARAM_ST0
  | GR_PARAM_ST1
  | GR_PARAM_PARGB
  | other (code : Nat)
  deriving DecidableEq

/-- The value of `offset & 0xFF` for an `int32_t` offset: the low byte of its 32-bit
two's-complement pattern. -/
def lowByte (offset : Int) : Nat :=
  (offset % 2 ^ 32).toNat &&& 0xFF

/-- `D2DXContext::OnVertexLayout`. A `param` without a case leaves the layout as it is. -/
def OnVertexLayout (param : GrParam) (offset : Int) (ctx : D2DXContext) : D2DXContext :=
  match param with
  | GrParam.GR_PARAM_XY =>
    { ctx with vertexLayout := (ctx.vertexLayout &&& 0xFFFF) ||| (lowByte offset <<< 16) }
  | GrParam.GR_PARAM_ST0 =>
    { ctx with vertexLayout := (ctx.vertexLayout &&& 0xFF00FF) ||| (lowByte offset <<< 8) }
  | GrParam.GR_PARAM_ST1 =>
    { ctx with vertexLayout := (ctx.vertexLayout &&& 0xFF00FF) ||| (lowByte offset <<< 8) }
  | GrParam.GR_PARAM_PARGB =>
    { ctx with vertexLayout := (ctx.vertexLayout &&& 0xFFFF00) ||| lowByte offset }
  | GrParam.other _ => ctx

/-- A memory in which every `float` is 0.5, so that both texture coordinates of every vertex
record have the fractional part 0.5; used as concrete input. -/
def halfMemory : Memory :=
  { readFloat := fun _ => 1 / 2, readUInt32 := fun _ => 0 }

section Merger

variable {ops : BatchOps}

theorem drawBatchesLoop_acc (bs : List Batch) :
    ∀ (m : Batch) (draws : List Batch),
      drawBatchesLoop ops bs m draws =
        ((drawBatchesLoop ops bs m []).1, draws ++ (drawBatchesLoop ops bs m []).2) := by
  induction bs with
  | nil => intro m draws; simp [drawBatchesLoop]
  | cons b rest ih =>
    intro m draws
    simp only [drawBatchesLoop]
    split_ifs
    · exact ih m draws
    · exact ih b draws
    · rw [ih b (draws ++ [m]), ih b ([] ++ [m])]
      simp
    · exact ih _ draws

theorem DrawBatches_eq_drawsFrom (bs : List Batch) :
    DrawBatches ops bs = drawsFrom ops ops.defaultBatch bs := rfl

theorem drawsFrom_nil (m : Batch) :
    drawsFrom ops m [] = if ops.IsValid m then [m] else [] := by
  simp [drawsFrom, finish, drawBatchesLoop]

theorem drawsFrom_cons_invalid (m b : Batch) (bs : List Batch) (hb : ops.IsValid b = false) :
    drawsFrom ops m (b :: bs) = drawsFrom ops m bs := by
  simp [drawsFrom, drawBatchesLoop, hb]

theorem drawsFrom_cons_start (m b : Batch) (bs : List Batch) (hb : ops.IsValid b = true)
    (hm : ops.IsValid m = false) : drawsFrom ops m (b :: bs) = drawsFrom ops b bs := by
  simp [drawsFrom, drawBatchesLoop, hb, hm]

theorem drawsFrom_cons_flush (m b : Batch) (bs : List Batch) (hb : ops.IsValid b = true)
    (hm : ops.IsValid m = true) (hf : mustFlush ops b m = true) :
    drawsFrom ops m (b :: bs) = m :: drawsFrom ops b bs := by
  simp only [drawsFrom, drawBatchesLoop, hb, hm, hf, Bool.not_true, Bool.false_eq_true,
    if_false, if_true]
  rw [drawBatchesLoop_acc]
  simp only [finish]
  split_ifs <;> simp

theorem drawsFrom_cons_merge (m b : Batch) (bs : List Batch) (hb : ops.IsValid b = true)
    (hm : ops.IsValid m = true) (hf : mustFlush ops b m = false) :
    drawsFrom ops m (b :: bs) =
      drawsFrom ops (m.SetVertexCount (m.vertexCount + b.vertexCount)) bs := by
  simp [drawsFrom, drawBatchesLoop, hb, hm, hf]

theorem mustFlush_eq_false_iff (b m : Batch) :
    mustFlush ops b m = false ↔ SameState ops b m ∧ m.vertexCount + b.vertexCount ≤ 65535 := by
  simp only [mustFlush, SameState, Bool.or_eq_false_iff, bne_eq_false_iff_eq,
    decide_eq_false_iff_not, not_lt, gt_iff_lt]
  tauto

end Merger

section MergerClaims

variable {ops : BatchOps}

theorem SetVertexCount_SetVertexCount (m : Batch) (a b : Nat) :
    (m.SetVertexCount a).SetVertexCount b = m.SetVertexCount b := rfl

theorem vertexRange_merge (m b : Batch) (h : m.startVertex + m.vertexCount = b.startVertex) :
    (m.SetVertexCount (m.vertexCount + b.vertexCount)).vertexRange =
      m.vertexRange ++ b.vertexRange := by
  simp only [Batch.vertexRange, Batch.SetVertexCount, ← h]
  have := List.range'_append m.startVertex m.vertexCount b.vertexCount 1
  rw [one_mul] at this
  rw [this, Nat.add_comm]

theorem drawsFrom_ranges (hs : ops.Sound) (bs : List Batch) :
    ∀ m : Batch, ops.IsValid m = true → (∀ b ∈ bs, ops.IsValid b = true) →
      Consecutive (m :: bs) →
      (drawsFrom ops m bs).flatMap Batch.vertexRange =
        m.vertexRange ++ bs.flatMap Batch.vertexRange := by
  induction bs with
  | nil => intro m hm _ _; simp [drawsFrom_nil, hm]
  | cons b rest ih =>
    intro m hm hv hc
    have hb : ops.IsValid b = true := hv b (List.mem_cons_self _ _)
    have hrest : ∀ x ∈ rest, ops.IsValid x = true := fun x hx => hv x (List.mem_cons_of_mem _ hx)
    obtain ⟨hmb, hc'⟩ : m.startVertex + m.vertexCount = b.startVertex ∧ Consecutive (b :: rest) := hc
    cases hf : mustFlush ops b m with
    | true =>
      rw [drawsFrom_cons_flush m b rest hb hm hf]
      simp [ih b hb hrest hc']
    | false =>
      rw [drawsFrom_cons_merge m b rest hb hm hf]
      have hc2 : Consecutive (m.SetVertexCount (m.vertexCount + b.vertexCount) :: rest) := by
        cases rest with
        | nil => trivial
        | cons c cs =>
          obtain ⟨hbc, hcs⟩ :
            b.startVertex + b.vertexCount = c.startVertex ∧ Consecutive (c :: cs) := hc'
          refine ⟨?_, hcs⟩
          simp only [Batch.SetVertexCount]
          omega
      rw [ih _ (hs.merged_valid m b hm hb) hrest hc2, vertexRange_merge m b hmb]
      simp

/-- C1: for every batch list in which all batches are valid and the vertex ranges are
consecutive, the draws submitted by `DrawBatches`, each re-expanded to its vertex range,
concatenate to exactly the concatenation of the input batches' vertex ranges in the original
order. -/
theorem DrawBatches_reproduces_ranges (ops : BatchOps) (hs : ops.Sound) (bs : List Batch)
    (hv : ∀ b ∈ bs, ops.IsValid b = true) (hc : Consecutive bs) :
    (DrawBatches ops bs).flatMap Batch.vertexRange = bs.flatMap Batch.vertexRange := by
  rw [DrawBatches_eq_drawsFrom]
  cases bs with
  | nil => simp [drawsFrom_nil, hs.default_invalid]
  | cons b rest =>
    have hb : ops.IsValid b = true := hv b (List.mem_cons_self _ _)
    rw [drawsFrom_cons_start _ b rest hb hs.default_invalid,
      drawsFrom_ranges hs rest b hb (fun x hx => hv x (List.mem_cons_of_mem _ hx)) hc]
    simp

theorem specOps_sound : specOps.Sound where
  default_invalid := by decide
  merged_valid := by
    intro m b hm hb
    simp only [specOps, Batch.SetVertexCount, Bool.and_eq_true, bne_iff_ne, ne_eq] at *
    omega
  cache_count := by intro m n; rfl

theorem DrawBatches_reproduces_ranges_witness :
    (DrawBatches specOps [sampleBatch 1 0 0 3, sampleBatch 2 1 3 6, sampleBatch 1 0 9 3]).flatMap
        Batch.vertexRange =
      [sampleBatch 1 0 0 3, sampleBatch 2 1 3 6, sampleBatch 1 0 9 3].flatMap
        Batch.vertexRange :=
  DrawBatches_reproduces_ranges specOps specOps_sound _ (by decide) (by decide)

end MergerClaims

section MergerBounds

variable {ops : BatchOps}

theorem drawsFrom_vertexCount_le (bs : List Batch)
    (hn : ∀ b ∈ bs, ops.IsValid b = true → b.vertexCount ≤ 65535) :
    ∀ m : Batch, (ops.IsValid m = true → m.vertexCount ≤ 65535) →
      ∀ d ∈ drawsFrom ops m bs, d.vertexCount ≤ 65535 := by
  induction bs with
  | nil =>
    intro m hm d hd
    rw [drawsFrom_nil] at hd
    split_ifs at hd with hv
    · simp only [List.mem_singleton] at hd
      subst hd
      exact hm hv
    · simp at hd
  | cons b rest ih =>
    intro m hm d hd
    have hrest : ∀ x ∈ rest, ops.IsValid x = true → x.vertexCount ≤ 65535 :=
      fun x hx => hn x (List.mem_cons_of_mem _ hx)
    have hb' := hn b (List.mem_cons_self _ _)
    cases hb : ops.IsValid b with
    | false =>
      rw [drawsFrom_cons_invalid m b rest hb] at hd
      exact ih hrest m hm d hd
    | true =>
      cases hv : ops.IsValid m with
      | false =>
        rw [drawsFrom_cons_start m b rest hb hv] at hd
        exact ih hrest b hb' d hd
      | true =>
        cases hf : mustFlush ops b m with
        | true =>
          rw [drawsFrom_cons_flush m b rest hb hv hf] at hd
          rcases List.mem_cons.mp hd with h | h
          · subst h; exact hm hv
          · exact ih hrest b hb' d h
        | false =>
          rw [drawsFrom_cons_merge m b rest hb hv hf] at hd
          refine ih hrest _ (fun _ => ?_) d hd
          exact ((mustFlush_eq_false_iff b m).mp hf).2

/-- C2 (as amended): if every valid batch of the list has at most 65535 vertices, then every
batch that `DrawBatches` passes to `Draw` has a vertex count of at most 65535. -/
theorem DrawBatches_vertexCount_le (ops : BatchOps)
    (hd : ops.IsValid ops.defaultBatch = false) (bs : List Batch)
    (hn : ∀ b ∈ bs, ops.IsValid b = true → b.vertexCount ≤ 65535) :
    ∀ d ∈ DrawBatches ops bs, d.vertexCount ≤ 65535 := by
  rw [DrawBatches_eq_drawsFrom]
  exact drawsFrom_vertexCount_le bs hn _ (fun h => by rw [hd] at h; cases h)

theorem DrawBatches_vertexCount_le_witness :
    sampleBatch 1 0 40000 30000 ∈
        DrawBatches specOps [sampleBatch 1 0 0 40000, sampleBatch 1 0 40000 30000] ∧
      (sampleBatch 1 0 40000 30000).vertexCount ≤ 65535 :=
  ⟨by decide,
    DrawBatches_vertexCount_le specOps (by decide)
      [sampleBatch 1 0 0 40000, sampleBatch 1 0 40000 30000] (by decide)
      (sampleBatch 1 0 40000 30000) (by decide)⟩

/-- C2 (as stated) fails: a single valid batch of 65538 vertices (a fan of 21848 vertices
stamps `(count - 2) * 3 = 65538`) is passed to `Draw` unchanged. -/
theorem DrawBatches_lone_batch_over_limit :
    (∀ b ∈ [sampleBatch 1 0 0 65538], specOps.IsValid b = true) ∧
    DrawBatches specOps [sampleBatch 1 0 0 65538] = [sampleBatch 1 0 0 65538] ∧
    ¬ ∀ d ∈ DrawBatches specOps [sampleBatch 1 0 0 65538], d.vertexCount ≤ 65535 := by
  decide

theorem SetVertexCount_self (m : Batch) : m.SetVertexCount m.vertexCount = m := rfl

theorem SameState_merged (hs : ops.Sound) (x m : Batch) (n : Nat) (h : SameState ops x m) :
    SameState ops x (m.SetVertexCount n) := by
  obtain ⟨h1, h2, h3, h4⟩ := h
  exact ⟨by rw [hs.cache_count]; exact h1, h2, h3, h4⟩

theorem totalVertexCount_cons (b : Batch) (bs : List Batch) :
    totalVertexCount (b :: bs) = b.vertexCount + totalVertexCount bs := by
  simp [totalVertexCount]

theorem totalVertexCount_append (xs ys : List Batch) :
    totalVertexCount (xs ++ ys) = totalVertexCount xs + totalVertexCount ys := by
  simp [totalVertexCount]

/-- A group of valid batches in the state of the merged batch and within the vertex limit is
folded into the merged batch whole. -/
theorem drawsFrom_group (hs : ops.Sound) (g : List Batch) (rest : List Batch) :
    ∀ m : Batch, ops.IsValid m = true →
      (∀ x ∈ g, ops.IsValid x = true ∧ SameState ops x m) →
      m.vertexCount + totalVertexCount g ≤ 65535 →
      ops.IsValid (m.SetVertexCount (m.vertexCount + totalVertexCount g)) = true ∧
      drawsFrom ops m (g ++ rest) =
        drawsFrom ops (m.SetVertexCount (m.vertexCount + totalVertexCount g)) rest := by
  induction g with
  | nil =>
    intro m hm _ _
    simp [totalVertexCount, SetVertexCount_self, hm]
  | cons x g ih =>
    intro m hm hg hsum
    rw [totalVertexCount_cons] at hsum
    obtain ⟨hx, hxm⟩ := hg x (List.mem_cons_self _ _)
    have hf : mustFlush ops x m = false :=
      (mustFlush_eq_false_iff x m).mpr ⟨hxm, by omega⟩
    have hm' := hs.merged_valid m x hm hx
    have hg' : ∀ y ∈ g, ops.IsValid y = true ∧
        SameState ops y (m.SetVertexCount (m.vertexCount + x.vertexCount)) := fun y hy =>
      ⟨(hg y (List.mem_cons_of_mem _ hy)).1,
        SameState_merged hs y m _ (hg y (List.mem_cons_of_mem _ hy)).2⟩
    have := ih _ hm' hg' (by simp only [Batch.SetVertexCount]; omega)
    rw [List.cons_append, drawsFrom_cons_merge m x _ hx hm hf, totalVertexCount_cons]
    simpa only [SetVertexCount_SetVertexCount, Batch.SetVertexCount, Nat.add_assoc] using this

/-- C5: a run of `n >= 1` adjacent valid batches with identical state (texture cache,
atlas, blend mode, primitive type) and a total vertex count of at most 65535 yields exactly
one `Draw` call, whose start vertex is the first batch's and whose vertex count is the sum of
the vertex counts. -/
theorem DrawBatches_identical_run (ops : BatchOps) (hs : ops.Sound) (b : Batch)
    (rest : List Batch) (hv : ∀ x ∈ b :: rest, ops.IsValid x = true)
    (hst : ∀ x ∈ rest, SameState ops x b) (hsum : totalVertexCount (b :: rest) ≤ 65535) :
    DrawBatches ops (b :: rest) = [b.SetVertexCount (totalVertexCount (b :: rest))] ∧
    (b.SetVertexCount (totalVertexCount (b :: rest))).startVertex = b.startVertex ∧
    (b.SetVertexCount (totalVertexCount (b :: rest))).vertexCount =
      totalVertexCount (b :: rest) := by
  refine ⟨?_, rfl, rfl⟩
  have hb : ops.IsValid b = true := hv b (List.mem_cons_self _ _)
  rw [totalVertexCount_cons] at hsum ⊢
  obtain ⟨hval, heq⟩ := drawsFrom_group hs rest [] b hb
    (fun x hx => ⟨hv x (List.mem_cons_of_mem _ hx), hst x hx⟩) hsum
  rw [DrawBatches_eq_drawsFrom, drawsFrom_cons_start _ b rest hb hs.default_invalid]
  rw [List.append_nil] at heq
  rw [heq, drawsFrom_nil, if_pos hval]

theorem DrawBatches_identical_run_witness :
    DrawBatches specOps
        [sampleBatch 7 0 0 6, sampleBatch 7 0 6 6, sampleBatch 7 0 12 3, sampleBatch 7 0 15 9] =
      [(sampleBatch 7 0 0 6).SetVertexCount 24] :=
  (DrawBatches_identical_run specOps specOps_sound (sampleBatch 7 0 0 6)
    [sampleBatch 7 0 6 6, sampleBatch 7 0 12 3, sampleBatch 7 0 15 9]
    (by decide) (by decide) (by decide)).1

theorem drawsFrom_filter (bs : List Batch) :
    ∀ m : Batch, drawsFrom ops m bs = drawsFrom ops m (bs.filter ops.IsValid) := by
  induction bs with
  | nil => intro m; rfl
  | cons b rest ih =>
    intro m
    cases hb : ops.IsValid b with
    | false => rw [drawsFrom_cons_invalid m b rest hb, List.filter_cons_of_neg (by simp [hb])]
               exact ih m
    | true =>
      rw [List.filter_cons_of_pos hb]
      cases hv : ops.IsValid m with
      | false =>
        rw [drawsFrom_cons_start m b rest hb hv, drawsFrom_cons_start m b _ hb hv]
        exact ih b
      | true =>
        cases hf : mustFlush ops b m with
        | true =>
          rw [drawsFrom_cons_flush m b rest hb hv hf, drawsFrom_cons_flush m b _ hb hv hf,
            ih b]
        | false =>
          rw [drawsFrom_cons_merge m b rest hb hv hf, drawsFrom_cons_merge m b _ hb hv hf]
          exact ih _

theorem drawsFrom_valid (bs : List Batch) :
    ∀ m : Batch, ∀ d ∈ drawsFrom ops m bs, ops.IsValid d = true := by
  induction bs with
  | nil =>
    intro m d hd
    rw [drawsFrom_nil] at hd
    split_ifs at hd with hv
    · simp only [List.mem_singleton] at hd
      subst hd
      exact hv
    · simp at hd
  | cons b rest ih =>
    intro m d hd
    cases hb : ops.IsValid b with
    | false =>
      rw [drawsFrom_cons_invalid m b rest hb] at hd
      exact ih m d hd
    | true =>
      cases hv : ops.IsValid m with
      | false =>
        rw [drawsFrom_cons_start m b rest hb hv] at hd
        exact ih b d hd
      | true =>
        cases hf : mustFlush ops b m with
        | true =>
          rw [drawsFrom_cons_flush m b rest hb hv hf] at hd
          rcases List.mem_cons.mp hd with h | h
          · subst h; exact hv
          · exact ih b d h
        | false =>
          rw [drawsFrom_cons_merge m b rest hb hv hf] at hd
          exact ih _ d hd

/-- C6: invalid batches are excluded from merging and drawing: the draws emitted for a
batch list are exactly those emitted for the list with the invalid batches deleted, a list
with no valid batch produces no `Draw` call, and every batch passed to `Draw` is valid. -/
theorem DrawBatches_skips_invalid (ops : BatchOps)
    (hd : ops.IsValid ops.defaultBatch = false) (bs : List Batch) :
    DrawBatches ops bs = DrawBatches ops (bs.filter ops.IsValid) ∧
    ((∀ b ∈ bs, ops.IsValid b = false) → DrawBatches ops bs = []) ∧
    ∀ d ∈ DrawBatches ops bs, ops.IsValid d = true := by
  refine ⟨drawsFrom_filter bs _, ?_, drawsFrom_valid bs _⟩
  intro hall
  have hnil : bs.filter ops.IsValid = [] := by
    rw [List.filter_eq_nil_iff]
    intro b hb
    simp [hall b hb]
  rw [DrawBatches_eq_drawsFrom, drawsFrom_filter, hnil, drawsFrom_nil, hd]
  simp

theorem DrawBatches_skips_invalid_witness :
    DrawBatches specOps [sampleBatch 1 0 0 3, sampleBatch 0 0 3 3, sampleBatch 1 0 6 0,
        sampleBatch 1 0 6 3] =
      DrawBatches specOps [sampleBatch 1 0 0 3, sampleBatch 1 0 6 3] :=
  (DrawBatches_skips_invalid specOps (by decide)
    [sampleBatch 1 0 0 3, sampleBatch 0 0 3 3, sampleBatch 1 0 6 0, sampleBatch 1 0 6 3]).1

end MergerBounds

section MergerFolded

variable {ops : BatchOps}

theorem foldedLoop_fst (bs : List Batch) :
    ∀ (merged : Batch × List Batch) (draws : List (Batch × List Batch)),
      (foldedLoop ops bs merged draws).1.1 =
          (drawBatchesLoop ops bs merged.1 (draws.map Prod.fst)).1 ∧
        (foldedLoop ops bs merged draws).2.map Prod.fst =
          (drawBatchesLoop ops bs merged.1 (draws.map Prod.fst)).2 := by
  induction bs with
  | nil => intro merged draws; simp [foldedLoop, drawBatchesLoop]
  | cons b rest ih =>
    intro merged draws
    simp only [foldedLoop, drawBatchesLoop]
    split_ifs
    · exact ih merged draws
    · exact ih (b, [b]) draws
    · simpa using ih (b, [b]) (draws ++ [merged])
    · exact ih _ draws

theorem DrawBatchesFolded_fst (bs : List Batch) :
    (DrawBatchesFolded ops bs).map Prod.fst = DrawBatches ops bs := by
  obtain ⟨h1, h2⟩ := @foldedLoop_fst ops bs (ops.defaultBatch, []) []
  simp only [List.map_nil] at h1 h2
  simp only [DrawBatchesFolded, DrawBatches]
  rw [← h1, ← h2]
  split_ifs <;> simp

theorem FoldedOk_single (b : Batch) : FoldedOk ops (b, [b]) :=
  ⟨b, [], rfl, by simp [totalVertexCount, SetVertexCount_self],
    by simp [SameState]⟩

theorem FoldedOk_merge (hs : ops.Sound) (merged : Batch × List Batch) (b : Batch)
    (h : FoldedOk ops merged) (hf : mustFlush ops b merged.1 = false) :
    FoldedOk ops
      (merged.1.SetVertexCount (merged.1.vertexCount + b.vertexCount), merged.2 ++ [b]) := by
  obtain ⟨first, rest, hg, hm, hall⟩ := h
  obtain ⟨hsame, _⟩ := (mustFlush_eq_false_iff b merged.1).mp hf
  refine ⟨first, rest ++ [b], by simp [hg], ?_, ?_⟩
  · simp only [hm, totalVertexCount_append, totalVertexCount_cons, SetVertexCount_SetVertexCount]
    simp [Batch.SetVertexCount, totalVertexCount]
  · intro x hx
    rcases List.mem_append.mp hx with h1 | h1
    · exact hall x h1
    · simp only [List.mem_singleton] at h1
      subst h1
      rw [hm] at hsame
      obtain ⟨h1, h2, h3, h4⟩ := hsame
      exact ⟨by rw [h1, hs.cache_count], h2, h3, h4⟩

theorem foldedLoop_ok (hs : ops.Sound) (bs : List Batch) :
    ∀ (merged : Batch × List Batch) (draws : List (Batch × List Batch)),
      (ops.IsValid merged.1 = true → FoldedOk ops merged) →
      (∀ e ∈ draws, FoldedOk ops e) →
      (ops.IsValid (foldedLoop ops bs merged draws).1.1 = true →
          FoldedOk ops (foldedLoop ops bs merged draws).1) ∧
        ∀ e ∈ (foldedLoop ops bs merged draws).2, FoldedOk ops e := by
  induction bs with
  | nil => intro merged draws hm hd; exact ⟨hm, hd⟩
  | cons b rest ih =>
    intro merged draws hm hd
    simp only [foldedLoop]
    split_ifs with h1 h2 h3
    · exact ih merged draws hm hd
    · exact ih (b, [b]) draws (fun _ => FoldedOk_single b) hd
    · refine ih (b, [b]) (draws ++ [merged]) (fun _ => FoldedOk_single b) ?_
      intro e he
      rcases List.mem_append.mp he with h | h
      · exact hd e h
      · simp only [List.mem_singleton] at h
        subst h
        exact hm (by simpa using h2)
    · refine ih _ draws (fun _ => ?_) hd
      exact FoldedOk_merge hs merged b (hm (by simpa using h2)) (by simpa using h3)

theorem foldedLoop_flatten (hs : ops.Sound) (bs : List Batch) :
    ∀ (merged : Batch × List Batch) (draws : List (Batch × List Batch)),
      ((foldedLoop ops bs merged draws).2.map Prod.snd).flatten ++
          (if ops.IsValid (foldedLoop ops bs merged draws).1.1 then
            (foldedLoop ops bs merged draws).1.2 else []) =
        (draws.map Prod.snd).flatten ++ (if ops.IsValid merged.1 then merged.2 else []) ++
          bs.filter ops.IsValid := by
  induction bs with
  | nil => intro merged draws; simp [foldedLoop]
  | cons b rest ih =>
    intro merged draws
    cases hb : ops.IsValid b with
    | false =>
      simp only [foldedLoop, hb, Bool.not_false, if_true]
      rw [ih merged draws, List.filter_cons_of_neg (by simp [hb])]
    | true =>
      rw [List.filter_cons_of_pos hb]
      cases hm : ops.IsValid merged.1 with
      | false =>
        simp only [foldedLoop, hb, hm, Bool.not_false, Bool.not_true, if_true, if_false,
          Bool.false_eq_true]
        rw [ih (b, [b]) draws]
        simp [hb]
      | true =>
        cases hf : mustFlush ops b merged.1 with
        | true =>
          simp only [foldedLoop, hb, hm, hf, Bool.not_true, if_true, if_false,
            Bool.false_eq_true]
          rw [ih (b, [b]) (draws ++ [merged])]
          simp [hb]
        | false =>
          simp only [foldedLoop, hb, hm, hf, Bool.not_true, if_false, Bool.false_eq_true]
          rw [ih _ draws]
          simp [hs.merged_valid merged.1 b hm hb]

/-- C3 (as amended): `DrawBatches` never fuses batches with differing blend mode, primitive
type, atlas or texture cache. The ghost record lists the draws of `DrawBatches` with the
valid input batches folded into each, in order; every folded batch has the same blend mode,
primitive type, atlas and texture cache as the batch the draw was started from, and the draw
is that batch with the summed vertex count. -/
theorem DrawBatchesFolded_same_state (ops : BatchOps) (hs : ops.Sound) (bs : List Batch) :
    (DrawBatchesFolded ops bs).map Prod.fst = DrawBatches ops bs ∧
    ((DrawBatchesFolded ops bs).map Prod.snd).flatten = bs.filter ops.IsValid ∧
    ∀ e ∈ DrawBatchesFolded ops bs, ∃ first rest,
      e.2 = first :: rest ∧ e.1 = first.SetVertexCount (totalVertexCount e.2) ∧
      ∀ x ∈ e.2, x.alphaBlend = first.alphaBlend ∧ x.primitiveType = first.primitiveType ∧
        x.textureAtlas = first.textureAtlas ∧
        ops.GetTextureCache x = ops.GetTextureCache first := by
  refine ⟨DrawBatchesFolded_fst bs, ?_, ?_⟩
  · have h := foldedLoop_flatten hs bs (ops.defaultBatch, []) []
    simp only [List.map_nil, List.flatten_nil, ite_self, List.nil_append] at h
    rw [← h]
    simp only [DrawBatchesFolded]
    split_ifs <;> simp
  · have h := foldedLoop_ok hs bs (ops.defaultBatch, []) []
      (fun hv => by rw [hs.default_invalid] at hv; cases hv) (by simp)
    intro e he
    have hok : FoldedOk ops e := by
      simp only [DrawBatchesFolded] at he
      split_ifs at he with hv
      · rcases List.mem_append.mp he with h1 | h1
        · exact h.2 e h1
        · simp only [List.mem_singleton] at h1
          subst h1
          exact h.1 hv
      · exact h.2 e he
    obtain ⟨first, rest, hg, hm, hall⟩ := hok
    exact ⟨first, rest, hg, hm, fun x hx =>
      ⟨(hall x hx).2.2.1, (hall x hx).2.2.2, (hall x hx).2.1, (hall x hx).1⟩⟩

theorem DrawBatchesFolded_same_state_witness :
    (DrawBatchesFolded specOps
        [sampleBatch 1 0 0 3, sampleBatch 2 1 3 3, sampleBatch 0 0 6 3]).map Prod.fst =
      DrawBatches specOps [sampleBatch 1 0 0 3, sampleBatch 2 1 3 3, sampleBatch 0 0 6 3] :=
  (DrawBatchesFolded_same_state specOps specOps_sound
    [sampleBatch 1 0 0 3, sampleBatch 2 1 3 3, sampleBatch 0 0 6 3]).1

/-- C3 (as stated) fails: two valid batches with different source hashes (two 16x16 textures
in slots 0 and 1 of the same atlas) are fused into one draw. -/
theorem DrawBatches_fuses_distinct_textures :
    specOps.IsValid (sampleBatch 1 0 0 3) = true ∧ specOps.IsValid (sampleBatch 2 1 3 3) = true ∧
    DrawBatchesFolded specOps [sampleBatch 1 0 0 3, sampleBatch 2 1 3 3] =
      [((sampleBatch 1 0 0 3).SetVertexCount 6, [sampleBatch 1 0 0 3, sampleBatch 2 1 3 3])] ∧
    DrawBatches specOps [sampleBatch 1 0 0 3, sampleBatch 2 1 3 3] =
      [(sampleBatch 1 0 0 3).SetVertexCount 6] ∧
    (sampleBatch 2 1 3 3).textureHash ≠ (sampleBatch 1 0 0 3).textureHash := by
  decide

end MergerFolded

section MergerMinimal

variable {ops : BatchOps}

theorem SameState.symm {a b : Batch} (h : SameState ops a b) : SameState ops b a :=
  ⟨h.1.symm, h.2.1.symm, h.2.2.1.symm, h.2.2.2.symm⟩

theorem SameState.trans {a b c : Batch} (h : SameState ops a b) (h' : SameState ops b c) :
    SameState ops a c :=
  ⟨h.1.trans h'.1, h.2.1.trans h'.2.1, h.2.2.1.trans h'.2.2.1, h.2.2.2.trans h'.2.2.2⟩

theorem SameState.refl (a : Batch) : SameState ops a a := ⟨rfl, rfl, rfl, rfl⟩

/-- A merged batch holding fewer vertices in the same state never needs more draws, and one
holding more vertices needs at most one draw more. -/
theorem drawsFrom_length_mono (hs : ops.Sound) (bs : List Batch)
    (hv : ∀ b ∈ bs, ops.IsValid b = true) :
    ∀ m m' : Batch, ops.IsValid m = true → ops.IsValid m' = true → SameState ops m m' →
      m.vertexCount ≤ m'.vertexCount →
      (drawsFrom ops m bs).length ≤ (drawsFrom ops m' bs).length ∧
        (drawsFrom ops m' bs).length ≤ 1 + (drawsFrom ops m bs).length := by
  induction bs with
  | nil => intro m m' hm hm' _ _; simp [drawsFrom_nil, hm, hm']
  | cons b rest ih =>
    intro m m' hm hm' hst hle
    have hb : ops.IsValid b = true := hv b (List.mem_cons_self _ _)
    have ih' := ih (fun x hx => hv x (List.mem_cons_of_mem _ hx))
    cases hf' : mustFlush ops b m' with
    | false =>
      obtain ⟨hbm', hsum'⟩ := (mustFlush_eq_false_iff b m').mp hf'
      have hf : mustFlush ops b m = false :=
        (mustFlush_eq_false_iff b m).mpr ⟨hbm'.trans hst.symm, by omega⟩
      rw [drawsFrom_cons_merge m b rest hb hm hf, drawsFrom_cons_merge m' b rest hb hm' hf']
      refine ih' _ _ (hs.merged_valid m b hm hb) (hs.merged_valid m' b hm' hb) ?_ ?_
      · exact SameState_merged hs _ _ _ (SameState.symm (SameState_merged hs _ _ _ hst.symm))
      · simp only [Batch.SetVertexCount]; omega
    | true =>
      rw [drawsFrom_cons_flush m' b rest hb hm' hf']
      cases hf : mustFlush ops b m with
      | true =>
        rw [drawsFrom_cons_flush m b rest hb hm hf]
        simp only [List.length_cons]
        omega
      | false =>
        obtain ⟨hbm, _⟩ := (mustFlush_eq_false_iff b m).mp hf
        rw [drawsFrom_cons_merge m b rest hb hm hf]
        have := ih' b (m.SetVertexCount (m.vertexCount + b.vertexCount)) hb
          (hs.merged_valid m b hm hb) (SameState_merged hs _ _ _ hbm)
          (by simp only [Batch.SetVertexCount]; omega)
        simp only [List.length_cons]
        omega

/-- Flushing the merged batch before a batch is never better than what the loop does. -/
theorem drawsFrom_cons_length_le (hs : ops.Sound) (m b : Batch) (rest : List Batch)
    (hm : ops.IsValid m = true) (hv : ∀ x ∈ b :: rest, ops.IsValid x = true) :
    (drawsFrom ops m (b :: rest)).length ≤ 1 + (drawsFrom ops b rest).length := by
  have hb : ops.IsValid b = true := hv b (List.mem_cons_self _ _)
  cases hf : mustFlush ops b m with
  | true =>
    rw [drawsFrom_cons_flush m b rest hb hm hf]
    simp only [List.length_cons]
    omega
  | false =>
    obtain ⟨hbm, _⟩ := (mustFlush_eq_false_iff b m).mp hf
    rw [drawsFrom_cons_merge m b rest hb hm hf]
    exact (drawsFrom_length_mono hs rest (fun x hx => hv x (List.mem_cons_of_mem _ hx)) b
      (m.SetVertexCount (m.vertexCount + b.vertexCount)) hb (hs.merged_valid m b hm hb)
      (SameState_merged hs _ _ _ hbm) (by simp only [Batch.SetVertexCount]; omega)).2

theorem drawsFrom_le_partition (hs : ops.Sound) (p : List (List Batch)) :
    (∀ g ∈ p, GroupOk ops g) → (∀ x ∈ p.flatten, ops.IsValid x = true) →
      ∀ m : Batch, ops.IsValid m = true →
        (drawsFrom ops m p.flatten).length ≤ 1 + p.length := by
  induction p with
  | nil => intro _ _ m hm; simp [drawsFrom_nil, hm]
  | cons g rest ih =>
    intro hg hv m hm
    obtain ⟨hne, hsame, hsum⟩ := hg g (List.mem_cons_self _ _)
    cases g with
    | nil => exact absurd rfl hne
    | cons b g' =>
      rw [List.flatten_cons, List.cons_append] at hv ⊢
      have hb : ops.IsValid b = true := hv b (List.mem_cons_self _ _)
      have hvt : ∀ x ∈ g' ++ rest.flatten, ops.IsValid x = true :=
        fun x hx => hv x (List.mem_cons_of_mem _ hx)
      have h1 := drawsFrom_cons_length_le hs m b (g' ++ rest.flatten) hm hv
      obtain ⟨hval, heq⟩ := drawsFrom_group hs g' rest.flatten b hb
        (fun x hx => ⟨hvt x (List.mem_append_left _ hx),
          hsame x (List.mem_cons_of_mem _ hx) b (List.mem_cons_self _ _)⟩)
        (by rw [totalVertexCount_cons] at hsum; exact hsum)
      have h2 := ih (fun g hg' => hg g (List.mem_cons_of_mem _ hg'))
        (fun x hx => hvt x (List.mem_append_right _ hx)) _ hval
      rw [heq] at h1
      simp only [List.length_cons]
      omega

/-- The groups the loop forms from state `m` on are a partition into admissible groups. -/
theorem drawsFrom_partition (hs : ops.Sound) (bs : List Batch)
    (hv : ∀ b ∈ bs, ops.IsValid b = true) (hn : ∀ b ∈ bs, b.vertexCount ≤ 65535) :
    ∀ (m : Batch) (g : List Batch), ops.IsValid m = true → g ≠ [] →
      (∀ x ∈ g, SameState ops x m) → m.vertexCount = totalVertexCount g →
      m.vertexCount ≤ 65535 →
      ∃ p, IsPartition ops (g ++ bs) p ∧ p.length = (drawsFrom ops m bs).length := by
  induction bs with
  | nil =>
    intro m g hm hne hsame hcount hle
    refine ⟨[g], ⟨by simp, ?_⟩, by simp [drawsFrom_nil, hm]⟩
    intro g' hg'
    simp only [List.mem_singleton] at hg'
    subst hg'
    exact ⟨hne, fun a ha b hb => (hsame a ha).trans (hsame b hb).symm, by omega⟩
  | cons b rest ih =>
    intro m g hm hne hsame hcount hle
    have hb : ops.IsValid b = true := hv b (List.mem_cons_self _ _)
    have ih' := ih (fun x hx => hv x (List.mem_cons_of_mem _ hx))
      (fun x hx => hn x (List.mem_cons_of_mem _ hx))
    cases hf : mustFlush ops b m with
    | true =>
      obtain ⟨p, ⟨hp1, hp2⟩, hlen⟩ := ih' b [b] hb (by simp)
        (by intro x hx; simp only [List.mem_singleton] at hx; subst hx; exact SameState.refl x)
        (by simp [totalVertexCount]) (hn b (List.mem_cons_self _ _))
      refine ⟨g :: p, ⟨by simp [hp1], ?_⟩, ?_⟩
      · intro g' hg'
        rcases List.mem_cons.mp hg' with h | h
        · subst h
          exact ⟨hne, fun a ha b hb => (hsame a ha).trans (hsame b hb).symm, by omega⟩
        · exact hp2 g' h
      · rw [drawsFrom_cons_flush m b rest hb hm hf]
        simp [hlen]
    | false =>
      obtain ⟨hbm, hsum⟩ := (mustFlush_eq_false_iff b m).mp hf
      obtain ⟨p, ⟨hp1, hp2⟩, hlen⟩ := ih' (m.SetVertexCount (m.vertexCount + b.vertexCount))
        (g ++ [b]) (hs.merged_valid m b hm hb) (by simp)
        (by
          intro x hx
          rcases List.mem_append.mp hx with h | h
          · exact SameState_merged hs _ _ _ (hsame x h)
          · simp only [List.mem_singleton] at h
            subst h
            exact SameState_merged hs _ _ _ hbm)
        (by simp only [Batch.SetVertexCount, totalVertexCount_append, totalVertexCount_cons,
              hcount]; simp [totalVertexCount])
        (by simp only [Batch.SetVertexCount]; exact hsum)
      refine ⟨p, ⟨by simpa using hp1, hp2⟩, ?_⟩
      rw [drawsFrom_cons_merge m b rest hb hm hf]
      exact hlen

/-- C4: for every list of valid batches each having at most 65535 vertices, the number of
`Draw` calls of `DrawBatches` is the minimum number of groups over all partitions of the list
into contiguous groups whose batches share texture cache, atlas, blend mode and primitive
type and whose total vertex count is at most 65535: some such partition has that many groups
and none has fewer. -/
theorem DrawBatches_minimal (ops : BatchOps) (hs : ops.Sound) (bs : List Batch)
    (hv : ∀ b ∈ bs, ops.IsValid b = true) (hn : ∀ b ∈ bs, b.vertexCount ≤ 65535) :
    (∃ p, IsPartition ops bs p ∧ p.length = (DrawBatches ops bs).length) ∧
    ∀ p, IsPartition ops bs p → (DrawBatches ops bs).length ≤ p.length := by
  rw [DrawBatches_eq_drawsFrom]
  cases bs with
  | nil =>
    simp only [drawsFrom_nil, hs.default_invalid, Bool.false_eq_true, if_false, List.length_nil,
      Nat.zero_le, implies_true, and_true]
    exact ⟨[], ⟨rfl, by simp⟩, rfl⟩
  | cons b rest =>
    have hb : ops.IsValid b = true := hv b (List.mem_cons_self _ _)
    rw [drawsFrom_cons_start _ b rest hb hs.default_invalid]
    constructor
    · exact drawsFrom_partition hs rest (fun x hx => hv x (List.mem_cons_of_mem _ hx))
        (fun x hx => hn x (List.mem_cons_of_mem _ hx)) b [b] hb (by simp)
        (by intro x hx; simp only [List.mem_singleton] at hx; subst hx; exact SameState.refl x)
        (by simp [totalVertexCount]) (hn b (List.mem_cons_self _ _))
    · rintro p ⟨hp1, hp2⟩
      cases p with
      | nil => simp at hp1
      | cons g p' =>
        obtain ⟨hne, hsame, hsum⟩ := hp2 g (List.mem_cons_self _ _)
        cases g with
        | nil => exact absurd rfl hne
        | cons b' g' =>
          rw [List.flatten_cons, List.cons_append, List.cons.injEq] at hp1
          obtain ⟨rfl, hrest⟩ := hp1
          have hvr : ∀ x ∈ g' ++ p'.flatten, ops.IsValid x = true := by
            intro x hx; rw [hrest] at hx; exact hv x (List.mem_cons_of_mem _ hx)
          obtain ⟨hval, heq⟩ := drawsFrom_group hs g' p'.flatten b' hb
            (fun x hx => ⟨hvr x (List.mem_append_left _ hx),
              hsame x (List.mem_cons_of_mem _ hx) b' (List.mem_cons_self _ _)⟩)
            (by rw [totalVertexCount_cons] at hsum; exact hsum)
          have h2 := drawsFrom_le_partition hs p'
            (fun g hg' => hp2 g (List.mem_cons_of_mem _ hg'))
            (fun x hx => hvr x (List.mem_append_right _ hx)) _ hval
          rw [← hrest, heq]
          simp only [List.length_cons]
          omega

theorem DrawBatches_minimal_witness :
    ∃ p, IsPartition specOps
        [sampleBatch 1 0 0 40000, sampleBatch 1 0 40000 20000, sampleBatch 1 0 60000 20000] p ∧
      p.length = (DrawBatches specOps
        [sampleBatch 1 0 0 40000, sampleBatch 1 0 40000 20000, sampleBatch 1 0 60000 20000]).length :=
  (DrawBatches_minimal specOps specOps_sound
    [sampleBatch 1 0 0 40000, sampleBatch 1 0 40000 20000, sampleBatch 1 0 60000 20000]
    (by decide) (by decide)).1

end MergerMinimal

/-! ## Theorems: GameStateTracker -/

section Tracker

/-- C7 (the code differs): with prior state `Unknown`, zero batches and a screen-open mode
other than 3, `CheckMajorGameState` ends in `Menus`: the assignment of `FmvIntro` is
overwritten by the unconditional assignment of `Menus` that follows it. -/
theorem CheckMajorGameState_unknown_empty_frame (gh : GameHelper) (ctx : D2DXContext)
    (hmode : gh.ScreenOpenMode ≠ 3) (hstate : ctx.majorGameState = MajorGameState.Unknown)
    (hcount : ctx.batchCount = 0) :
    CheckMajorGameState gh ctx = some { ctx with majorGameState := MajorGameState.Menus } := by
  simp [CheckMajorGameState, hmode, hstate, hcount, int32Cast, loopIndices, scanDrawFloor,
    scanTitleScreen]

theorem CheckMajorGameState_unknown_empty_frame_witness :
    (CheckMajorGameState (sampleHelper 0) (D2DXContext.initial specOps 4 16 zeroVertex)).map
        D2DXContext.majorGameState = some MajorGameState.Menus ∧
      MajorGameState.Menus ≠ MajorGameState.FmvIntro := by
  refine ⟨?_, by decide⟩
  rw [CheckMajorGameState_unknown_empty_frame (sampleHelper 0)
    (D2DXContext.initial specOps 4 16 zeroVertex) (by decide) rfl rfl]
  rfl

/-- C8: for every prior state and every batch list, if the screen-open-mode query returns 3
then the state after `CheckMajorGameState` is `InGame` (and nothing else changes). -/
theorem CheckMajorGameState_screenOpenMode_three (gh : GameHelper) (ctx : D2DXContext)
    (hmode : gh.ScreenOpenMode = 3) :
    CheckMajorGameState gh ctx = some { ctx with majorGameState := MajorGameState.InGame } := by
  simp only [CheckMajorGameState, hmode, if_true]
  split_ifs <;> rfl

theorem CheckMajorGameState_screenOpenMode_three_witness :
    CheckMajorGameState (sampleHelper 3)
        { D2DXContext.initial specOps 4 16 zeroVertex with
          majorGameState := MajorGameState.TitleScreen, batchCount := 1 } =
      some { D2DXContext.initial specOps 4 16 zeroVertex with
        majorGameState := MajorGameState.InGame, batchCount := 1 } :=
  CheckMajorGameState_screenOpenMode_three (sampleHelper 3) _ rfl

end Tracker

/-! ## Theorems: BatchAccumulator -/

section Accumulator

theorem ReadVertex_isSome (ops : BatchOps) (mem : Memory) (constantColor vertex vertexLayout : Nat)
    (batch : Batch) :
    ∃ v, ReadVertex ops mem constantColor vertex vertexLayout batch = some v := by
  have hfract : ∀ q : Rat, q - (⌊q⌋ : Rat) < 1000000 := by
    intro q
    have h := Int.fract_lt_one q
    unfold Int.fract at h
    linarith
  simp only [ReadVertex, hfract, and_self, if_true]
  exact ⟨_, rfl⟩

theorem set3_getElem? {α : Type} (l : List α) (i : Nat) (a b c : α) (h : i + 2 < l.length) :
    (((l.set i a).set (i + 1) b).set (i + 2) c)[i]? = some a ∧
    (((l.set i a).set (i + 1) b).set (i + 2) c)[i + 1]? = some b ∧
    (((l.set i a).set (i + 1) b).set (i + 2) c)[i + 2]? = some c ∧
    ∀ j < i, (((l.set i a).set (i + 1) b).set (i + 2) c)[j]? = l[j]? := by
  refine ⟨?_, ?_, ?_, ?_⟩
  · rw [List.getElem?_set_ne (by omega), List.getElem?_set_ne (by omega),
      List.getElem?_set_eq_of_lt _ (by omega)]
  · rw [List.getElem?_set_ne (by omega), List.getElem?_set_eq_of_lt _ (by simp; omega)]
  · rw [List.getElem?_set_eq_of_lt _ (by simp; omega)]
  · intro j hj
    rw [List.getElem?_set_ne (by omega), List.getElem?_set_ne (by omega),
      List.getElem?_set_ne (by omega)]

/-- One passing `writeTriangle`: the three vertices land at the old vertex count, everything
below it and the batch list are untouched. -/
theorem writeTriangle_spec (ctx : D2DXContext) (a b c : Vertex)
    (h : ctx.vertexCount + 3 < ctx.vertices.length) :
    ∃ ctx', writeTriangle ctx a b c = some ctx' ∧
      ctx'.batches = ctx.batches ∧ ctx'.batchCount = ctx.batchCount ∧
      ctx'.vertexCount = ctx.vertexCount + 3 ∧
      ctx'.vertices.length = ctx.vertices.length ∧
      (∀ j < ctx.vertexCount, ctx'.vertices[j]? = ctx.vertices[j]?) ∧
      ctx'.vertices[ctx.vertexCount]? = some a ∧
      ctx'.vertices[ctx.vertexCount + 1]? = some b ∧
      ctx'.vertices[ctx.vertexCount + 2]? = some c := by
  obtain ⟨h0, h1, h2, hlt⟩ := set3_getElem? ctx.vertices ctx.vertexCount a b c (by omega)
  refine ⟨{ ctx with
      vertices := ((ctx.vertices.set ctx.vertexCount a).set (ctx.vertexCount + 1) b).set
        (ctx.vertexCount + 2) c
      vertexCount := ctx.vertexCount + 3 }, ?_, rfl, rfl, rfl, by simp, hlt, h0, h1, h2⟩
  simp only [writeTriangle, h, if_true]

theorem fanLoop_spec (read : Nat → Option Vertex) (v : Nat → Vertex)
    (hread : ∀ i, read i = some (v i)) (first : Vertex) (n : Nat) :
    ∀ (s : Nat) (ctx : D2DXContext),
      (n = 0 ∨ ctx.vertexCount + 3 * n < ctx.vertices.length) →
      ∃ ctx', fanLoop read first (List.range' (s + 2) n) (v (s + 1)) ctx = some ctx' ∧
        ctx'.batches = ctx.batches ∧ ctx'.batchCount = ctx.batchCount ∧
        ctx'.vertexCount = ctx.vertexCount + 3 * n ∧
        ctx'.vertices.length = ctx.vertices.length ∧
        (∀ j < ctx.vertexCount, ctx'.vertices[j]? = ctx.vertices[j]?) ∧
        ∀ k < n, ctx'.vertices[ctx.vertexCount + 3 * k]? = some first ∧
          ctx'.vertices[ctx.vertexCount + 3 * k + 1]? = some (v (s + k + 1)) ∧
          ctx'.vertices[ctx.vertexCount + 3 * k + 2]? = some (v (s + k + 2)) := by
  induction n with
  | zero =>
    intro s ctx _
    exact ⟨ctx, by simp [fanLoop], rfl, rfl, rfl, rfl, fun _ _ => rfl, fun k hk => by omega⟩
  | succ n ih =>
    intro s ctx hcap
    have hc : ctx.vertexCount + 3 < ctx.vertices.length := by omega
    obtain ⟨ctx1, hw, hb1, hbc1, hvc1, hlen1, hold1, g0, g1, g2⟩ :=
      writeTriangle_spec ctx first (v (s + 1)) (v (s + 2)) hc
    obtain ⟨ctx', hloop, hb, hbc, hvc, hlen, hold, hnew⟩ := ih (s + 1) ctx1 (by omega)
    refine ⟨ctx', ?_, by rw [hb, hb1], by rw [hbc, hbc1], by omega, by omega, ?_, ?_⟩
    · rw [List.range'_succ]
      simp only [fanLoop, hread, hw]
      exact hloop
    · intro j hj
      rw [hold j (by omega), hold1 j hj]
    · intro k hk
      cases k with
      | zero =>
        simp only [Nat.mul_zero, Nat.add_zero]
        exact ⟨by rw [hold _ (by omega), g0], by rw [hold _ (by omega), g1],
          by rw [hold _ (by omega), g2]⟩
      | succ k =>
        obtain ⟨h0, h1, h2⟩ := hnew k (by omega)
        have e0 : ctx.vertexCount + 3 * (k + 1) = ctx1.vertexCount + 3 * k := by omega
        have e1 : s + (k + 1) + 1 = s + 1 + k + 1 := by omega
        have e2 : s + (k + 1) + 2 = s + 1 + k + 2 := by omega
        rw [e0, e1, e2]
        exact ⟨h0, h1, h2⟩

theorem stripLoop_spec (read : Nat → Option Vertex) (v : Nat → Vertex)
    (hread : ∀ i, read i = some (v i)) (n : Nat) :
    ∀ (s : Nat) (ctx : D2DXContext),
      (n = 0 ∨ ctx.vertexCount + 3 * n < ctx.vertices.length) →
      ∃ ctx', stripLoop read (List.range' (s + 2) n) (v s) (v (s + 1)) ctx = some ctx' ∧
        ctx'.batches = ctx.batches ∧ ctx'.batchCount = ctx.batchCount ∧
        ctx'.vertexCount = ctx.vertexCount + 3 * n ∧
        ctx'.vertices.length = ctx.vertices.length ∧
        (∀ j < ctx.vertexCount, ctx'.vertices[j]? = ctx.vertices[j]?) ∧
        ∀ k < n, ctx'.vertices[ctx.vertexCount + 3 * k]? = some (v (s + k)) ∧
          ctx'.vertices[ctx.vertexCount + 3 * k + 1]? = some (v (s + k + 1)) ∧
          ctx'.vertices[ctx.vertexCount + 3 * k + 2]? = some (v (s + k + 2)) := by
  induction n with
  | zero =>
    intro s ctx _
    exact ⟨ctx, by simp [stripLoop], rfl, rfl, rfl, rfl, fun _ _ => rfl, fun k hk => by omega⟩
  | succ n ih =>
    intro s ctx hcap
    have hc : ctx.vertexCount + 3 < ctx.vertices.length := by omega
    obtain ⟨ctx1, hw, hb1, hbc1, hvc1, hlen1, hold1, g0, g1, g2⟩ :=
      writeTriangle_spec ctx (v s) (v (s + 1)) (v (s + 2)) hc
    obtain ⟨ctx', hloop, hb, hbc, hvc, hlen, hold, hnew⟩ := ih (s + 1) ctx1 (by omega)
    refine ⟨ctx', ?_, by rw [hb, hb1], by rw [hbc, hbc1], by omega, by omega, ?_, ?_⟩
    · rw [List.range'_succ]
      simp only [stripLoop, hread, hw]
      exact hloop
    · intro j hj
      rw [hold j (by omega), hold1 j hj]
    · intro k hk
      cases k with
      | zero =>
        simp only [Nat.mul_zero, Nat.add_zero]
        exact ⟨by rw [hold _ (by omega), g0], by rw [hold _ (by omega), g1],
          by rw [hold _ (by omega), g2]⟩
      | succ k =>
        obtain ⟨h0, h1, h2⟩ := hnew k (by omega)
        have e0 : ctx.vertexCount + 3 * (k + 1) = ctx1.vertexCount + 3 * k := by omega
        have e00 : s + (k + 1) = s + 1 + k := by omega
        have e1 : s + (k + 1) + 1 = s + 1 + k + 1 := by omega
        have e2 : s + (k + 1) + 2 = s + 1 + k + 2 := by omega
        rw [e0, e1, e2, e00]
        exact ⟨h0, h1, h2⟩

end Accumulator

section AccumulatorClaims

theorem preparedSubmit_fields (gh : GameHelper) (backend : RenderBackend)
    (count gameContext : Nat) (ctx : D2DXContext) :
    (preparedSubmit gh backend count gameContext ctx).2.constantColor = ctx.constantColor ∧
    (preparedSubmit gh backend count gameContext ctx).2.vertexLayout = ctx.vertexLayout ∧
    (preparedSubmit gh backend count gameContext ctx).2.vertexCount = ctx.vertexCount ∧
    (preparedSubmit gh backend count gameContext ctx).2.vertices = ctx.vertices ∧
    (preparedSubmit gh backend count gameContext ctx).2.batches = ctx.batches ∧
    (preparedSubmit gh backend count gameContext ctx).2.batchCount = ctx.batchCount ∧
    (preparedSubmit gh backend count gameContext ctx).1.startVertex = ctx.vertexCount ∧
    (preparedSubmit gh backend count gameContext ctx).1.vertexCount =
      ((count + 2 ^ 32 - 2) % 2 ^ 32 * 3) % 2 ^ 32 ∧
    (preparedSubmit gh backend count gameContext ctx).1.primitiveType =
      PrimitiveType.Triangles := by
  simp only [preparedSubmit, PrepareBatchForSubmit, FixIngameMousePosition,
    Batch.SetVertexCount]
  split_ifs <;> simp

theorem appendBatch_spec (ctx : D2DXContext) (batch : Batch)
    (h : ctx.batchCount < ctx.batches.length) :
    ∃ ctx', appendBatch ctx batch = some ctx' ∧ ctx'.vertexCount = ctx.vertexCount ∧
      ctx'.vertices = ctx.vertices ∧ ctx'.batchCount = ctx.batchCount + 1 ∧
      ctx'.batches[ctx.batchCount]? = some batch :=
  ⟨{ ctx with batches := ctx.batches.set ctx.batchCount batch, batchCount := ctx.batchCount + 1 },
    by simp only [appendBatch, h, if_true], rfl, rfl, rfl,
    List.getElem?_set_eq_of_lt _ h⟩

theorem stamped_count (count : Nat) (h2 : 2 ≤ count) (h : 3 * (count - 2) < 2 ^ 32) :
    ((count + 2 ^ 32 - 2) % 2 ^ 32 * 3) % 2 ^ 32 = 3 * (count - 2) := by
  have e : (2 : Nat) ^ 32 = 4294967296 := by norm_num
  rw [e] at h ⊢
  omega

/-- C9: a triangle fan of `count >= 2` vertices submitted through `OnDrawVertexArray` (with
room for it in the vertex buffer and the batch list) appends exactly `count - 2` triangles,
the `k`-th being the decoded vertices `(v0, v(k+1), v(k+2))`, leaves the earlier vertices
untouched, and stamps a batch with vertex count `3 * (count - 2)` starting at the previous
vertex count. -/
theorem OnDrawVertexArray_fan (ops : BatchOps) (gh : GameHelper) (backend : RenderBackend)
    (mem : Memory) (count : Nat) (pointers : Nat → Nat) (gameContext : Nat)
    (ctx : D2DXContext) (h2 : 2 ≤ count)
    (hcap : count = 2 ∨ ctx.vertexCount + 3 * (count - 2) < ctx.vertices.length)
    (hlen : ctx.vertices.length ≤ 2 ^ 32) (hbatch : ctx.batchCount < ctx.batches.length) :
    ∃ (ctx' : D2DXContext) (v : Nat → Vertex),
      OnDrawVertexArray ops gh backend mem VertexArrayMode.GR_TRIANGLE_FAN count pointers
        gameContext ctx = some ctx' ∧
      (∀ i, ReadVertex ops mem ctx.constantColor (pointers i) ctx.vertexLayout
        (preparedSubmit gh backend count gameContext ctx).1 = some (v i)) ∧
      ctx'.vertexCount = ctx.vertexCount + 3 * (count - 2) ∧
      ctx'.vertices.length = ctx.vertices.length ∧
      (∀ j < ctx.vertexCount, ctx'.vertices[j]? = ctx.vertices[j]?) ∧
      (∀ k < count - 2,
        ctx'.vertices[ctx.vertexCount + 3 * k]? = some (v 0) ∧
        ctx'.vertices[ctx.vertexCount + 3 * k + 1]? = some (v (k + 1)) ∧
        ctx'.vertices[ctx.vertexCount + 3 * k + 2]? = some (v (k + 2))) ∧
      ctx'.batchCount = ctx.batchCount + 1 ∧
      ctx'.batches[ctx.batchCount]? = some (preparedSubmit gh backend count gameContext ctx).1 ∧
      (preparedSubmit gh backend count gameContext ctx).1.vertexCount = 3 * (count - 2) ∧
      (preparedSubmit gh backend count gameContext ctx).1.startVertex = ctx.vertexCount := by
  obtain ⟨pcc, pvl, pvc, pvs, pbs, pbc, pstart, pcount, _⟩ :=
    preparedSubmit_fields gh backend count gameContext ctx
  have hv : ∀ i, ∃ w, ReadVertex ops mem ctx.constantColor (pointers i) ctx.vertexLayout
      (preparedSubmit gh backend count gameContext ctx).1 = some w :=
    fun i => ReadVertex_isSome ops mem _ _ _ _
  choose v hread using hv
  have hread' : ∀ i, (fun i => ReadVertex ops mem
      (preparedSubmit gh backend count gameContext ctx).2.constantColor (pointers i)
      (preparedSubmit gh backend count gameContext ctx).2.vertexLayout
      (preparedSubmit gh backend count gameContext ctx).1) i = some (v i) := by
    intro i; simp only [pcc, pvl]; exact hread i
  obtain ⟨ctx2, hloop, hb, hbc, hvc, hl, hold, hnew⟩ :=
    fanLoop_spec _ v hread' (v 0) (count - 2) 0
      (preparedSubmit gh backend count gameContext ctx).2 (by rw [pvc, pvs]; omega)
  obtain ⟨ctx3, happ, avc, avs, abc, abs⟩ :=
    appendBatch_spec ctx2 (preparedSubmit gh backend count gameContext ctx).1
      (by rw [hb, hbc, pbs, pbc]; exact hbatch)
  refine ⟨ctx3, v, ?_, hread, by rw [avc, hvc, pvc], by rw [avs, hl, pvs], ?_, ?_,
    by rw [abc, hbc, pbc], by rw [← pbc, ← hbc]; exact abs, ?_, pstart⟩
  · have h0 := hread' 0
    have h1 := hread' 1
    simp only at h0 h1
    show (match ReadVertex ops mem (preparedSubmit gh backend count gameContext ctx).2.constantColor
        (pointers 0) (preparedSubmit gh backend count gameContext ctx).2.vertexLayout
        (preparedSubmit gh backend count gameContext ctx).1,
      ReadVertex ops mem (preparedSubmit gh backend count gameContext ctx).2.constantColor
        (pointers 1) (preparedSubmit gh backend count gameContext ctx).2.vertexLayout
        (preparedSubmit gh backend count gameContext ctx).1 with
      | some firstVertex, some prevVertex =>
        match fanLoop (fun i => ReadVertex ops mem
            (preparedSubmit gh backend count gameContext ctx).2.constantColor (pointers i)
            (preparedSubmit gh backend count gameContext ctx).2.vertexLayout
            (preparedSubmit gh backend count gameContext ctx).1) firstVertex
            (List.range' 2 (count - 2)) prevVertex
            (preparedSubmit gh backend count gameContext ctx).2 with
        | none => none
        | some ctx2 => appendBatch ctx2 (preparedSubmit gh backend count gameContext ctx).1
      | _, _ => none) = some ctx3
    rw [h0, h1]
    simp only
    rw [hloop]
    exact happ
  · intro j hj
    rw [avs, hold j (by rw [pvc]; exact hj), pvs]
  · intro k hk
    obtain ⟨g0, g1, g2⟩ := hnew k hk
    rw [pvc] at g0 g1 g2
    rw [avs]
    simpa using And.intro g0 (And.intro g1 g2)
  · rw [pcount]
    exact stamped_count count h2 (by omega)

theorem OnDrawVertexArray_fan_witness :
    ∃ ctx', OnDrawVertexArray specOps (sampleHelper 0) sampleBackend zeroMemory
        VertexArrayMode.GR_TRIANGLE_FAN 4 samplePointers 0
        (D2DXContext.initial specOps 4 16 zeroVertex) = some ctx' ∧
      ctx'.vertexCount = 6 ∧ ctx'.batchCount = 1 := by
  obtain ⟨ctx', _, h, _, hvc, _, _, _, hbc, _⟩ :=
    OnDrawVertexArray_fan specOps (sampleHelper 0) sampleBackend zeroMemory 4 samplePointers 0
      (D2DXContext.initial specOps 4 16 zeroVertex) (by decide) (by decide) (by decide)
      (by decide)
  exact ⟨ctx', h, hvc, hbc⟩

/-- C10: a triangle strip of `count >= 2` vertices submitted through `OnDrawVertexArray`
(with room for it in the vertex buffer and the batch list) appends exactly `count - 2`
triangles, the `k`-th being the decoded vertices `(v(k), v(k+1), v(k+2))` in that order,
leaves the earlier vertices untouched, and stamps a batch with vertex count
`3 * (count - 2)` starting at the previous vertex count. -/
theorem OnDrawVertexArray_strip (ops : BatchOps) (gh : GameHelper) (backend : RenderBackend)
    (mem : Memory) (count : Nat) (pointers : Nat → Nat) (gameContext : Nat)
    (ctx : D2DXContext) (h2 : 2 ≤ count)
    (hcap : count = 2 ∨ ctx.vertexCount + 3 * (count - 2) < ctx.vertices.length)
    (hlen : ctx.vertices.length ≤ 2 ^ 32) (hbatch : ctx.batchCount < ctx.batches.length) :
    ∃ (ctx' : D2DXContext) (v : Nat → Vertex),
      OnDrawVertexArray ops gh backend mem VertexArrayMode.GR_TRIANGLE_STRIP count pointers
        gameContext ctx = some ctx' ∧
      (∀ i, ReadVertex ops mem ctx.constantColor (pointers i) ctx.vertexLayout
        (preparedSubmit gh backend count gameContext ctx).1 = some (v i)) ∧
      ctx'.vertexCount = ctx.vertexCount + 3 * (count - 2) ∧
      ctx'.vertices.length = ctx.vertices.length ∧
      (∀ j < ctx.vertexCount, ctx'.vertices[j]? = ctx.vertices[j]?) ∧
      (∀ k < count - 2,
        ctx'.vertices[ctx.vertexCount + 3 * k]? = some (v k) ∧
        ctx'.vertices[ctx.vertexCount + 3 * k + 1]? = some (v (k + 1)) ∧
        ctx'.vertices[ctx.vertexCount + 3 * k + 2]? = some (v (k + 2))) ∧
      ctx'.batchCount = ctx.batchCount + 1 ∧
      ctx'.batches[ctx.batchCount]? = some (preparedSubmit gh backend count gameContext ctx).1 ∧
      (preparedSubmit gh backend count gameContext ctx).1.vertexCount = 3 * (count - 2) ∧
      (preparedSubmit gh backend count gameContext ctx).1.startVertex = ctx.vertexCount := by
  obtain ⟨pcc, pvl, pvc, pvs, pbs, pbc, pstart, pcount, _⟩ :=
    preparedSubmit_fields gh backend count gameContext ctx
  have hv : ∀ i, ∃ w, ReadVertex ops mem ctx.constantColor (pointers i) ctx.vertexLayout
      (preparedSubmit gh backend count gameContext ctx).1 = some w :=
    fun i => ReadVertex_isSome ops mem _ _ _ _
  choose v hread using hv
  have hread' : ∀ i, (fun i => ReadVertex ops mem
      (preparedSubmit gh backend count gameContext ctx).2.constantColor (pointers i)
      (preparedSubmit gh backend count gameContext ctx).2.vertexLayout
      (preparedSubmit gh backend count gameContext ctx).1) i = some (v i) := by
    intro i; simp only [pcc, pvl]; exact hread i
  obtain ⟨ctx2, hloop, hb, hbc, hvc, hl, hold, hnew⟩ :=
    stripLoop_spec _ v hread' (count - 2) 0
      (preparedSubmit gh backend count gameContext ctx).2 (by rw [pvc, pvs]; omega)
  obtain ⟨ctx3, happ, avc, avs, abc, abs⟩ :=
    appendBatch_spec ctx2 (preparedSubmit gh backend count gameContext ctx).1
      (by rw [hb, hbc, pbs, pbc]; exact hbatch)
  refine ⟨ctx3, v, ?_, hread, by rw [avc, hvc, pvc], by rw [avs, hl, pvs], ?_, ?_,
    by rw [abc, hbc, pbc], by rw [← pbc, ← hbc]; exact abs, ?_, pstart⟩
  · have h0 := hread' 0
    have h1 := hread' 1
    simp only at h0 h1
    show (match ReadVertex ops mem (preparedSubmit gh backend count gameContext ctx).2.constantColor
        (pointers 0) (preparedSubmit gh backend count gameContext ctx).2.vertexLayout
        (preparedSubmit gh backend count gameContext ctx).1,
      ReadVertex ops mem (preparedSubmit gh backend count gameContext ctx).2.constantColor
        (pointers 1) (preparedSubmit gh backend count gameContext ctx).2.vertexLayout
        (preparedSubmit gh backend count gameContext ctx).1 with
      | some prevPrevVertex, some prevVertex =>
        match stripLoop (fun i => ReadVertex ops mem
            (preparedSubmit gh backend count gameContext ctx).2.constantColor (pointers i)
            (preparedSubmit gh backend count gameContext ctx).2.vertexLayout
            (preparedSubmit gh backend count gameContext ctx).1)
            (List.range' 2 (count - 2)) prevPrevVertex prevVertex
            (preparedSubmit gh backend count gameContext ctx).2 with
        | none => none
        | some ctx2 => appendBatch ctx2 (preparedSubmit gh backend count gameContext ctx).1
      | _, _ => none) = some ctx3
    rw [h0, h1]
    simp only
    rw [hloop]
    exact happ
  · intro j hj
    rw [avs, hold j (by rw [pvc]; exact hj), pvs]
  · intro k hk
    obtain ⟨g0, g1, g2⟩ := hnew k hk
    rw [pvc] at g0 g1 g2
    rw [avs]
    simpa using And.intro g0 (And.intro g1 g2)
  · rw [pcount]
    exact stamped_count count h2 (by omega)

theorem OnDrawVertexArray_strip_witness :
    ∃ ctx', OnDrawVertexArray specOps (sampleHelper 0) sampleBackend zeroMemory
        VertexArrayMode.GR_TRIANGLE_STRIP 4 samplePointers 0
        (D2DXContext.initial specOps 4 16 zeroVertex) = some ctx' ∧
      ctx'.vertexCount = 6 ∧ ctx'.batchCount = 1 := by
  obtain ⟨ctx', _, h, _, hvc, _, _, _, hbc, _⟩ :=
    OnDrawVertexArray_strip specOps (sampleHelper 0) sampleBackend zeroMemory 4 samplePointers 0
      (D2DXContext.initial specOps 4 16 zeroVertex) (by decide) (by decide) (by decide)
      (by decide)
  exact ⟨ctx', h, hvc, hbc⟩

end AccumulatorClaims

/-! ## Theorems: state setters -/

section Setters

/-- C15 (the code differs): `OnAlphaBlendFunction` maps the four supported factor tuples to
`Opaque`, `SrcAlphaInvSrcAlpha`, `Additive` and `Multiplicative`, but an unsupported tuple
such as `(ZERO, ZERO, ZERO, ZERO)` is no failure: the call returns and sets the blend mode of
the scratch batch to `Opaque`. -/
theorem OnAlphaBlendFunction_unsupported_sets_opaque (ctx : D2DXContext) :
    OnAlphaBlendFunction GrAlphaBlendFnc.GR_BLEND_ONE GrAlphaBlendFnc.GR_BLEND_ZERO
        GrAlphaBlendFnc.GR_BLEND_ZERO GrAlphaBlendFnc.GR_BLEND_ZERO ctx =
      some { ctx with scratchBatch := { ctx.scratchBatch with alphaBlend := AlphaBlend.Opaque } } ∧
    OnAlphaBlendFunction GrAlphaBlendFnc.GR_BLEND_SRC_ALPHA
        GrAlphaBlendFnc.GR_BLEND_ONE_MINUS_SRC_ALPHA GrAlphaBlendFnc.GR_BLEND_ZERO
        GrAlphaBlendFnc.GR_BLEND_ZERO ctx =
      some { ctx with scratchBatch :=
        { ctx.scratchBatch with alphaBlend := AlphaBlend.SrcAlphaInvSrcAlpha } } ∧
    OnAlphaBlendFunction GrAlphaBlendFnc.GR_BLEND_ONE GrAlphaBlendFnc.GR_BLEND_ONE
        GrAlphaBlendFnc.GR_BLEND_ZERO GrAlphaBlendFnc.GR_BLEND_ZERO ctx =
      some { ctx with scratchBatch := { ctx.scratchBatch with alphaBlend := AlphaBlend.Additive } } ∧
    OnAlphaBlendFunction GrAlphaBlendFnc.GR_BLEND_ZERO GrAlphaBlendFnc.GR_BLEND_SRC_COLOR
        GrAlphaBlendFnc.GR_BLEND_ZERO GrAlphaBlendFnc.GR_BLEND_ZERO ctx =
      some { ctx with scratchBatch :=
        { ctx.scratchBatch with alphaBlend := AlphaBlend.Multiplicative } } ∧
    OnAlphaBlendFunction GrAlphaBlendFnc.GR_BLEND_ZERO GrAlphaBlendFnc.GR_BLEND_ZERO
        GrAlphaBlendFnc.GR_BLEND_ZERO GrAlphaBlendFnc.GR_BLEND_ZERO ctx =
      some { ctx with scratchBatch := { ctx.scratchBatch with alphaBlend := AlphaBlend.Opaque } } :=
  ⟨rfl, rfl, rfl, rfl, rfl⟩

/-- C16: `OnColorCombine` sets `ColorMultipliedByTexture` for
`(SCALE_OTHER, LOCAL, ITERATED, TEXTURE)` and `ConstantColor` for
`(LOCAL, ZERO, CONSTANT, CONSTANT)`, `OnAlphaCombine` sets `One` for
`(ZERO, ZERO, CONSTANT, CONSTANT)` and `Texture` for `(LOCAL, ZERO, CONSTANT, CONSTANT)`, each
leaving the rest of the context as it was; every other tuple fails the assertion, so a call
that returns was made with one of the two supported tuples. -/
theorem OnColorCombine_OnAlphaCombine_supported (function : GrCombineFunction)
    (factor : GrCombineFactor) (local_ : GrCombineLocal) (other : GrCombineOther)
    (invert : Bool) (ctx : D2DXContext) :
    (OnColorCombine GrCombineFunction.GR_COMBINE_FUNCTION_SCALE_OTHER
        GrCombineFactor.GR_COMBINE_FACTOR_LOCAL GrCombineLocal.GR_COMBINE_LOCAL_ITERATED
        GrCombineOther.GR_COMBINE_OTHER_TEXTURE invert ctx =
      some { ctx with scratchBatch :=
        { ctx.scratchBatch with rgbCombine := RgbCombine.ColorMultipliedByTexture } }) ∧
    (OnColorCombine GrCombineFunction.GR_COMBINE_FUNCTION_LOCAL
        GrCombineFactor.GR_COMBINE_FACTOR_ZERO GrCombineLocal.GR_COMBINE_LOCAL_CONSTANT
        GrCombineOther.GR_COMBINE_OTHER_CONSTANT invert ctx =
      some { ctx with scratchBatch :=
        { ctx.scratchBatch with rgbCombine := RgbCombine.ConstantColor } }) ∧
    (¬ (function = GrCombineFunction.GR_COMBINE_FUNCTION_SCALE_OTHER ∧
          factor = GrCombineFactor.GR_COMBINE_FACTOR_LOCAL ∧
          local_ = GrCombineLocal.GR_COMBINE_LOCAL_ITERATED ∧
          other = GrCombineOther.GR_COMBINE_OTHER_TEXTURE) →
      ¬ (function = GrCombineFunction.GR_COMBINE_FUNCTION_LOCAL ∧
          factor = GrCombineFactor.GR_COMBINE_FACTOR_ZERO ∧
          local_ = GrCombineLocal.GR_COMBINE_LOCAL_CONSTANT ∧
          other = GrCombineOther.GR_COMBINE_OTHER_CONSTANT) →
      OnColorCombine function factor local_ other invert ctx = none) ∧
    (OnAlphaCombine GrCombineFunction.GR_COMBINE_FUNCTION_ZERO
        GrCombineFactor.GR_COMBINE_FACTOR_ZERO GrCombineLocal.GR_COMBINE_LOCAL_CONSTANT
        GrCombineOther.GR_COMBINE_OTHER_CONSTANT invert ctx =
      some { ctx with scratchBatch :=
        { ctx.scratchBatch with alphaCombine := AlphaCombine.One } }) ∧
    (OnAlphaCombine GrCombineFunction.GR_COMBINE_FUNCTION_LOCAL
        GrCombineFactor.GR_COMBINE_FACTOR_ZERO GrCombineLocal.GR_COMBINE_LOCAL_CONSTANT
        GrCombineOther.GR_COMBINE_OTHER_CONSTANT invert ctx =
      some { ctx with scratchBatch :=
        { ctx.scratchBatch with alphaCombine := AlphaCombine.Texture } }) ∧
    (¬ (function = GrCombineFunction.GR_COMBINE_FUNCTION_ZERO ∧
          factor = GrCombineFactor.GR_COMBINE_FACTOR_ZERO ∧
          local_ = GrCombineLocal.GR_COMBINE_LOCAL_CONSTANT ∧
          other = GrCombineOther.GR_COMBINE_OTHER_CONSTANT) →
      ¬ (function = GrCombineFunction.GR_COMBINE_FUNCTION_LOCAL ∧
          factor = GrCombineFactor.GR_COMBINE_FACTOR_ZERO ∧
          local_ = GrCombineLocal.GR_COMBINE_LOCAL_CONSTANT ∧
          other = GrCombineOther.GR_COMBINE_OTHER_CONSTANT) →
      OnAlphaCombine function factor local_ other invert ctx = none) := by
  refine ⟨rfl, rfl, ?_, rfl, rfl, ?_⟩
  · intro h1 h2
    simp only [OnColorCombine, h1, h2, if_false]
  · intro h1 h2
    simp only [OnAlphaCombine, h1, h2, if_false]

end Setters

/-! ## Theorems: VertexDecoder -/

section Decoder

theorem floatToInt16_eq_trunc (f : Rat) :
    (0 ≤ f → f < 32768 → floatToInt16 f = ⌊f⌋) ∧
    (f < 0 → -32769 < f → floatToInt16 f = ⌈f⌉) := by
  constructor
  · intro h0 h1
    have hlo : 0 ≤ ⌊f⌋ := Int.floor_nonneg.mpr h0
    have hhi : ⌊f⌋ < 32768 := Int.floor_lt.mpr (by exact_mod_cast h1)
    simp only [floatToInt16, h0, if_true]
    norm_num
    omega
  · intro h0 h1
    have hc : -⌊-f⌋ = ⌈f⌉ := by rw [← Int.ceil_neg, neg_neg]
    have hlo : -32769 < ⌈f⌉ := lt_of_lt_of_le (by exact_mod_cast h1) (Int.le_ceil f) |>
      fun h => by exact_mod_cast h
    have hhi : ⌈f⌉ ≤ 0 := Int.ceil_le.mpr (by exact_mod_cast h0.le)
    simp only [floatToInt16, not_le.mpr h0, if_false, hc]
    norm_num
    omega

/-- C20: for a batch whose texture has `1 <= max(width, height) <= 256`, the shift of
`ReadVertex` is `8 - floor(log2(max(width, height)))` and lies in `[0, 8]`; `ReadVertex`
returns a vertex whose texture coordinates are the source coordinates converted to a 16-bit
signed integer and shifted right arithmetically by that shift, which is the floor of the
quotient by `2^shift`; for `max(width, height) = 256` they are passed through unshifted.
The conversion is truncation toward zero for coordinates in the 16-bit range. -/
theorem ReadVertex_texcoord_shift (ops : BatchOps) (mem : Memory)
    (constantColor vertex vertexLayout : Nat) (batch : Batch)
    (h1 : 1 ≤ max batch.width batch.height) (h256 : max batch.width batch.height ≤ 256) :
    (2 ^ Nat.log2 (max batch.width batch.height) ≤ max batch.width batch.height ∧
      max batch.width batch.height < 2 ^ (Nat.log2 (max batch.width batch.height) + 1)) ∧
    (8 + 2 ^ 32 - Nat.log2 (max batch.width batch.height)) % 2 ^ 32 = specShift batch ∧
    specShift batch ≤ 8 ∧
    (max batch.width batch.height = 256 → specShift batch = 0) ∧
    (∃ v, ReadVertex ops mem constantColor vertex vertexLayout batch = some v ∧
      v.s = floatToInt16 (mem.readFloat (vertex + ((vertexLayout >>> 8) &&& 0xFF))) >>>
        specShift batch ∧
      v.s = ⌊(floatToInt16 (mem.readFloat (vertex + ((vertexLayout >>> 8) &&& 0xFF))) : ℚ) /
        2 ^ specShift batch⌋ ∧
      v.t = floatToInt16 (mem.readFloat (vertex + ((vertexLayout >>> 8) &&& 0xFF) + 4)) >>>
        specShift batch ∧
      v.t = ⌊(floatToInt16 (mem.readFloat (vertex + ((vertexLayout >>> 8) &&& 0xFF) + 4)) : ℚ) /
        2 ^ specShift batch⌋ ∧
      (max batch.width batch.height = 256 →
        v.s = floatToInt16 (mem.readFloat (vertex + ((vertexLayout >>> 8) &&& 0xFF))) ∧
        v.t = floatToInt16 (mem.readFloat (vertex + ((vertexLayout >>> 8) &&& 0xFF) + 4)))) ∧
    (∀ f : Rat, (0 ≤ f → f < 32768 → floatToInt16 f = ⌊f⌋) ∧
      (f < 0 → -32769 < f → floatToInt16 f = ⌈f⌉)) := by
  have hne : max batch.width batch.height ≠ 0 := by omega
  have hlog : Nat.log2 (max batch.width batch.height) ≤ 8 := by
    have h : max batch.width batch.height < 2 ^ 9 := by omega
    have := (Nat.log2_lt hne).mpr h
    omega
  have hshift : (8 + 2 ^ 32 - Nat.log2 (max batch.width batch.height)) % 2 ^ 32 =
      specShift batch := by
    unfold specShift
    have e : (2 : Nat) ^ 32 = 4294967296 := by norm_num
    rw [e]
    omega
  have h256' : max batch.width batch.height = 256 → specShift batch = 0 := by
    intro h
    unfold specShift
    rw [h]
    have h8 := mt (@Nat.log2_lt 256 8 (by norm_num)).mp (by norm_num)
    omega
  have hfloor : ∀ (a : Int) (n : Nat), a >>> n = ⌊(a : ℚ) / 2 ^ n⌋ := by
    intro a n
    have := Rat.floor_intCast_div_natCast a (2 ^ n)
    push_cast at this
    rw [this, Int.shiftRight_eq_div_pow]
    norm_cast
  have hfract : ∀ q : Rat, q - (⌊q⌋ : Rat) < 1000000 := by
    intro q
    have h := Int.fract_lt_one q
    unfold Int.fract at h
    linarith
  refine ⟨⟨Nat.log2_self_le hne, Nat.lt_log2_self⟩, hshift, by unfold specShift; omega, h256',
    ?_, floatToInt16_eq_trunc⟩
  simp only [ReadVertex, hfract, and_self, if_true, hshift]
  refine ⟨_, rfl, rfl, ?_, rfl, ?_, ?_⟩
  · exact hfloor _ _
  · exact hfloor _ _
  · intro h
    simp only [h256' h, Int.shiftRight_eq_div_pow]
    simp

theorem ReadVertex_texcoord_shift_witness :
    (1 ≤ max (sampleBatch 1 0 0 3).width (sampleBatch 1 0 0 3).height ∧
      max (sampleBatch 1 0 0 3).width (sampleBatch 1 0 0 3).height ≤ 256) ∧
    (8 + 2 ^ 32 - Nat.log2 (max (sampleBatch 1 0 0 3).width (sampleBatch 1 0 0 3).height)) %
      2 ^ 32 = specShift (sampleBatch 1 0 0 3) ∧
    specShift (sampleBatch 1 0 0 3) ≤ 8 :=
  ⟨⟨by decide, by decide⟩,
    (ReadVertex_texcoord_shift specOps zeroMemory 0 0 0 (sampleBatch 1 0 0 3) (by decide)
      (by decide)).2.1,
    (ReadVertex_texcoord_shift specOps zeroMemory 0 0 0 (sampleBatch 1 0 0 3) (by decide)
      (by decide)).2.2.1⟩

end Decoder

section TrackerScan

theorem scanDrawFloor_range (batches : List Batch) (n : Nat) :
    ∀ s, s + n ≤ batches.length →
      scanDrawFloor batches (List.range' s n) =
        some (((batches.drop s).take n).any
          (fun b => decide (b.gameAddress = GameAddress.DrawFloor))) := by
  induction n with
  | zero => intro s _; simp [scanDrawFloor]
  | succ n ih =>
    intro s hs
    have hlt : s < batches.length := by omega
    have hd : batches.drop s = batches[s] :: batches.drop (s + 1) :=
      List.drop_eq_getElem_cons hlt
    rw [List.range'_succ, hd, List.take_succ_cons, List.any_cons]
    simp only [scanDrawFloor, List.getElem?_eq_getElem hlt]
    by_cases hf : batches[s].gameAddress = GameAddress.DrawFloor
    · simp [hf]
    · simp only [hf, if_false, decide_False, Bool.false_or]
      exact ih (s + 1) (by omega)

theorem scanTitleScreen_range (batches : List Batch) (vertices : List Vertex) (n : Nat) :
    ∀ s, s + n ≤ batches.length →
      (∀ b ∈ (batches.drop s).take n, b.startVertex < vertices.length) →
      scanTitleScreen batches vertices (List.range' s n) =
        some (((batches.drop s).take n).any (fun b =>
          decide (b.textureHash = 0x4bea7b80) &&
            (match vertices[b.startVertex]? with
              | some v => decide (v.y ≥ 550)
              | none => false))) := by
  induction n with
  | zero => intro s _ _; simp [scanTitleScreen]
  | succ n ih =>
    intro s hs hv
    have hlt : s < batches.length := by omega
    have hd : batches.drop s = batches[s] :: batches.drop (s + 1) :=
      List.drop_eq_getElem_cons hlt
    rw [hd, List.take_succ_cons] at hv
    have hv0 : batches[s].startVertex < vertices.length := hv _ (List.mem_cons_self _ _)
    rw [List.range'_succ, hd, List.take_succ_cons, List.any_cons]
    simp only [scanTitleScreen, List.getElem?_eq_getElem hlt, List.getElem?_eq_getElem hv0]
    by_cases hf : batches[s].textureHash = 0x4bea7b80 ∧ vertices[batches[s].startVertex].y ≥ 550
    · simp [hf.1, hf.2]
    · rw [if_neg hf]
      have hfalse : (decide (batches[s].textureHash = 0x4bea7b80) &&
          decide (vertices[batches[s].startVertex].y ≥ 550)) = false := by
        simpa using hf
      rw [hfalse, Bool.false_or]
      exact ih (s + 1) (by omega) (fun b hb => hv b (List.mem_cons_of_mem _ hb))

theorem loopIndices_int32Cast (n : Nat) (h : n < 2 ^ 31) :
    loopIndices (int32Cast n) = List.range' 0 n := by
  have e31 : (2 : Nat) ^ 31 = 2147483648 := by norm_num
  have e32 : (2 : Nat) ^ 32 = 4294967296 := by norm_num
  have hmod : n % 2 ^ 32 = n := Nat.mod_eq_of_lt (by omega)
  simp only [loopIndices, int32Cast, hmod, h, if_true, Int.toNat_ofNat, List.range_eq_range']

/-- `CheckMajorGameState` with its dead assignments removed: the prior state is not read. -/
theorem CheckMajorGameState_eq (gh : GameHelper) (ctx : D2DXContext) :
    CheckMajorGameState gh ctx =
      if gh.ScreenOpenMode = 3 then
        some { ctx with majorGameState := MajorGameState.InGame }
      else
        match scanDrawFloor ctx.batches (loopIndices (int32Cast ctx.batchCount)) with
        | none => none
        | some floor =>
          if floor then some { ctx with majorGameState := MajorGameState.InGame }
          else
            match scanTitleScreen ctx.batches ctx.vertices
                (loopIndices (int32Cast ctx.batchCount)) with
            | none => none
            | some title =>
              some (if title then { ctx with majorGameState := MajorGameState.TitleScreen }
                else { ctx with majorGameState := MajorGameState.Menus }) := by
  by_cases hm : gh.ScreenOpenMode = 3
  · simp only [CheckMajorGameState, hm, if_true]
    split_ifs <;> rfl
  · by_cases hc : ctx.majorGameState = MajorGameState.Unknown ∧ int32Cast ctx.batchCount = 0
    · simp only [CheckMajorGameState, hm, if_false, if_pos hc]
      cases scanDrawFloor ctx.batches (loopIndices (int32Cast ctx.batchCount)) with
      | none => rfl
      | some floor =>
        cases floor with
        | true => simp
        | false => simp only [Bool.false_eq_true, if_false, if_true]
    · simp only [CheckMajorGameState, hm, if_false, if_neg hc]
      cases scanDrawFloor ctx.batches (loopIndices (int32Cast ctx.batchCount)) with
      | none => rfl
      | some floor =>
        cases floor with
        | true => simp
        | false => simp only [Bool.false_eq_true, if_false, if_true]

/-- C19: when the screen-open-mode query does not return 3 (and the reads of the scans stay
in their buffers), `CheckMajorGameState` yields `InGame` if any batch of the frame has the
draw-site tag `DrawFloor`, otherwise `TitleScreen` if some batch has texture hash
`0x4bea7b80` and the vertex at its start index has `y >= 550`, otherwise `Menus`, for every
prior state. -/
theorem CheckMajorGameState_classifies (gh : GameHelper) (ctx : D2DXContext)
    (hmode : gh.ScreenOpenMode ≠ 3) (hcount : ctx.batchCount ≤ ctx.batches.length)
    (h31 : ctx.batchCount < 2 ^ 31)
    (hstart : ∀ b ∈ ctx.batches.take ctx.batchCount, b.startVertex < ctx.vertices.length)
    (prior : MajorGameState) :
    CheckMajorGameState gh { ctx with majorGameState := prior } =
      some { ctx with
        majorGameState := classifyFrame (ctx.batches.take ctx.batchCount) ctx.vertices } := by
  have hfloor := scanDrawFloor_range ctx.batches ctx.batchCount 0 (by omega)
  have htitle := scanTitleScreen_range ctx.batches ctx.vertices ctx.batchCount 0 (by omega)
    (by simpa using hstart)
  rw [List.drop_zero] at hfloor htitle
  have hidx := loopIndices_int32Cast ctx.batchCount h31
  rw [CheckMajorGameState_eq]
  simp only [hmode, if_false, hidx, hfloor, htitle, classifyFrame]
  cases (List.take ctx.batchCount ctx.batches).any
      (fun b => decide (b.gameAddress = GameAddress.DrawFloor)) with
  | true => simp
  | false =>
    simp only [Bool.false_eq_true, if_false]
    split_ifs <;> rfl

theorem CheckMajorGameState_classifies_witness :
    CheckMajorGameState (sampleHelper 0)
        { D2DXContext.initial specOps 4 16 zeroVertex with
          majorGameState := MajorGameState.InGame, batchCount := 1 } =
      some { D2DXContext.initial specOps 4 16 zeroVertex with
        majorGameState := MajorGameState.Menus, batchCount := 1 } :=
  CheckMajorGameState_classifies (sampleHelper 0)
    { D2DXContext.initial specOps 4 16 zeroVertex with batchCount := 1 } (by decide)
    (by decide) (by decide) (by decide) MajorGameState.InGame

end TrackerScan

/-! ## Theorems: FrameController -/

section Frame

theorem PrepareLogoTextureBatch_fields (ops : BatchOps) (fnv : List Nat → Nat) (logo : LogoAsset)
    (ctx : D2DXContext) :
    (PrepareLogoTextureBatch ops fnv logo ctx).vertexCount = ctx.vertexCount ∧
    (PrepareLogoTextureBatch ops fnv logo ctx).vertices = ctx.vertices ∧
    (PrepareLogoTextureBatch ops fnv logo ctx).batches = ctx.batches ∧
    (PrepareLogoTextureBatch ops fnv logo ctx).batchCount = ctx.batchCount ∧
    (PrepareLogoTextureBatch ops fnv logo ctx).scratchBatch = ctx.scratchBatch ∧
    (PrepareLogoTextureBatch ops fnv logo ctx).frame = ctx.frame := by
  unfold PrepareLogoTextureBatch
  split_ifs <;> exact ⟨rfl, rfl, rfl, rfl, rfl, rfl⟩

/-- C12 (the code differs): `InsertLogoOnTitleScreen` asserts the vertex capacity but not the
batch capacity. On a title-screen frame whose batch list is full (`_batchCount` equals the
capacity) and whose vertex buffer has room, it writes `_batches.items[_batchCount]` past the
end of the batch list without failing an assertion. -/
theorem InsertLogoOnTitleScreen_full_batch_list (ops : BatchOps) (F : FloatOps)
    (fnv : List Nat → Nat) (logo : LogoAsset) (backend : RenderBackend) (ctx : D2DXContext)
    (hlogo : ctx.noLogo = false) (hstate : ctx.majorGameState = MajorGameState.TitleScreen)
    (hpos : 0 < ctx.batchCount) (hfull : ctx.batchCount = ctx.batches.length)
    (hcap : ctx.vertexCount + 6 < ctx.vertices.length) :
    InsertLogoOnTitleScreen ops F fnv logo backend ctx = Except.error Fault.outOfBounds := by
  obtain ⟨pvc, pvs, pbs, pbc, _, _⟩ := PrepareLogoTextureBatch_fields ops fnv logo ctx
  have hskip : ¬ (ctx.noLogo = true ∨ ctx.majorGameState ≠ MajorGameState.TitleScreen ∨
      ctx.batchCount ≤ 0) := by
    simp only [hlogo, hstate, ne_eq, not_true_eq_false, Bool.false_eq_true, false_or]
    omega
  unfold InsertLogoOnTitleScreen
  rw [if_neg hskip]
  simp only [writeQuad, pvc, pvs, hcap, if_true, pbs, pbc, hfull, lt_self_iff_false, if_false]

theorem InsertLogoOnTitleScreen_full_batch_list_witness :
    InsertLogoOnTitleScreen specOps exactFloat sampleFnv sampleLogo sampleBackend
        { D2DXContext.initial specOps 1 16 zeroVertex with
          majorGameState := MajorGameState.TitleScreen, batchCount := 1 } =
      Except.error Fault.outOfBounds :=
  InsertLogoOnTitleScreen_full_batch_list specOps exactFloat sampleFnv sampleLogo sampleBackend
    _ rfl rfl (by decide) (by decide) (by decide)


theorem CheckMajorGameState_some_fields (gh : GameHelper) (ctx ctx1 : D2DXContext)
    (h : CheckMajorGameState gh ctx = some ctx1) :
    ctx1 = { ctx with majorGameState := ctx1.majorGameState } := by
  rw [CheckMajorGameState_eq] at h
  split_ifs at h with hm
  · cases h; rfl
  · split at h
    · cases h
    · split_ifs at h
      · cases h; rfl
      · split at h
        · cases h
        · split_ifs at h <;> (cases h; rfl)

theorem InsertLogoOnTitleScreen_ok_fields (ops : BatchOps) (F : FloatOps) (fnv : List Nat → Nat)
    (logo : LogoAsset) (backend : RenderBackend) (ctx1 ctx2 : D2DXContext)
    (h : InsertLogoOnTitleScreen ops F fnv logo backend ctx1 = Except.ok ctx2)
    (hb : ctx1.batchCount ≤ ctx1.batches.length) :
    ctx2.scratchBatch = ctx1.scratchBatch ∧ ctx2.frame = ctx1.frame ∧
      ctx2.batchCount ≤ ctx2.batches.length := by
  obtain ⟨pvc, pvs, pbs, pbc, psb, pfr⟩ := PrepareLogoTextureBatch_fields ops fnv logo ctx1
  unfold InsertLogoOnTitleScreen at h
  by_cases hskip : ctx1.noLogo = true ∨ ctx1.majorGameState ≠ MajorGameState.TitleScreen ∨
      ctx1.batchCount ≤ 0
  · rw [if_pos hskip] at h
    cases h
    exact ⟨rfl, rfl, hb⟩
  · rw [if_neg hskip] at h
    simp only [writeQuad, pvc, pvs] at h
    by_cases hcap : ctx1.vertexCount + 6 < ctx1.vertices.length
    · simp only [hcap, if_true, pbs, pbc] at h
      by_cases hlt : ctx1.batchCount < ctx1.batches.length
      · simp only [hlt, if_true] at h
        cases h
        refine ⟨psb, pfr, ?_⟩
        simp only [List.length_set, pbs, pbc]
        omega
      · simp only [hlt, if_false] at h
        cases h
    · simp only [hcap, if_false] at h
      cases h

theorem int32Cast_toNat_le (n : Nat) : (int32Cast n).toNat ≤ n := by
  have hle : n % 2 ^ 32 ≤ n := Nat.mod_le _ _
  unfold int32Cast
  split_ifs
  · simp only [Int.toNat_ofNat]; exact hle
  · have : ((n % 2 ^ 32 : Nat) : Int) - 2 ^ 32 ≤ (n : Int) := by
      have : ((n % 2 ^ 32 : Nat) : Int) ≤ (n : Int) := by exact_mod_cast hle
      have h2 : (0 : Int) ≤ 2 ^ 32 := by positivity
      omega
    omega

/-- C14 (as amended): when the classification and the logo step of `OnBufferSwap` complete,
`OnBufferSwap` completes with frame vertex count 0, frame batch count 0 and the frame counter
increased by exactly 1; the scratch batch descriptor is left as it was before the call. -/
theorem OnBufferSwap_resets_counters (ops : BatchOps) (F : FloatOps) (fnv : List Nat → Nat)
    (logo : LogoAsset) (gh : GameHelper) (backend : RenderBackend)
    (ctx ctx1 ctx2 : D2DXContext) (hb : ctx.batchCount ≤ ctx.batches.length)
    (h1 : CheckMajorGameState gh ctx = some ctx1)
    (h2 : InsertLogoOnTitleScreen ops F fnv logo backend ctx1 = Except.ok ctx2) :
    ∃ ctx', OnBufferSwap ops F fnv logo gh backend ctx = Except.ok ctx' ∧
      ctx'.vertexCount = 0 ∧ ctx'.batchCount = 0 ∧ ctx'.frame = ctx.frame + 1 ∧
      ctx'.scratchBatch = ctx.scratchBatch := by
  have hc := CheckMajorGameState_some_fields gh ctx ctx1 h1
  have hb1 : ctx1.batchCount ≤ ctx1.batches.length := by rw [hc]; exact hb
  obtain ⟨hsb, hfr, hb2⟩ := InsertLogoOnTitleScreen_ok_fields ops F fnv logo backend ctx1 ctx2 h2 hb1
  have hdraw : (int32Cast ctx2.batchCount).toNat ≤ ctx2.batches.length :=
    le_trans (int32Cast_toNat_le _) hb2
  have hsb1 : ctx1.scratchBatch = ctx.scratchBatch := by rw [hc]
  have hfr1 : ctx1.frame = ctx.frame := by rw [hc]
  simp only [OnBufferSwap, h1, h2, DrawBatchesOfFrame, hdraw, if_true]
  exact ⟨_, rfl, rfl, rfl, by simp only [hfr, hfr1], by simp only [hsb, hsb1]⟩

theorem OnBufferSwap_resets_counters_witness :
    ∃ ctx', OnBufferSwap specOps exactFloat sampleFnv sampleLogo (sampleHelper 0) sampleBackend
        { D2DXContext.initial specOps 4 16 zeroVertex with frame := 7 } = Except.ok ctx' ∧
      ctx'.vertexCount = 0 ∧ ctx'.batchCount = 0 ∧ ctx'.frame = 7 + 1 ∧
      ctx'.scratchBatch = specOps.defaultBatch :=
  OnBufferSwap_resets_counters specOps exactFloat sampleFnv sampleLogo (sampleHelper 0)
    sampleBackend { D2DXContext.initial specOps 4 16 zeroVertex with frame := 7 }
    { D2DXContext.initial specOps 4 16 zeroVertex with
      frame := 7, majorGameState := MajorGameState.Menus }
    { D2DXContext.initial specOps 4 16 zeroVertex with
      frame := 7, majorGameState := MajorGameState.Menus }
    (by decide) rfl rfl

/-- C14 (as stated) fails: a frame in which `OnAlphaBlendFunction(ONE, ONE, ZERO, ZERO)` set
the scratch batch to `Additive` ends with `OnBufferSwap` resetting the two counters, but the
scratch batch is still `Additive`, not the default descriptor. -/
theorem OnBufferSwap_keeps_scratch_batch :
    OnAlphaBlendFunction GrAlphaBlendFnc.GR_BLEND_ONE GrAlphaBlendFnc.GR_BLEND_ONE
        GrAlphaBlendFnc.GR_BLEND_ZERO GrAlphaBlendFnc.GR_BLEND_ZERO
        (D2DXContext.initial specOps 4 16 zeroVertex) =
      some { D2DXContext.initial specOps 4 16 zeroVertex with
        scratchBatch := { specOps.defaultBatch with alphaBlend := AlphaBlend.Additive } } ∧
    ∃ ctx', OnBufferSwap specOps exactFloat sampleFnv sampleLogo (sampleHelper 0) sampleBackend
        { D2DXContext.initial specOps 4 16 zeroVertex with
          scratchBatch := { specOps.defaultBatch with alphaBlend := AlphaBlend.Additive } } =
        Except.ok ctx' ∧
      ctx'.vertexCount = 0 ∧ ctx'.batchCount = 0 ∧
      ctx'.scratchBatch.alphaBlend = AlphaBlend.Additive ∧
      ctx'.scratchBatch ≠ specOps.defaultBatch :=
  ⟨rfl, _, rfl, rfl, rfl, rfl, by decide⟩

end Frame

/-! ## Theorems: palette table -/

section Palette

theorem findPaletteKey_found (hash : Nat) (rest : List Nat) (used : List Nat) :
    ∀ (i j : Nat), used[j]? = some hash → used.Nodup → (∀ h ∈ used, h ≠ 0) →
      findPaletteKey hash (used ++ rest) i = some (i + j) := by
  induction used with
  | nil => intro i j hj; simp at hj
  | cons u us ih =>
    intro i j hj hnd hnz
    have hu : u ≠ 0 := hnz u (List.mem_cons_self _ _)
    cases j with
    | zero =>
      simp only [List.getElem?_cons_zero, Option.some.injEq] at hj
      subst hj
      rw [List.cons_append, findPaletteKey, if_neg hu, if_pos rfl, Nat.add_zero]
    | succ j =>
      simp only [List.getElem?_cons_succ] at hj
      have hmem : hash ∈ us := List.getElem?_mem hj
      have hne : u ≠ hash := by
        intro h
        rw [h] at hnd
        exact (List.nodup_cons.mp hnd).1 hmem
      rw [List.cons_append, findPaletteKey, if_neg hu, if_neg hne,
        ih (i + 1) j hj (List.nodup_cons.mp hnd).2
          (fun h hh => hnz h (List.mem_cons_of_mem _ hh))]
      congr 1
      omega

theorem findPaletteKey_not_found (hash : Nat) (free : Nat) (used : List Nat) :
    ∀ i : Nat, hash ∉ used →
      findPaletteKey hash (used ++ List.replicate free 0) i = none := by
  induction used with
  | nil =>
    intro i _
    cases free with
    | zero => rfl
    | succ n => simp [findPaletteKey, List.replicate_succ]
  | cons u us ih =>
    intro i hmem
    have hne : u ≠ hash := fun h => hmem (by rw [h]; exact List.mem_cons_self _ _)
    rw [List.cons_append, findPaletteKey, if_neg hne]
    split_ifs
    · rfl
    · exact ih (i + 1) (fun h => hmem (List.mem_cons_of_mem _ h))

theorem findFreeKey_used (free : Nat) (used : List Nat) :
    ∀ i : Nat, (∀ h ∈ used, h ≠ 0) →
      findFreeKey (used ++ List.replicate free 0) i =
        if free = 0 then none else some (i + used.length) := by
  induction used with
  | nil =>
    intro i _
    cases free with
    | zero => rfl
    | succ n => simp [findFreeKey, List.replicate_succ]
  | cons u us ih =>
    intro i hnz
    have hu : u ≠ 0 := hnz u (List.mem_cons_self _ _)
    rw [List.cons_append, findFreeKey, if_neg hu, List.length_cons,
      ih (i + 1) (fun h hh => hnz h (List.mem_cons_of_mem _ hh))]
    split_ifs
    · rfl
    · congr 1
      omega

theorem OnTexDownloadTable_found (assertsEnabled : Bool) (fnv : List Nat → Nat)
    (data : List Nat) (ctx : D2DXContext) (used : List Nat) (free j : Nat)
    (hkeys : ctx.paletteKeys = used ++ List.replicate free 0) (hnz : ∀ h ∈ used, h ≠ 0)
    (hnd : used.Nodup) (hj : used[j]? = some (fnv (data.take 1024))) :
    OnTexDownloadTable assertsEnabled fnv GrTexTable.GR_TEXTABLE_PALETTE data ctx =
      some { ctx with scratchBatch := { ctx.scratchBatch with paletteIndex := j } } := by
  have hne : fnv (data.take 1024) ≠ 0 := hnz _ (List.getElem?_mem hj)
  have hfind := findPaletteKey_found (fnv (data.take 1024)) (List.replicate free 0) used 0 j hj
    hnd hnz
  rw [Nat.zero_add] at hfind
  simp only [OnTexDownloadTable, ne_eq, not_true_eq_false, if_false, hne, and_false, hkeys,
    hfind]

theorem OnTexDownloadTable_alloc (assertsEnabled : Bool) (fnv : List Nat → Nat)
    (data : List Nat) (ctx : D2DXContext) (used : List Nat) (free : Nat)
    (hkeys : ctx.paletteKeys = used ++ List.replicate (free + 1) 0) (hnz : ∀ h ∈ used, h ≠ 0)
    (hne : fnv (data.take 1024) ≠ 0) (hnew : fnv (data.take 1024) ∉ used) :
    OnTexDownloadTable assertsEnabled fnv GrTexTable.GR_TEXTABLE_PALETTE data ctx =
      some { ctx with
        paletteKeys := (used ++ [fnv (data.take 1024)]) ++ List.replicate free 0
        scratchBatch := { ctx.scratchBatch with paletteIndex := used.length }
        calls := ctx.calls ++ [ExternalCall.SetPalette used.length data] } := by
  have hfind := findPaletteKey_not_found (fnv (data.take 1024)) (free + 1) used 0 hnew
  have hfree := findFreeKey_used (free + 1) used 0 hnz
  rw [if_neg (by omega), Nat.zero_add] at hfree
  have hset : (used ++ List.replicate (free + 1) 0).set used.length (fnv (data.take 1024)) =
      (used ++ [fnv (data.take 1024)]) ++ List.replicate free 0 := by
    rw [List.replicate_succ, List.set_append_right _ _ (le_refl _)]
    simp
  simp only [OnTexDownloadTable, ne_eq, not_true_eq_false, if_false, hne, and_false, hkeys,
    hfind, hfree, hset]

theorem OnTexDownloadTable_full (assertsEnabled : Bool) (fnv : List Nat → Nat)
    (data : List Nat) (ctx : D2DXContext) (hfull : ∀ k ∈ ctx.paletteKeys, k ≠ 0)
    (hnew : fnv (data.take 1024) ∉ ctx.paletteKeys) :
    OnTexDownloadTable assertsEnabled fnv GrTexTable.GR_TEXTABLE_PALETTE data ctx =
      if assertsEnabled then none
      else some { ctx with calls := ctx.calls ++ [ExternalCall.Print "Too many palettes."] } := by
  have hfind := findPaletteKey_not_found (fnv (data.take 1024)) 0 ctx.paletteKeys 0 hnew
  have hfree := findFreeKey_used 0 ctx.paletteKeys 0 hfull
  simp only [List.replicate_zero, List.append_nil, if_true] at hfind hfree
  simp only [OnTexDownloadTable, ne_eq, not_true_eq_false, if_false, hfind, hfree]
  cases assertsEnabled <;> simp

/-- C18 (as amended): when the palette table is full and a palette with a hash not in the
table is downloaded, `OnTexDownloadTable` changes no palette key and not the palette index
of the scratch batch and makes no `SetPalette` call; it reaches
`assert(false && "Too many palettes.")`, which is fatal in a build with assertions, and only
in a build without assertions it logs and returns. -/
theorem OnTexDownloadTable_table_full (assertsEnabled : Bool) (fnv : List Nat → Nat)
    (data : List Nat) (ctx : D2DXContext) (hfull : ∀ k ∈ ctx.paletteKeys, k ≠ 0)
    (hnew : fnv (data.take 1024) ∉ ctx.paletteKeys) :
    OnTexDownloadTable true fnv GrTexTable.GR_TEXTABLE_PALETTE data ctx = none ∧
    OnTexDownloadTable false fnv GrTexTable.GR_TEXTABLE_PALETTE data ctx =
      some { ctx with calls := ctx.calls ++ [ExternalCall.Print "Too many palettes."] } ∧
    OnTexDownloadTable assertsEnabled fnv GrTexTable.GR_TEXTABLE_PALETTE data ctx =
      if assertsEnabled then none
      else some { ctx with calls := ctx.calls ++ [ExternalCall.Print "Too many palettes."] } :=
  ⟨OnTexDownloadTable_full true fnv data ctx hfull hnew,
    OnTexDownloadTable_full false fnv data ctx hfull hnew,
    OnTexDownloadTable_full assertsEnabled fnv data ctx hfull hnew⟩

theorem OnTexDownloadTable_table_full_witness :
    OnTexDownloadTable false sampleFnv GrTexTable.GR_TEXTABLE_PALETTE [3]
        { D2DXContext.initial specOps 4 16 zeroVertex with paletteKeys := [5, 6, 7, 8] } =
      some { D2DXContext.initial specOps 4 16 zeroVertex with
        paletteKeys := [5, 6, 7, 8]
        calls := [ExternalCall.Print "Too many palettes."] } :=
  (OnTexDownloadTable_table_full false sampleFnv [3]
    { D2DXContext.initial specOps 4 16 zeroVertex with paletteKeys := [5, 6, 7, 8] }
    (by decide) (by decide)).2.1

/-- C18 (as stated) fails: with assertions compiled in, downloading a palette with a new hash
into a full table (keys 5, 6, 7, 8; hash 4) does not return: it stops at
`assert(false && "Too many palettes.")`. -/
theorem OnTexDownloadTable_full_table_is_fatal :
    (∀ k ∈ [5, 6, 7, 8], k ≠ 0) ∧ sampleFnv ([3].take 1024) = 4 ∧ 4 ∉ [5, 6, 7, 8] ∧
    OnTexDownloadTable true sampleFnv GrTexTable.GR_TEXTABLE_PALETTE [3]
        { D2DXContext.initial specOps 4 16 zeroVertex with paletteKeys := [5, 6, 7, 8] } =
      none :=
  ⟨by decide, by decide, by decide, rfl⟩


theorem used_of_nonzero_key (used : List Nat) (free i key : Nat)
    (h : (used ++ List.replicate free 0)[i]? = some key) (hkey : key ≠ 0) :
    used[i]? = some key := by
  by_cases hi : i < used.length
  · rwa [List.getElem?_append_left hi] at h
  · rw [List.getElem?_append_right (by omega)] at h
    have hmem := List.getElem?_mem h
    exact absurd (List.eq_of_mem_replicate hmem) hkey

theorem PaletteInv_of_zero (keys : List Nat) (h : ∀ k ∈ keys, k = 0) : PaletteInv keys :=
  ⟨[], keys.length, by
    rw [List.nil_append]
    exact List.eq_replicate_iff.mpr ⟨rfl, h⟩, by simp, List.nodup_nil⟩

/-- One download of a palette with a non-zero hash from a table of the reachable shape. -/
theorem OnTexDownloadTable_step (assertsEnabled : Bool) (fnv : List Nat → Nat)
    (data : List Nat) (ctx ctx' : D2DXContext) (hinv : PaletteInv ctx.paletteKeys)
    (hne : fnv (data.take 1024) ≠ 0)
    (hstep : OnTexDownloadTable assertsEnabled fnv GrTexTable.GR_TEXTABLE_PALETTE data ctx =
      some ctx') :
    PaletteInv ctx'.paletteKeys ∧
    (∀ (i key : Nat), ctx.paletteKeys[i]? = some key → key ≠ 0 → ctx'.paletteKeys[i]? = some key) ∧
    (∀ i : Nat, ctx.paletteKeys[i]? = some (fnv (data.take 1024)) →
      ctx'.scratchBatch.paletteIndex = i ∧ ctx'.paletteKeys = ctx.paletteKeys ∧
        ctx'.calls = ctx.calls) ∧
    ∃ ctx'', OnTexDownloadTable assertsEnabled fnv GrTexTable.GR_TEXTABLE_PALETTE data ctx' =
        some ctx'' ∧
      ctx''.scratchBatch.paletteIndex = ctx'.scratchBatch.paletteIndex ∧
      ctx''.paletteKeys = ctx'.paletteKeys := by
  obtain ⟨used, free, hkeys, hnz, hnd⟩ := hinv
  by_cases hmem : fnv (data.take 1024) ∈ used
  · obtain ⟨j, hj⟩ := List.mem_iff_getElem?.mp hmem
    rw [OnTexDownloadTable_found assertsEnabled fnv data ctx used free j hkeys hnz hnd hj] at hstep
    cases hstep
    refine ⟨⟨used, free, hkeys, hnz, hnd⟩, fun i key h _ => h, ?_, ?_⟩
    · intro i hi
      rw [hkeys] at hi
      have hi' := used_of_nonzero_key used free i _ hi hne
      have e1 := findPaletteKey_found (fnv (data.take 1024)) [] used 0 i hi' hnd hnz
      have e2 := findPaletteKey_found (fnv (data.take 1024)) [] used 0 j hj hnd hnz
      rw [e1] at e2
      simp only [Nat.zero_add, Option.some.injEq] at e2
      exact ⟨e2.symm, rfl, rfl⟩
    · exact ⟨_, OnTexDownloadTable_found assertsEnabled fnv data _ used free j hkeys hnz hnd hj,
        rfl, rfl⟩
  · cases free with
    | zero =>
      rw [List.replicate_zero, List.append_nil] at hkeys
      have hfull : ∀ k ∈ ctx.paletteKeys, k ≠ 0 := by rw [hkeys]; exact hnz
      have hnew : fnv (data.take 1024) ∉ ctx.paletteKeys := by rw [hkeys]; exact hmem
      rw [OnTexDownloadTable_full assertsEnabled fnv data ctx hfull hnew] at hstep
      cases assertsEnabled with
      | true => simp at hstep
      | false =>
        simp only [Bool.false_eq_true, if_false, Option.some.injEq] at hstep
        subst hstep
        refine ⟨⟨used, 0, by simp [hkeys], hnz, hnd⟩, fun i key h _ => h, ?_, ?_⟩
        · intro i hi
          exact absurd (List.getElem?_mem hi) hnew
        · refine ⟨_, OnTexDownloadTable_full false fnv data _ hfull hnew, rfl, rfl⟩
    | succ free =>
      rw [OnTexDownloadTable_alloc assertsEnabled fnv data ctx used free hkeys hnz hne hmem]
        at hstep
      cases hstep
      have hnz' : ∀ h ∈ used ++ [fnv (data.take 1024)], h ≠ 0 := by
        intro h hh
        rcases List.mem_append.mp hh with h1 | h1
        · exact hnz h h1
        · simp only [List.mem_singleton] at h1
          rw [h1]; exact hne
      have hnd' : (used ++ [fnv (data.take 1024)]).Nodup := by
        rw [List.nodup_append]
        refine ⟨hnd, List.nodup_singleton _, ?_⟩
        intro a ha hb
        simp only [List.mem_singleton] at hb
        rw [hb] at ha
        exact hmem ha
      have hidx : (used ++ [fnv (data.take 1024)])[used.length]? =
          some (fnv (data.take 1024)) := by
        rw [List.getElem?_append_right (le_refl _)]
        simp
      refine ⟨⟨_, free, rfl, hnz', hnd'⟩, ?_, ?_, ?_⟩
      · intro i key hi hkey
        rw [hkeys] at hi
        have hi' := used_of_nonzero_key used (free + 1) i key hi hkey
        have hlt : i < used.length := by
          by_contra hge
          rw [List.getElem?_eq_none (by omega)] at hi'
          cases hi'
        show ((used ++ [fnv (data.take 1024)]) ++ List.replicate free 0)[i]? = some key
        rw [List.append_assoc, List.getElem?_append_left hlt]
        exact hi'
      · intro i hi
        rw [hkeys] at hi
        exact absurd (List.getElem?_mem (used_of_nonzero_key used (free + 1) i _ hi hne)) hmem
      · exact ⟨_, OnTexDownloadTable_found assertsEnabled fnv data _
          (used ++ [fnv (data.take 1024)]) free used.length rfl hnz' hnd' hidx, rfl, rfl⟩

theorem downloadAll_inv (assertsEnabled : Bool) (fnv : List Nat → Nat) (datas : List (List Nat)) :
    ∀ ctx ctx' : D2DXContext, PaletteInv ctx.paletteKeys →
      (∀ d ∈ datas, fnv (d.take 1024) ≠ 0) →
      downloadAll assertsEnabled fnv datas ctx = some ctx' → PaletteInv ctx'.paletteKeys := by
  induction datas with
  | nil =>
    intro ctx ctx' hinv _ h
    simp only [downloadAll, Option.some.injEq] at h
    rw [← h]; exact hinv
  | cons d rest ih =>
    intro ctx ctx' hinv hnz h
    simp only [downloadAll] at h
    cases hstep : OnTexDownloadTable assertsEnabled fnv GrTexTable.GR_TEXTABLE_PALETTE d ctx with
    | none => rw [hstep] at h; cases h
    | some ctx1 =>
      rw [hstep] at h
      exact ih ctx1 ctx'
        (OnTexDownloadTable_step assertsEnabled fnv d ctx ctx1 hinv
          (hnz d (List.mem_cons_self _ _)) hstep).1
        (fun x hx => hnz x (List.mem_cons_of_mem _ hx)) h

/-- C17: in every state reached from an all-zero palette table through downloads of palettes
with non-zero hashes, a further such download that returns leaves every non-zero key in its
slot; if the hash is already in the table at slot `i`, it sets the palette index of the
scratch batch to `i`, changes no key and makes no call to the backend; and downloading the
same bytes once more returns with the same palette index and the same keys. -/
theorem OnTexDownloadTable_content_addressed (assertsEnabled : Bool) (fnv : List Nat → Nat)
    (ctx0 ctx ctx' : D2DXContext) (datas : List (List Nat)) (data : List Nat)
    (hzero : ∀ k ∈ ctx0.paletteKeys, k = 0)
    (hdatas : ∀ d ∈ datas, fnv (d.take 1024) ≠ 0)
    (hreach : downloadAll assertsEnabled fnv datas ctx0 = some ctx)
    (hne : fnv (data.take 1024) ≠ 0)
    (hstep : OnTexDownloadTable assertsEnabled fnv GrTexTable.GR_TEXTABLE_PALETTE data ctx =
      some ctx') :
    (∀ (i key : Nat), ctx.paletteKeys[i]? = some key → key ≠ 0 → ctx'.paletteKeys[i]? = some key) ∧
    (∀ i : Nat, ctx.paletteKeys[i]? = some (fnv (data.take 1024)) →
      ctx'.scratchBatch.paletteIndex = i ∧ ctx'.paletteKeys = ctx.paletteKeys ∧
        ctx'.calls = ctx.calls) ∧
    ∃ ctx'', OnTexDownloadTable assertsEnabled fnv GrTexTable.GR_TEXTABLE_PALETTE data ctx' =
        some ctx'' ∧
      ctx''.scratchBatch.paletteIndex = ctx'.scratchBatch.paletteIndex ∧
      ctx''.paletteKeys = ctx'.paletteKeys :=
  (OnTexDownloadTable_step assertsEnabled fnv data ctx ctx'
    (downloadAll_inv assertsEnabled fnv datas ctx0 ctx (PaletteInv_of_zero _ hzero) hdatas hreach)
    hne hstep).2

theorem OnTexDownloadTable_content_addressed_witness :
    ∃ ctx'', OnTexDownloadTable true sampleFnv GrTexTable.GR_TEXTABLE_PALETTE [3]
        { D2DXContext.initial specOps 4 16 zeroVertex with
          paletteKeys := [9, 4, 0, 0]
          scratchBatch := { specOps.defaultBatch with paletteIndex := 1 }
          calls := [ExternalCall.SetPalette 0 [8], ExternalCall.SetPalette 1 [3]] } =
        some ctx'' ∧
      ctx''.scratchBatch.paletteIndex = 1 ∧ ctx''.paletteKeys = [9, 4, 0, 0] :=
  (OnTexDownloadTable_content_addressed true sampleFnv
    (D2DXContext.initial specOps 4 16 zeroVertex)
    { D2DXContext.initial specOps 4 16 zeroVertex with
      paletteKeys := [9, 0, 0, 0]
      scratchBatch := { specOps.defaultBatch with paletteIndex := 0 }
      calls := [ExternalCall.SetPalette 0 [8]] }
    { D2DXContext.initial specOps 4 16 zeroVertex with
      paletteKeys := [9, 4, 0, 0]
      scratchBatch := { specOps.defaultBatch with paletteIndex := 1 }
      calls := [ExternalCall.SetPalette 0 [8], ExternalCall.SetPalette 1 [3]] }
    [[8]] [3] (by decide) (by decide) rfl (by decide) rfl).2.2

end Palette

/-! ## Theorems: lines -/

section Lines

theorem set6_getElem? {α : Type} (l : List α) (i : Nat) (a b c d e f : α)
    (h : i + 5 < l.length) :
    ((((((l.set i a).set (i + 1) b).set (i + 2) c).set (i + 3) d).set (i + 4) e).set
        (i + 5) f)[i]? = some a ∧
    ((((((l.set i a).set (i + 1) b).set (i + 2) c).set (i + 3) d).set (i + 4) e).set
        (i + 5) f)[i + 1]? = some b ∧
    ((((((l.set i a).set (i + 1) b).set (i + 2) c).set (i + 3) d).set (i + 4) e).set
        (i + 5) f)[i + 2]? = some c ∧
    ((((((l.set i a).set (i + 1) b).set (i + 2) c).set (i + 3) d).set (i + 4) e).set
        (i + 5) f)[i + 3]? = some d ∧
    ((((((l.set i a).set (i + 1) b).set (i + 2) c).set (i + 3) d).set (i + 4) e).set
        (i + 5) f)[i + 4]? = some e ∧
    ((((((l.set i a).set (i + 1) b).set (i + 2) c).set (i + 3) d).set (i + 4) e).set
        (i + 5) f)[i + 5]? = some f ∧
    ∀ j < i, ((((((l.set i a).set (i + 1) b).set (i + 2) c).set (i + 3) d).set (i + 4) e).set
        (i + 5) f)[j]? = l[j]? := by
  refine ⟨?_, ?_, ?_, ?_, ?_, ?_, ?_⟩
  · rw [List.getElem?_set_ne (by omega), List.getElem?_set_ne (by omega),
      List.getElem?_set_ne (by omega), List.getElem?_set_ne (by omega),
      List.getElem?_set_ne (by omega), List.getElem?_set_eq_of_lt _ (by omega)]
  · rw [List.getElem?_set_ne (by omega), List.getElem?_set_ne (by omega),
      List.getElem?_set_ne (by omega), List.getElem?_set_ne (by omega),
      List.getElem?_set_eq_of_lt _ (by simp; omega)]
  · rw [List.getElem?_set_ne (by omega), List.getElem?_set_ne (by omega),
      List.getElem?_set_ne (by omega), List.getElem?_set_eq_of_lt _ (by simp; omega)]
  · rw [List.getElem?_set_ne (by omega), List.getElem?_set_ne (by omega),
      List.getElem?_set_eq_of_lt _ (by simp; omega)]
  · rw [List.getElem?_set_ne (by omega), List.getElem?_set_eq_of_lt _ (by simp; omega)]
  · rw [List.getElem?_set_eq_of_lt _ (by simp; omega)]
  · intro j hj
    rw [List.getElem?_set_ne (by omega), List.getElem?_set_ne (by omega),
      List.getElem?_set_ne (by omega), List.getElem?_set_ne (by omega),
      List.getElem?_set_ne (by omega), List.getElem?_set_ne (by omega)]

/-- One passing `writeQuad`: the six vertices land at the old vertex count, everything below
it and the batch list are untouched. -/
theorem writeQuad_spec (ctx : D2DXContext) (a b c d e f : Vertex)
    (h : ctx.vertexCount + 6 < ctx.vertices.length) :
    ∃ ctx', writeQuad ctx a b c d e f = some ctx' ∧
      ctx'.batches = ctx.batches ∧ ctx'.batchCount = ctx.batchCount ∧
      ctx'.vertexCount = ctx.vertexCount + 6 ∧
      ctx'.vertices.length = ctx.vertices.length ∧
      (∀ j < ctx.vertexCount, ctx'.vertices[j]? = ctx.vertices[j]?) ∧
      ctx'.vertices[ctx.vertexCount]? = some a ∧
      ctx'.vertices[ctx.vertexCount + 1]? = some b ∧
      ctx'.vertices[ctx.vertexCount + 2]? = some c ∧
      ctx'.vertices[ctx.vertexCount + 3]? = some d ∧
      ctx'.vertices[ctx.vertexCount + 4]? = some e ∧
      ctx'.vertices[ctx.vertexCount + 5]? = some f := by
  obtain ⟨h0, h1, h2, h3, h4, h5, hlt⟩ :=
    set6_getElem? ctx.vertices ctx.vertexCount a b c d e f (by omega)
  refine ⟨{ ctx with
      vertices := (((((ctx.vertices.set ctx.vertexCount a).set (ctx.vertexCount + 1) b).set
        (ctx.vertexCount + 2) c).set (ctx.vertexCount + 3) d).set (ctx.vertexCount + 4) e).set
        (ctx.vertexCount + 5) f
      vertexCount := ctx.vertexCount + 6 }, ?_, rfl, rfl, rfl, by simp, hlt, h0, h1, h2, h3,
      h4, h5⟩
  simp only [writeQuad, h, if_true]

theorem float001_lt : float001 < 1 / 100 := by
  unfold float001
  norm_num

/-- In exact arithmetic, for a segment of squared length above 0.01 whose square root is
exact, the offset of `OnDrawLine` is perpendicular to the segment and has length 1/2. -/
theorem lineOffset_exact (F : FloatOps) (startVertex endVertex : Vertex) (hF : F.Exact)
    (hlen : 1 / 100 <
      (endVertex.x - startVertex.x) ^ 2 + (endVertex.y - startVertex.y) ^ 2)
    (hsqrt : F.sqrtf ((endVertex.x - startVertex.x) ^ 2 + (endVertex.y - startVertex.y) ^ 2) *
        F.sqrtf ((endVertex.x - startVertex.x) ^ 2 + (endVertex.y - startVertex.y) ^ 2) =
      (endVertex.x - startVertex.x) ^ 2 + (endVertex.y - startVertex.y) ^ 2) :
    (lineOffset F startVertex endVertex).1 * (endVertex.x - startVertex.x) +
        (lineOffset F startVertex endVertex).2 * (endVertex.y - startVertex.y) = 0 ∧
    (lineOffset F startVertex endVertex).1 ^ 2 + (lineOffset F startVertex endVertex).2 ^ 2 =
      1 / 4 := by
  obtain ⟨hsub, hadd, hmul, hdiv⟩ := hF
  have hl : (startVertex.y - endVertex.y) * (startVertex.y - endVertex.y) +
      (endVertex.x - startVertex.x) * (endVertex.x - startVertex.x) =
      (endVertex.x - startVertex.x) ^ 2 + (endVertex.y - startVertex.y) ^ 2 := by ring
  have hgt : (endVertex.x - startVertex.x) ^ 2 + (endVertex.y - startVertex.y) ^ 2 > float001 :=
    lt_trans float001_lt hlen
  have hr : F.sqrtf ((endVertex.x - startVertex.x) ^ 2 + (endVertex.y - startVertex.y) ^ 2) ≠
      0 := by
    intro h0
    rw [h0, mul_zero] at hsqrt
    rw [← hsqrt] at hlen
    norm_num at hlen
  simp only [lineOffset, hsub, hadd, hmul, hdiv, hl, hgt, if_true]
  generalize F.sqrtf ((endVertex.x - startVertex.x) ^ 2 + (endVertex.y - startVertex.y) ^ 2) = r
    at hsqrt hr
  constructor
  · field_simp
    ring
  · field_simp
    linear_combination (-4 : Rat) * hsqrt

theorem FixIngameMousePosition_fields (ctx : D2DXContext) :
    (FixIngameMousePosition ctx).constantColor = ctx.constantColor ∧
    (FixIngameMousePosition ctx).vertexLayout = ctx.vertexLayout ∧
    (FixIngameMousePosition ctx).vertexCount = ctx.vertexCount ∧
    (FixIngameMousePosition ctx).vertices = ctx.vertices ∧
    (FixIngameMousePosition ctx).batches = ctx.batches ∧
    (FixIngameMousePosition ctx).batchCount = ctx.batchCount ∧
    (FixIngameMousePosition ctx).scratchBatch = ctx.scratchBatch := by
  unfold FixIngameMousePosition
  split_ifs <;> exact ⟨rfl, rfl, rfl, rfl, rfl, rfl, rfl⟩

theorem lineBatch_fix (gh : GameHelper) (gameContext : Nat) (ctx : D2DXContext) :
    lineBatch gh gameContext (FixIngameMousePosition ctx) = lineBatch gh gameContext ctx := by
  obtain ⟨_, _, hvc, _, _, _, hsb⟩ := FixIngameMousePosition_fields ctx
  simp only [lineBatch, hvc, hsb]

theorem exactFloat_exact : exactFloat.Exact :=
  ⟨fun _ _ => rfl, fun _ _ => rfl, fun _ _ => rfl, fun _ _ => rfl⟩

theorem ReadVertex_position (ops : BatchOps) (mem : Memory)
    (constantColor vertex vertexLayout : Nat) (batch : Batch) (v : Vertex)
    (h : ReadVertex ops mem constantColor vertex vertexLayout batch = some v) :
    v.x = mem.readFloat (vertex + ((vertexLayout >>> 16) &&& 0xFF)) ∧
    v.y = mem.readFloat (vertex + ((vertexLayout >>> 16) &&& 0xFF) + 4) := by
  unfold ReadVertex at h
  simp only at h
  split_ifs at h <;> (cases h; exact ⟨rfl, rfl⟩)

end Lines

/-! ## Theorems: vertex ranges of a frame -/

section Ranges

theorem writeTriangle_some (ctx ctx1 : D2DXContext) (a b c : Vertex)
    (h : writeTriangle ctx a b c = some ctx1) :
    ctx1.batches = ctx.batches ∧ ctx1.batchCount = ctx.batchCount ∧
    ctx1.vertexCount = ctx.vertexCount + 3 ∧
    ctx1.vertices.length = ctx.vertices.length ∧
    ctx1.vertexCount < ctx1.vertices.length := by
  unfold writeTriangle at h
  split_ifs at h with hc
  cases h
  exact ⟨rfl, rfl, rfl, by simp, by simpa using hc⟩

theorem writeQuad_some (ctx ctx1 : D2DXContext) (a b c d e f : Vertex)
    (h : writeQuad ctx a b c d e f = some ctx1) :
    ctx1.batches = ctx.batches ∧ ctx1.batchCount = ctx.batchCount ∧
    ctx1.vertexCount = ctx.vertexCount + 6 ∧
    ctx1.vertices.length = ctx.vertices.length := by
  unfold writeQuad at h
  split_ifs at h with hc
  cases h
  exact ⟨rfl, rfl, rfl, by simp⟩

theorem appendBatch_some (ctx ctx' : D2DXContext) (batch : Batch)
    (h : appendBatch ctx batch = some ctx') :
    ctx.batchCount < ctx.batches.length ∧
    ctx'.batches = ctx.batches.set ctx.batchCount batch ∧
    ctx'.batchCount = ctx.batchCount + 1 ∧ ctx'.vertexCount = ctx.vertexCount ∧
    ctx'.vertices = ctx.vertices := by
  unfold appendBatch at h
  split_ifs at h with hc
  cases h
  exact ⟨hc, rfl, rfl, rfl, rfl⟩

theorem fanLoop_some (read : Nat → Option Vertex) (first : Vertex) (l : List Nat) :
    ∀ (prev : Vertex) (ctx ctx' : D2DXContext), fanLoop read first l prev ctx = some ctx' →
      ctx'.batches = ctx.batches ∧ ctx'.batchCount = ctx.batchCount ∧
      ctx'.vertexCount = ctx.vertexCount + 3 * l.length ∧
      ctx'.vertices.length = ctx.vertices.length ∧
      (l.length ≠ 0 → ctx'.vertexCount < ctx'.vertices.length) := by
  induction l with
  | nil =>
    intro prev ctx ctx' h
    simp only [fanLoop, Option.some.injEq] at h
    subst h
    exact ⟨rfl, rfl, rfl, rfl, fun h => absurd rfl h⟩
  | cons i rest ih =>
    intro prev ctx ctx' h
    simp only [fanLoop] at h
    cases hr : read i with
    | none => rw [hr] at h; cases h
    | some cur =>
      rw [hr] at h
      simp only at h
      cases hw : writeTriangle ctx first prev cur with
      | none => rw [hw] at h; cases h
      | some ctx1 =>
        rw [hw] at h
        simp only at h
        obtain ⟨b1, bc1, vc1, l1, lt1⟩ := writeTriangle_some _ _ _ _ _ hw
        obtain ⟨b2, bc2, vc2, l2, lt2⟩ := ih cur ctx1 ctx' h
        refine ⟨by rw [b2, b1], by rw [bc2, bc1], by rw [vc2, vc1, List.length_cons]; omega,
          by rw [l2, l1], fun _ => ?_⟩
        by_cases hrest : rest.length = 0
        · rw [hrest] at vc2
          rw [l2]
          omega
        · exact lt2 hrest

theorem stripLoop_some (read : Nat → Option Vertex) (l : List Nat) :
    ∀ (pp prev : Vertex) (ctx ctx' : D2DXContext), stripLoop read l pp prev ctx = some ctx' →
      ctx'.batches = ctx.batches ∧ ctx'.batchCount = ctx.batchCount ∧
      ctx'.vertexCount = ctx.vertexCount + 3 * l.length ∧
      ctx'.vertices.length = ctx.vertices.length ∧
      (l.length ≠ 0 → ctx'.vertexCount < ctx'.vertices.length) := by
  induction l with
  | nil =>
    intro pp prev ctx ctx' h
    simp only [stripLoop, Option.some.injEq] at h
    subst h
    exact ⟨rfl, rfl, rfl, rfl, fun h => absurd rfl h⟩
  | cons i rest ih =>
    intro pp prev ctx ctx' h
    simp only [stripLoop] at h
    cases hr : read i with
    | none => rw [hr] at h; cases h
    | some cur =>
      rw [hr] at h
      simp only at h
      cases hw : writeTriangle ctx pp prev cur with
      | none => rw [hw] at h; cases h
      | some ctx1 =>
        rw [hw] at h
        simp only at h
        obtain ⟨b1, bc1, vc1, l1, lt1⟩ := writeTriangle_some _ _ _ _ _ hw
        obtain ⟨b2, bc2, vc2, l2, lt2⟩ := ih prev cur ctx1 ctx' h
        refine ⟨by rw [b2, b1], by rw [bc2, bc1], by rw [vc2, vc1, List.length_cons]; omega,
          by rw [l2, l1], fun _ => ?_⟩
        by_cases hrest : rest.length = 0
        · rw [hrest] at vc2
          rw [l2]
          omega
        · exact lt2 hrest

theorem fanLoopContiguous_some (readAt : Nat → Option Vertex) (stride : Nat) (first : Vertex)
    (n : Nat) :
    ∀ (vertex : Nat) (prev : Vertex) (ctx ctx' : D2DXContext),
      fanLoopContiguous readAt stride first n vertex prev ctx = some ctx' →
      ctx'.batches = ctx.batches ∧ ctx'.batchCount = ctx.batchCount ∧
      ctx'.vertexCount = ctx.vertexCount + 3 * n ∧
      ctx'.vertices.length = ctx.vertices.length ∧
      (n ≠ 0 → ctx'.vertexCount < ctx'.vertices.length) := by
  induction n with
  | zero =>
    intro vertex prev ctx ctx' h
    simp only [fanLoopContiguous, Option.some.injEq] at h
    subst h
    exact ⟨rfl, rfl, rfl, rfl, fun h => absurd rfl h⟩
  | succ n ih =>
    intro vertex prev ctx ctx' h
    simp only [fanLoopContiguous] at h
    cases hr : readAt vertex with
    | none => rw [hr] at h; cases h
    | some cur =>
      rw [hr] at h
      simp only at h
      cases hw : writeTriangle ctx first prev cur with
      | none => rw [hw] at h; cases h
      | some ctx1 =>
        rw [hw] at h
        simp only at h
        obtain ⟨b1, bc1, vc1, l1, lt1⟩ := writeTriangle_some _ _ _ _ _ hw
        obtain ⟨b2, bc2, vc2, l2, lt2⟩ := ih (vertex + stride) cur ctx1 ctx' h
        refine ⟨by rw [b2, b1], by rw [bc2, bc1], by rw [vc2, vc1]; omega,
          by rw [l2, l1], fun _ => ?_⟩
        by_cases hrest : n = 0
        · rw [hrest] at vc2
          rw [l2]
          omega
        · exact lt2 hrest

theorem stripLoopContiguous_some (readAt : Nat → Option Vertex) (stride : Nat) (n : Nat) :
    ∀ (vertex : Nat) (pp prev : Vertex) (ctx ctx' : D2DXContext),
      stripLoopContiguous readAt stride n vertex pp prev ctx = some ctx' →
      ctx'.batches = ctx.batches ∧ ctx'.batchCount = ctx.batchCount ∧
      ctx'.vertexCount = ctx.vertexCount + 3 * n ∧
      ctx'.vertices.length = ctx.vertices.length ∧
      (n ≠ 0 → ctx'.vertexCount < ctx'.vertices.length) := by
  induction n with
  | zero =>
    intro vertex pp prev ctx ctx' h
    simp only [stripLoopContiguous, Option.some.injEq] at h
    subst h
    exact ⟨rfl, rfl, rfl, rfl, fun h => absurd rfl h⟩
  | succ n ih =>
    intro vertex pp prev ctx ctx' h
    simp only [stripLoopContiguous] at h
    cases hr : readAt vertex with
    | none => rw [hr] at h; cases h
    | some cur =>
      rw [hr] at h
      simp only at h
      cases hw : writeTriangle ctx pp prev cur with
      | none => rw [hw] at h; cases h
      | some ctx1 =>
        rw [hw] at h
        simp only at h
        obtain ⟨b1, bc1, vc1, l1, lt1⟩ := writeTriangle_some _ _ _ _ _ hw
        obtain ⟨b2, bc2, vc2, l2, lt2⟩ := ih (vertex + stride) prev cur ctx1 ctx' h
        refine ⟨by rw [b2, b1], by rw [bc2, bc1], by rw [vc2, vc1]; omega,
          by rw [l2, l1], fun _ => ?_⟩
        by_cases hrest : n = 0
        · rw [hrest] at vc2
          rw [l2]
          omega
        · exact lt2 hrest

theorem then_appendBatch_some (r : Option D2DXContext) (batch : Batch) (ctx' : D2DXContext)
    (h : (match r with
      | none => none
      | some ctx2 => appendBatch ctx2 batch) = some ctx') :
    ∃ ctx2, r = some ctx2 ∧ appendBatch ctx2 batch = some ctx' := by
  cases r with
  | none => cases h
  | some ctx2 => exact ⟨ctx2, rfl, h⟩

/-- The common tail of the two vertex-array calls: once the loop has written `count - 2`
triangles and the batch assertion has passed, the stamped batch starts at the old vertex
count and ends at the new one. -/
theorem stamped_step (gh : GameHelper) (backend : RenderBackend) (count gameContext : Nat)
    (ctx ctx2 ctx' : D2DXContext) (h2 : 2 ≤ count) (hlen : ctx.vertices.length ≤ 2 ^ 32)
    (hb : ctx2.batches = (preparedSubmit gh backend count gameContext ctx).2.batches)
    (hbc : ctx2.batchCount = (preparedSubmit gh backend count gameContext ctx).2.batchCount)
    (hvc : ctx2.vertexCount =
      (preparedSubmit gh backend count gameContext ctx).2.vertexCount + 3 * (count - 2))
    (hl : ctx2.vertices.length =
      (preparedSubmit gh backend count gameContext ctx).2.vertices.length)
    (hlt : count - 2 ≠ 0 → ctx2.vertexCount < ctx2.vertices.length)
    (happ : appendBatch ctx2 (preparedSubmit gh backend count gameContext ctx).1 = some ctx') :
    ∃ b : Batch, ctx.batchCount < ctx.batches.length ∧
      ctx'.batches = ctx.batches.set ctx.batchCount b ∧
      ctx'.batchCount = ctx.batchCount + 1 ∧ b.startVertex = ctx.vertexCount ∧
      ctx'.vertexCount = ctx.vertexCount + b.vertexCount ∧
      ctx'.vertices.length = ctx.vertices.length := by
  obtain ⟨_, _, pvc, pvs, pbs, pbc, pstart, pcount, _⟩ :=
    preparedSubmit_fields gh backend count gameContext ctx
  obtain ⟨alt, ab, abc, avc, avs⟩ := appendBatch_some _ _ _ happ
  rw [pvc] at hvc
  rw [pvs] at hl
  rw [hb, hbc, pbs, pbc] at ab alt
  rw [hbc, pbc] at abc
  have e : (2 : Nat) ^ 32 = 4294967296 := by norm_num
  have hs : (preparedSubmit gh backend count gameContext ctx).1.vertexCount =
      3 * (count - 2) := by
    rw [pcount]
    apply stamped_count count h2
    rw [e] at hlen ⊢
    by_cases h0 : count - 2 = 0
    · rw [h0]; norm_num
    · have := hlt h0
      omega
  exact ⟨_, alt, ab, abc, pstart, by rw [avc, hvc, hs], by rw [avs, hl]⟩

theorem OnDrawVertexArray_some (ops : BatchOps) (gh : GameHelper) (backend : RenderBackend)
    (mem : Memory) (mode : VertexArrayMode) (count : Nat) (pointers : Nat → Nat)
    (gameContext : Nat) (ctx ctx' : D2DXContext) (h2 : 2 ≤ count)
    (hlen : ctx.vertices.length ≤ 2 ^ 32)
    (h : OnDrawVertexArray ops gh backend mem mode count pointers gameContext ctx = some ctx') :
    ∃ b : Batch, ctx.batchCount < ctx.batches.length ∧
      ctx'.batches = ctx.batches.set ctx.batchCount b ∧
      ctx'.batchCount = ctx.batchCount + 1 ∧ b.startVertex = ctx.vertexCount ∧
      ctx'.vertexCount = ctx.vertexCount + b.vertexCount ∧
      ctx'.vertices.length = ctx.vertices.length := by
  obtain ⟨w0, h0⟩ := ReadVertex_isSome ops mem
    (preparedSubmit gh backend count gameContext ctx).2.constantColor (pointers 0)
    (preparedSubmit gh backend count gameContext ctx).2.vertexLayout
    (preparedSubmit gh backend count gameContext ctx).1
  obtain ⟨w1, h1⟩ := ReadVertex_isSome ops mem
    (preparedSubmit gh backend count gameContext ctx).2.constantColor (pointers 1)
    (preparedSubmit gh backend count gameContext ctx).2.vertexLayout
    (preparedSubmit gh backend count gameContext ctx).1
  cases mode with
  | GR_TRIANGLE_FAN =>
    have h' : (match ReadVertex ops mem
          (preparedSubmit gh backend count gameContext ctx).2.constantColor (pointers 0)
          (preparedSubmit gh backend count gameContext ctx).2.vertexLayout
          (preparedSubmit gh backend count gameContext ctx).1,
        ReadVertex ops mem (preparedSubmit gh backend count gameContext ctx).2.constantColor
          (pointers 1) (preparedSubmit gh backend count gameContext ctx).2.vertexLayout
          (preparedSubmit gh backend count gameContext ctx).1 with
      | some firstVertex, some prevVertex =>
        match fanLoop (fun i => ReadVertex ops mem
            (preparedSubmit gh backend count gameContext ctx).2.constantColor (pointers i)
            (preparedSubmit gh backend count gameContext ctx).2.vertexLayout
            (preparedSubmit gh backend count gameContext ctx).1) firstVertex
            (List.range' 2 (count - 2)) prevVertex
            (preparedSubmit gh backend count gameContext ctx).2 with
        | none => none
        | some ctx2 => appendBatch ctx2 (preparedSubmit gh backend count gameContext ctx).1
      | _, _ => none) = some ctx' := h
    rw [h0, h1] at h'
    simp only at h'
    obtain ⟨ctx2, hloop, happ⟩ := then_appendBatch_some _ _ _ h'
    obtain ⟨lb, lbc, lvc, ll, llt⟩ := fanLoop_some _ _ _ _ _ _ hloop
    rw [List.length_range'] at lvc llt
    exact stamped_step gh backend count gameContext ctx ctx2 ctx' h2 hlen lb lbc lvc ll llt happ
  | GR_TRIANGLE_STRIP =>
    have h' : (match ReadVertex ops mem
          (preparedSubmit gh backend count gameContext ctx).2.constantColor (pointers 0)
          (preparedSubmit gh backend count gameContext ctx).2.vertexLayout
          (preparedSubmit gh backend count gameContext ctx).1,
        ReadVertex ops mem (preparedSubmit gh backend count gameContext ctx).2.constantColor
          (pointers 1) (preparedSubmit gh backend count gameContext ctx).2.vertexLayout
          (preparedSubmit gh backend count gameContext ctx).1 with
      | some prevPrevVertex, some prevVertex =>
        match stripLoop (fun i => ReadVertex ops mem
            (preparedSubmit gh backend count gameContext ctx).2.constantColor (pointers i)
            (preparedSubmit gh backend count gameContext ctx).2.vertexLayout
            (preparedSubmit gh backend count gameContext ctx).1)
            (List.range' 2 (count - 2)) prevPrevVertex prevVertex
            (preparedSubmit gh backend count gameContext ctx).2 with
        | none => none
        | some ctx2 => appendBatch ctx2 (preparedSubmit gh backend count gameContext ctx).1
      | _, _ => none) = some ctx' := h
    rw [h0, h1] at h'
    simp only at h'
    obtain ⟨ctx2, hloop, happ⟩ := then_appendBatch_some _ _ _ h'
    obtain ⟨lb, lbc, lvc, ll, llt⟩ := stripLoop_some _ _ _ _ _ _ hloop
    rw [List.length_range'] at lvc llt
    exact stamped_step gh backend count gameContext ctx ctx2 ctx' h2 hlen lb lbc lvc ll llt happ
  | other code => cases h

theorem OnDrawVertexArrayContiguous_some (ops : BatchOps) (gh : GameHelper)
    (backend : RenderBackend) (mem : Memory) (mode : VertexArrayMode) (count : Nat)
    (vertex stride gameContext : Nat) (ctx ctx' : D2DXContext) (h2 : 2 ≤ count)
    (hlen : ctx.vertices.length ≤ 2 ^ 32)
    (h : OnDrawVertexArrayContiguous ops gh backend mem mode count vertex stride gameContext
      ctx = some ctx') :
    ∃ b : Batch, ctx.batchCount < ctx.batches.length ∧
      ctx'.batches = ctx.batches.set ctx.batchCount b ∧
      ctx'.batchCount = ctx.batchCount + 1 ∧ b.startVertex = ctx.vertexCount ∧
      ctx'.vertexCount = ctx.vertexCount + b.vertexCount ∧
      ctx'.vertices.length = ctx.vertices.length := by
  obtain ⟨w0, h0⟩ := ReadVertex_isSome ops mem
    (preparedSubmit gh backend count gameContext ctx).2.constantColor vertex
    (preparedSubmit gh backend count gameContext ctx).2.vertexLayout
    (preparedSubmit gh backend count gameContext ctx).1
  obtain ⟨w1, h1⟩ := ReadVertex_isSome ops mem
    (preparedSubmit gh backend count gameContext ctx).2.constantColor (vertex + stride)
    (preparedSubmit gh backend count gameContext ctx).2.vertexLayout
    (preparedSubmit gh backend count gameContext ctx).1
  cases mode with
  | GR_TRIANGLE_FAN =>
    have h' : (match ReadVertex ops mem
          (preparedSubmit gh backend count gameContext ctx).2.constantColor vertex
          (preparedSubmit gh backend count gameContext ctx).2.vertexLayout
          (preparedSubmit gh backend count gameContext ctx).1,
        ReadVertex ops mem (preparedSubmit gh backend count gameContext ctx).2.constantColor
          (vertex + stride) (preparedSubmit gh backend count gameContext ctx).2.vertexLayout
          (preparedSubmit gh backend count gameContext ctx).1 with
      | some firstVertex, some prevVertex =>
        match fanLoopContiguous (fun p => ReadVertex ops mem
            (preparedSubmit gh backend count gameContext ctx).2.constantColor p
            (preparedSubmit gh backend count gameContext ctx).2.vertexLayout
            (preparedSubmit gh backend count gameContext ctx).1) stride firstVertex
            (count - 2) (vertex + stride + stride) prevVertex
            (preparedSubmit gh backend count gameContext ctx).2 with
        | none => none
        | some ctx2 => appendBatch ctx2 (preparedSubmit gh backend count gameContext ctx).1
      | _, _ => none) = some ctx' := h
    rw [h0, h1] at h'
    simp only at h'
    obtain ⟨ctx2, hloop, happ⟩ := then_appendBatch_some _ _ _ h'
    obtain ⟨lb, lbc, lvc, ll, llt⟩ := fanLoopContiguous_some _ _ _ _ _ _ _ _ hloop
    exact stamped_step gh backend count gameContext ctx ctx2 ctx' h2 hlen lb lbc lvc ll llt happ
  | GR_TRIANGLE_STRIP =>
    have h' : (match ReadVertex ops mem
          (preparedSubmit gh backend count gameContext ctx).2.constantColor vertex
          (preparedSubmit gh backend count gameContext ctx).2.vertexLayout
          (preparedSubmit gh backend count gameContext ctx).1,
        ReadVertex ops mem (preparedSubmit gh backend count gameContext ctx).2.constantColor
          (vertex + stride) (preparedSubmit gh backend count gameContext ctx).2.vertexLayout
          (preparedSubmit gh backend count gameContext ctx).1 with
      | some prevPrevVertex, some prevVertex =>
        match stripLoopContiguous (fun p => ReadVertex ops mem
            (preparedSubmit gh backend count gameContext ctx).2.constantColor p
            (preparedSubmit gh backend count gameContext ctx).2.vertexLayout
            (preparedSubmit gh backend count gameContext ctx).1) stride
            (count - 2) (vertex + stride + stride) prevPrevVertex prevVertex
            (preparedSubmit gh backend count gameContext ctx).2 with
        | none => none
        | some ctx2 => appendBatch ctx2 (preparedSubmit gh backend count gameContext ctx).1
      | _, _ => none) = some ctx' := h
    rw [h0, h1] at h'
    simp only at h'
    obtain ⟨ctx2, hloop, happ⟩ := then_appendBatch_some _ _ _ h'
    obtain ⟨lb, lbc, lvc, ll, llt⟩ := stripLoopContiguous_some _ _ _ _ _ _ _ _ hloop
    exact stamped_step gh backend count gameContext ctx ctx2 ctx' h2 hlen lb lbc lvc ll llt happ
  | other code => cases h

theorem OnDrawLine_some (ops : BatchOps) (F : FloatOps) (gh : GameHelper) (mem : Memory)
    (v1 v2 gameContext : Nat) (ctx ctx' : D2DXContext)
    (h : OnDrawLine ops F gh mem v1 v2 gameContext ctx = some ctx') :
    ∃ b : Batch, ctx.batchCount < ctx.batches.length ∧
      ctx'.batches = ctx.batches.set ctx.batchCount b ∧
      ctx'.batchCount = ctx.batchCount + 1 ∧ b.startVertex = ctx.vertexCount ∧
      ctx'.vertexCount = ctx.vertexCount + b.vertexCount ∧
      ctx'.vertices.length = ctx.vertices.length := by
  obtain ⟨_, _, fvc, fvs, fbs, fbc, _⟩ := FixIngameMousePosition_fields ctx
  unfold OnDrawLine at h
  simp only at h
  cases hs : ReadVertex ops mem (FixIngameMousePosition ctx).constantColor v1
      (FixIngameMousePosition ctx).vertexLayout
      (lineBatch gh gameContext (FixIngameMousePosition ctx)) with
  | none => rw [hs] at h; cases h
  | some s =>
    cases he : ReadVertex ops mem (FixIngameMousePosition ctx).constantColor v2
        (FixIngameMousePosition ctx).vertexLayout
        (lineBatch gh gameContext (FixIngameMousePosition ctx)) with
    | none => rw [hs, he] at h; cases h
    | some e =>
      rw [hs, he] at h
      simp only at h
      obtain ⟨ctx1, hq, happ⟩ := then_appendBatch_some _ _ _ h
      obtain ⟨qb, qbc, qvc, ql⟩ := writeQuad_some _ _ _ _ _ _ _ _ hq
      obtain ⟨alt, ab, abc, avc, avs⟩ := appendBatch_some _ _ _ happ
      rw [qb, qbc, fbs, fbc] at ab alt
      rw [qbc, fbc] at abc
      rw [qvc, fvc] at avc
      rw [fvs] at ql
      refine ⟨_, alt, ab, abc, ?_, ?_, by rw [avs, ql]⟩
      · show (lineBatch gh gameContext (FixIngameMousePosition ctx)).startVertex =
          ctx.vertexCount
        rw [lineBatch_fix]
        rfl
      · rw [avc]
        rfl

theorem submit_some (ops : BatchOps) (F : FloatOps) (gh : GameHelper) (backend : RenderBackend)
    (mem : Memory) (s : Submission) (ctx ctx' : D2DXContext)
    (hcount : ∀ c, s.count? = some c → 2 ≤ c) (hlen : ctx.vertices.length ≤ 2 ^ 32)
    (h : submit ops F gh backend mem s ctx = some ctx') :
    ∃ b : Batch, ctx.batchCount < ctx.batches.length ∧
      ctx'.batches = ctx.batches.set ctx.batchCount b ∧
      ctx'.batchCount = ctx.batchCount + 1 ∧ b.startVertex = ctx.vertexCount ∧
      ctx'.vertexCount = ctx.vertexCount + b.vertexCount ∧
      ctx'.vertices.length = ctx.vertices.length := by
  cases s with
  | line v1 v2 gameContext => exact OnDrawLine_some ops F gh mem v1 v2 gameContext ctx ctx' h
  | vertexArray mode count pointers gameContext =>
    exact OnDrawVertexArray_some ops gh backend mem mode count pointers gameContext ctx ctx'
      (hcount count rfl) hlen h
  | contiguous mode count vertex stride gameContext =>
    exact OnDrawVertexArrayContiguous_some ops gh backend mem mode count vertex stride
      gameContext ctx ctx' (hcount count rfl) hlen h

theorem RangesCover_append (l : List Batch) :
    ∀ (start stop : Nat) (b : Batch), RangesCover start l stop → b.startVertex = stop →
      RangesCover start (l ++ [b]) (stop + b.vertexCount) := by
  induction l with
  | nil =>
    intro start stop b h hb
    simp only [RangesCover] at h
    subst h
    exact ⟨hb, rfl⟩
  | cons a rest ih =>
    intro start stop b h hb
    exact ⟨h.1, ih _ _ b h.2 hb⟩

theorem take_set_succ {α : Type} (l : List α) (n : Nat) (b : α) (h : n < l.length) :
    (l.set n b).take (n + 1) = l.take n ++ [b] := by
  induction l generalizing n with
  | nil => simp at h
  | cons a rest ih =>
    cases n with
    | zero => simp
    | succ n =>
      simp only [List.set_cons_succ, List.take_succ_cons, List.cons_append]
      rw [ih n (by simpa using h)]

theorem RangesCover_consecutive (l : List Batch) :
    ∀ (start stop : Nat), RangesCover start l stop →
      (∀ (i : Nat) (a b : Batch), l[i]? = some a → l[i + 1]? = some b →
        a.startVertex + a.vertexCount = b.startVertex) ∧
      (∀ b : Batch, l.getLast? = some b → b.startVertex + b.vertexCount = stop) := by
  induction l with
  | nil =>
    intro start stop _
    exact ⟨fun i a b h => by simp at h, fun b h => by simp at h⟩
  | cons x rest ih =>
    intro start stop h
    obtain ⟨hx, hrest⟩ := h
    obtain ⟨ih1, ih2⟩ := ih _ _ hrest
    refine ⟨?_, ?_⟩
    · intro i a b ha hb
      cases i with
      | zero =>
        simp only [List.getElem?_cons_zero, Option.some.injEq] at ha
        subst ha
        cases rest with
        | nil => simp at hb
        | cons y rest2 =>
          simp only [zero_add, List.getElem?_cons_succ, List.getElem?_cons_zero,
            Option.some.injEq] at hb
          subst hb
          rw [hx]
          exact hrest.1.symm
      | succ i =>
        simp only [List.getElem?_cons_succ] at ha hb
        exact ih1 i a b ha hb
    · intro b hb
      cases rest with
      | nil =>
        simp only [List.getLast?_singleton, Option.some.injEq] at hb
        subst hb
        simp only [RangesCover] at hrest
        rw [hx]
        exact hrest
      | cons y rest2 =>
        rw [List.getLast?_cons_cons] at hb
        exact ih2 b hb

theorem submitAll_inv (ops : BatchOps) (F : FloatOps) (gh : GameHelper)
    (backend : RenderBackend) (mem : Memory) (subs : List Submission) :
    ∀ (ctx ctx' : D2DXContext),
      (∀ s ∈ subs, ∀ c, s.count? = some c → 2 ≤ c) →
      ctx.vertices.length ≤ 2 ^ 32 →
      ctx.batchCount ≤ ctx.batches.length →
      RangesCover 0 (ctx.batches.take ctx.batchCount) ctx.vertexCount →
      submitAll ops F gh backend mem subs ctx = some ctx' →
      ctx'.batchCount ≤ ctx'.batches.length ∧
      RangesCover 0 (ctx'.batches.take ctx'.batchCount) ctx'.vertexCount ∧
      ctx'.batchCount = ctx.batchCount + subs.length := by
  induction subs with
  | nil =>
    intro ctx ctx' _ _ hle hinv h
    simp only [submitAll, Option.some.injEq] at h
    subst h
    exact ⟨hle, hinv, rfl⟩
  | cons s rest ih =>
    intro ctx ctx' hcount hlen hle hinv h
    simp only [submitAll] at h
    cases hs : submit ops F gh backend mem s ctx with
    | none => rw [hs] at h; cases h
    | some ctx1 =>
      rw [hs] at h
      simp only at h
      obtain ⟨b, hlt, hb, hbc, hstart, hvc, hl⟩ :=
        submit_some ops F gh backend mem s ctx ctx1
          (hcount s (List.mem_cons_self _ _)) hlen hs
      have hinv1 : RangesCover 0 (ctx1.batches.take ctx1.batchCount) ctx1.vertexCount := by
        rw [hb, hbc, take_set_succ _ _ _ hlt, hvc]
        exact RangesCover_append _ _ _ b hinv hstart
      have hle1 : ctx1.batchCount ≤ ctx1.batches.length := by
        rw [hb, hbc, List.length_set]
        omega
      obtain ⟨r1, r2, r3⟩ := ih ctx1 ctx'
        (fun s' hs' => hcount s' (List.mem_cons_of_mem _ hs')) (by rw [hl]; exact hlen)
        hle1 hinv1 h
      exact ⟨r1, r2, by rw [r3, hbc, List.length_cons]; omega⟩

theorem OnDrawVertexArray_fan_returns (ops : BatchOps) (gh : GameHelper)
    (backend : RenderBackend) (mem : Memory) (count : Nat) (pointers : Nat → Nat)
    (gameContext : Nat) (ctx : D2DXContext)
    (hcap : count - 2 = 0 ∨ ctx.vertexCount + 3 * (count - 2) < ctx.vertices.length)
    (hbatch : ctx.batchCount < ctx.batches.length) :
    ∃ ctx' : D2DXContext,
      OnDrawVertexArray ops gh backend mem VertexArrayMode.GR_TRIANGLE_FAN count pointers
        gameContext ctx = some ctx' ∧
      ctx'.vertexCount = ctx.vertexCount + 3 * (count - 2) ∧
      ctx'.vertices.length = ctx.vertices.length ∧
      ctx'.batchCount = ctx.batchCount + 1 ∧
      ctx'.batches.length = ctx.batches.length := by
  obtain ⟨pcc, pvl, pvc, pvs, pbs, pbc, _⟩ :=
    preparedSubmit_fields gh backend count gameContext ctx
  have hv : ∀ i, ∃ w, ReadVertex ops mem
      (preparedSubmit gh backend count gameContext ctx).2.constantColor (pointers i)
      (preparedSubmit gh backend count gameContext ctx).2.vertexLayout
      (preparedSubmit gh backend count gameContext ctx).1 = some w :=
    fun i => ReadVertex_isSome ops mem _ _ _ _
  choose v hread using hv
  obtain ⟨ctx2, hloop, hb, hbc, hvc, hl, _⟩ :=
    fanLoop_spec (fun i => ReadVertex ops mem
      (preparedSubmit gh backend count gameContext ctx).2.constantColor (pointers i)
      (preparedSubmit gh backend count gameContext ctx).2.vertexLayout
      (preparedSubmit gh backend count gameContext ctx).1) v hread (v 0) (count - 2) 0
      (preparedSubmit gh backend count gameContext ctx).2 (by rw [pvc, pvs]; exact hcap)
  obtain ⟨ctx3, happ, avc, avs, abc, _⟩ :=
    appendBatch_spec ctx2 (preparedSubmit gh backend count gameContext ctx).1
      (by rw [hb, hbc, pbs, pbc]; exact hbatch)
  obtain ⟨_, aset, _⟩ := appendBatch_some _ _ _ happ
  refine ⟨ctx3, ?_, by rw [avc, hvc, pvc], by rw [avs, hl, pvs], by rw [abc, hbc, pbc],
    by rw [aset, List.length_set, hb, pbs]⟩
  show (match ReadVertex ops mem
        (preparedSubmit gh backend count gameContext ctx).2.constantColor (pointers 0)
        (preparedSubmit gh backend count gameContext ctx).2.vertexLayout
        (preparedSubmit gh backend count gameContext ctx).1,
      ReadVertex ops mem (preparedSubmit gh backend count gameContext ctx).2.constantColor
        (pointers 1) (preparedSubmit gh backend count gameContext ctx).2.vertexLayout
        (preparedSubmit gh backend count gameContext ctx).1 with
    | some a, some b =>
      match fanLoop (fun i => ReadVertex ops mem
          (preparedSubmit gh backend count gameContext ctx).2.constantColor (pointers i)
          (preparedSubmit gh backend count gameContext ctx).2.vertexLayout
          (preparedSubmit gh backend count gameContext ctx).1) a (List.range' 2 (count - 2)) b
          (preparedSubmit gh backend count gameContext ctx).2 with
      | none => none
      | some ctx2 => appendBatch ctx2 (preparedSubmit gh backend count gameContext ctx).1
    | _, _ => none) = some ctx3
  rw [hread 0, hread 1]
  simp only
  rw [hloop]
  exact happ

theorem OnDrawVertexArray_strip_returns (ops : BatchOps) (gh : GameHelper)
    (backend : RenderBackend) (mem : Memory) (count : Nat) (pointers : Nat → Nat)
    (gameContext : Nat) (ctx : D2DXContext)
    (hcap : count - 2 = 0 ∨ ctx.vertexCount + 3 * (count - 2) < ctx.vertices.length)
    (hbatch : ctx.batchCount < ctx.batches.length) :
    ∃ ctx' : D2DXContext,
      OnDrawVertexArray ops gh backend mem VertexArrayMode.GR_TRIANGLE_STRIP count pointers
        gameContext ctx = some ctx' ∧
      ctx'.vertexCount = ctx.vertexCount + 3 * (count - 2) ∧
      ctx'.vertices.length = ctx.vertices.length ∧
      ctx'.batchCount = ctx.batchCount + 1 ∧
      ctx'.batches.length = ctx.batches.length := by
  obtain ⟨pcc, pvl, pvc, pvs, pbs, pbc, _⟩ :=
    preparedSubmit_fields gh backend count gameContext ctx
  have hv : ∀ i, ∃ w, ReadVertex ops mem
      (preparedSubmit gh backend count gameContext ctx).2.constantColor (pointers i)
      (preparedSubmit gh backend count gameContext ctx).2.vertexLayout
      (preparedSubmit gh backend count gameContext ctx).1 = some w :=
    fun i => ReadVertex_isSome ops mem _ _ _ _
  choose v hread using hv
  obtain ⟨ctx2, hloop, hb, hbc, hvc, hl, _⟩ :=
    stripLoop_spec (fun i => ReadVertex ops mem
      (preparedSubmit gh backend count gameContext ctx).2.constantColor (pointers i)
      (preparedSubmit gh backend count gameContext ctx).2.vertexLayout
      (preparedSubmit gh backend count gameContext ctx).1) v hread (count - 2) 0
      (preparedSubmit gh backend count gameContext ctx).2 (by rw [pvc, pvs]; exact hcap)
  obtain ⟨ctx3, happ, avc, avs, abc, _⟩ :=
    appendBatch_spec ctx2 (preparedSubmit gh backend count gameContext ctx).1
      (by rw [hb, hbc, pbs, pbc]; exact hbatch)
  obtain ⟨_, aset, _⟩ := appendBatch_some _ _ _ happ
  refine ⟨ctx3, ?_, by rw [avc, hvc, pvc], by rw [avs, hl, pvs], by rw [abc, hbc, pbc],
    by rw [aset, List.length_set, hb, pbs]⟩
  show (match ReadVertex ops mem
        (preparedSubmit gh backend count gameContext ctx).2.constantColor (pointers 0)
        (preparedSubmit gh backend count gameContext ctx).2.vertexLayout
        (preparedSubmit gh backend count gameContext ctx).1,
      ReadVertex ops mem (preparedSubmit gh backend count gameContext ctx).2.constantColor
        (pointers 1) (preparedSubmit gh backend count gameContext ctx).2.vertexLayout
        (preparedSubmit gh backend count gameContext ctx).1 with
    | some a, some b =>
      match stripLoop (fun i => ReadVertex ops mem
          (preparedSubmit gh backend count gameContext ctx).2.constantColor (pointers i)
          (preparedSubmit gh backend count gameContext ctx).2.vertexLayout
          (preparedSubmit gh backend count gameContext ctx).1) (List.range' 2 (count - 2)) a b
          (preparedSubmit gh backend count gameContext ctx).2 with
      | none => none
      | some ctx2 => appendBatch ctx2 (preparedSubmit gh backend count gameContext ctx).1
    | _, _ => none) = some ctx3
  rw [hread 0, hread 1]
  simp only
  rw [hloop]
  exact happ

theorem OnDrawLine_returns (ops : BatchOps) (F : FloatOps) (gh : GameHelper) (mem : Memory)
    (v1 v2 gameContext : Nat) (ctx : D2DXContext)
    (hcap : ctx.vertexCount + 6 < ctx.vertices.length)
    (hbatch : ctx.batchCount < ctx.batches.length) :
    ∃ ctx' : D2DXContext,
      OnDrawLine ops F gh mem v1 v2 gameContext ctx = some ctx' ∧
      ctx'.vertexCount = ctx.vertexCount + 6 ∧
      ctx'.vertices.length = ctx.vertices.length ∧
      ctx'.batchCount = ctx.batchCount + 1 ∧
      ctx'.batches.length = ctx.batches.length := by
  obtain ⟨fcc, fvl, fvc, fvs, fbs, fbc, _⟩ := FixIngameMousePosition_fields ctx
  obtain ⟨s, hs⟩ := ReadVertex_isSome ops mem ctx.constantColor v1 ctx.vertexLayout
    (lineBatch gh gameContext ctx)
  obtain ⟨e, he⟩ := ReadVertex_isSome ops mem ctx.constantColor v2 ctx.vertexLayout
    (lineBatch gh gameContext ctx)
  obtain ⟨ctx1, hw, wbs, wbc, wvc, wlen, _⟩ :=
    writeQuad_spec (FixIngameMousePosition ctx)
      (s.minus F (lineOffset F s e)) (s.plus F (lineOffset F s e))
      (e.minus F (lineOffset F s e)) (s.plus F (lineOffset F s e))
      (e.minus F (lineOffset F s e)) (e.plus F (lineOffset F s e))
      (by rw [fvc, fvs]; exact hcap)
  obtain ⟨ctx2, happ, avc, avs, abc, _⟩ :=
    appendBatch_spec ctx1 ((lineBatch gh gameContext ctx).SetVertexCount 6)
      (by rw [wbs, wbc, fbs, fbc]; exact hbatch)
  obtain ⟨_, aset, _⟩ := appendBatch_some _ _ _ happ
  refine ⟨ctx2, ?_, by rw [avc, wvc, fvc], by rw [avs, wlen, fvs], by rw [abc, wbc, fbc],
    by rw [aset, List.length_set, wbs, fbs]⟩
  simp only [OnDrawLine, lineBatch_fix, fcc, fvl, hs, he]
  exact (congrArg (fun r => match r with
    | none => none
    | some c => appendBatch c ((lineBatch gh gameContext ctx).SetVertexCount 6)) hw).trans happ

/-- A fan submitted through `OnDrawVertexArray` with `count <= 2` runs no loop iteration: it
only appends the stamped batch, whose vertex count is the wrapped value of
`(count - 2) * 3`. -/
theorem OnDrawVertexArray_fan_short (ops : BatchOps) (gh : GameHelper) (backend : RenderBackend)
    (mem : Memory) (count : Nat) (pointers : Nat → Nat) (gameContext : Nat)
    (ctx : D2DXContext) (hc : count ≤ 2) :
    OnDrawVertexArray ops gh backend mem VertexArrayMode.GR_TRIANGLE_FAN count pointers
      gameContext ctx =
    appendBatch (preparedSubmit gh backend count gameContext ctx).2
      (preparedSubmit gh backend count gameContext ctx).1 := by
  obtain ⟨w0, h0⟩ := ReadVertex_isSome ops mem
    (preparedSubmit gh backend count gameContext ctx).2.constantColor (pointers 0)
    (preparedSubmit gh backend count gameContext ctx).2.vertexLayout
    (preparedSubmit gh backend count gameContext ctx).1
  obtain ⟨w1, h1⟩ := ReadVertex_isSome ops mem
    (preparedSubmit gh backend count gameContext ctx).2.constantColor (pointers 1)
    (preparedSubmit gh backend count gameContext ctx).2.vertexLayout
    (preparedSubmit gh backend count gameContext ctx).1
  have hz : count - 2 = 0 := by omega
  show (match ReadVertex ops mem
        (preparedSubmit gh backend count gameContext ctx).2.constantColor (pointers 0)
        (preparedSubmit gh backend count gameContext ctx).2.vertexLayout
        (preparedSubmit gh backend count gameContext ctx).1,
      ReadVertex ops mem (preparedSubmit gh backend count gameContext ctx).2.constantColor
        (pointers 1) (preparedSubmit gh backend count gameContext ctx).2.vertexLayout
        (preparedSubmit gh backend count gameContext ctx).1 with
    | some firstVertex, some prevVertex =>
      match fanLoop (fun i => ReadVertex ops mem
          (preparedSubmit gh backend count gameContext ctx).2.constantColor (pointers i)
          (preparedSubmit gh backend count gameContext ctx).2.vertexLayout
          (preparedSubmit gh backend count gameContext ctx).1) firstVertex
          (List.range' 2 (count - 2)) prevVertex
          (preparedSubmit gh backend count gameContext ctx).2 with
      | none => none
      | some ctx2 => appendBatch ctx2 (preparedSubmit gh backend count gameContext ctx).1
    | _, _ => none) = _
  rw [h0, h1, hz]
  rfl

/-- C13 (as stated, refuted): two triangle fans with `count = 1` submitted from a reset
frame both pass; each stamps a batch of `(1 - 2) * 3 mod 2^32 = 4294967293` vertices
starting at vertex 0 while no vertex is written. The first batch's range ends after the
start of the second, and the last batch's range does not end at the frame vertex count. -/
theorem OnDrawVertexArray_count_one_overlaps :
    ∃ (ctx' : D2DXContext) (a b : Batch),
      submitAll specOps exactFloat (sampleHelper 0) sampleBackend zeroMemory
        [Submission.vertexArray VertexArrayMode.GR_TRIANGLE_FAN 1 samplePointers 0,
         Submission.vertexArray VertexArrayMode.GR_TRIANGLE_FAN 1 samplePointers 0]
        (D2DXContext.initial specOps 4 16 zeroVertex) = some ctx' ∧
      ctx'.batchCount = 2 ∧ ctx'.vertexCount = 0 ∧
      ctx'.batches[0]? = some a ∧ ctx'.batches[1]? = some b ∧
      a.startVertex = 0 ∧ a.vertexCount = 4294967293 ∧
      b.startVertex = 0 ∧ b.vertexCount = 4294967293 ∧
      ¬ (a.startVertex + a.vertexCount ≤ b.startVertex) ∧
      b.startVertex + b.vertexCount ≠ ctx'.vertexCount := by
  have e1 := OnDrawVertexArray_fan_short specOps (sampleHelper 0) sampleBackend zeroMemory 1
    samplePointers 0 (D2DXContext.initial specOps 4 16 zeroVertex) (by decide)
  obtain ⟨ctx1, happ1, avc1, avs1, abc1, ab1⟩ := appendBatch_spec
    (preparedSubmit (sampleHelper 0) sampleBackend 1 0
      (D2DXContext.initial specOps 4 16 zeroVertex)).2
    (preparedSubmit (sampleHelper 0) sampleBackend 1 0
      (D2DXContext.initial specOps 4 16 zeroVertex)).1 (by decide)
  obtain ⟨_, _, pvc1, pvs1, pbs1, pbc1, pstart1, pcount1, _⟩ :=
    preparedSubmit_fields (sampleHelper 0) sampleBackend 1 0
      (D2DXContext.initial specOps 4 16 zeroVertex)
  obtain ⟨alt1, abs1, _⟩ := appendBatch_some _ _ _ happ1
  have hvc1 : ctx1.vertexCount = 0 := by rw [avc1, pvc1]; rfl
  have hbc1 : ctx1.batchCount = 1 := by rw [abc1, pbc1]; rfl
  have hlen1 : ctx1.batches.length = 4 := by
    rw [abs1, List.length_set, pbs1]
    rfl
  have e2 := OnDrawVertexArray_fan_short specOps (sampleHelper 0) sampleBackend zeroMemory 1
    samplePointers 0 ctx1 (by decide)
  obtain ⟨_, _, pvc2, pvs2, pbs2, pbc2, pstart2, pcount2, _⟩ :=
    preparedSubmit_fields (sampleHelper 0) sampleBackend 1 0 ctx1
  obtain ⟨ctx2, happ2, avc2, avs2, abc2, ab2⟩ := appendBatch_spec
    (preparedSubmit (sampleHelper 0) sampleBackend 1 0 ctx1).2
    (preparedSubmit (sampleHelper 0) sampleBackend 1 0 ctx1).1
    (by rw [pbs2, pbc2, hbc1, hlen1]; decide)
  obtain ⟨_, abs2, _⟩ := appendBatch_some _ _ _ happ2
  have hcnt : ((1 + 2 ^ 32 - 2) % 2 ^ 32 * 3) % 2 ^ 32 = 4294967293 := by norm_num
  have hA : (preparedSubmit (sampleHelper 0) sampleBackend 1 0
      (D2DXContext.initial specOps 4 16 zeroVertex)).1.vertexCount = 4294967293 := by
    rw [pcount1, hcnt]
  have hB : (preparedSubmit (sampleHelper 0) sampleBackend 1 0 ctx1).1.vertexCount =
      4294967293 := by
    rw [pcount2, hcnt]
  have hAs : (preparedSubmit (sampleHelper 0) sampleBackend 1 0
      (D2DXContext.initial specOps 4 16 zeroVertex)).1.startVertex = 0 := by
    rw [pstart1]; rfl
  have hBs : (preparedSubmit (sampleHelper 0) sampleBackend 1 0 ctx1).1.startVertex = 0 := by
    rw [pstart2, hvc1]
  refine ⟨ctx2, _, _, ?_, by rw [abc2, pbc2, hbc1], by rw [avc2, pvc2, hvc1], ?_, ?_,
    hAs, hA, hBs, hB, by rw [hAs, hA, hBs]; decide, by rw [hBs, hB, avc2, pvc2, hvc1]; decide⟩
  · simp only [submitAll, submit]
    rw [e1, happ1]
    simp only
    rw [e2, happ2]
  · rw [abs2, pbs2, pbc2, hbc1, List.getElem?_set_ne (by decide)]
    rw [pbc1] at ab1
    exact ab1
  · rw [pbc2, hbc1] at ab2
    exact ab2

/-- C13 (amended): after any sequence of geometry submissions (`OnDrawLine`,
`OnDrawVertexArray`, `OnDrawVertexArrayContiguous`) since the last reset that passes its
assertions, with every vertex-array `count` at least 2 and a vertex capacity of at most
`2^32`, every submission has appended one batch, consecutive batches of the batch list
satisfy `startVertex(i) + vertexCount(i) = startVertex(i+1)` (so in particular `<=`), the
first batch starts at vertex 0 and the last batch's range ends at the frame vertex count. -/
theorem submitAll_ranges_monotonic (ops : BatchOps) (F : FloatOps) (gh : GameHelper)
    (backend : RenderBackend) (mem : Memory) (subs : List Submission)
    (ctx ctx' : D2DXContext)
    (hreset : ctx.batchCount = 0 ∧ ctx.vertexCount = 0)
    (hlen : ctx.vertices.length ≤ 2 ^ 32)
    (hcount : ∀ s ∈ subs, ∀ c, s.count? = some c → 2 ≤ c)
    (h : submitAll ops F gh backend mem subs ctx = some ctx') :
    ctx'.batchCount = subs.length ∧ ctx'.batchCount ≤ ctx'.batches.length ∧
    RangesCover 0 (ctx'.batches.take ctx'.batchCount) ctx'.vertexCount ∧
    (∀ (i : Nat) (a b : Batch), i + 1 < ctx'.batchCount →
      ctx'.batches[i]? = some a → ctx'.batches[i + 1]? = some b →
      a.startVertex + a.vertexCount ≤ b.startVertex) ∧
    (∀ b : Batch, 0 < ctx'.batchCount → ctx'.batches[ctx'.batchCount - 1]? = some b →
      b.startVertex + b.vertexCount = ctx'.vertexCount) := by
  obtain ⟨hbc0, hvc0⟩ := hreset
  obtain ⟨hle, hinv, hn⟩ := submitAll_inv ops F gh backend mem subs ctx ctx' hcount hlen
    (by rw [hbc0]; exact Nat.zero_le _) (by rw [hbc0, hvc0]; exact rfl) h
  obtain ⟨hcons, hlast⟩ := RangesCover_consecutive _ _ _ hinv
  refine ⟨by rw [hn, hbc0, Nat.zero_add], hle, hinv, ?_, ?_⟩
  · intro i a b hi ha hb
    have ha' : (ctx'.batches.take ctx'.batchCount)[i]? = some a := by
      rw [List.getElem?_take_of_lt (by omega)]
      exact ha
    have hb' : (ctx'.batches.take ctx'.batchCount)[i + 1]? = some b := by
      rw [List.getElem?_take_of_lt hi]
      exact hb
    exact le_of_eq (hcons i a b ha' hb')
  · intro b hpos hb
    apply hlast b
    rw [List.getLast?_eq_getElem?, List.length_take, Nat.min_eq_left hle,
      List.getElem?_take_of_lt (by omega)]
    exact hb

theorem submitAll_ranges_monotonic_witness :
    ∃ ctx' : D2DXContext,
      submitAll specOps exactFloat (sampleHelper 0) sampleBackend zeroMemory
        [Submission.vertexArray VertexArrayMode.GR_TRIANGLE_FAN 4 samplePointers 0,
         Submission.line 0 32 0,
         Submission.vertexArray VertexArrayMode.GR_TRIANGLE_STRIP 3 samplePointers 0]
        (D2DXContext.initial specOps 4 32 zeroVertex) = some ctx' ∧
      ctx'.batchCount = 3 ∧ ctx'.vertexCount = 15 ∧
      RangesCover 0 (ctx'.batches.take ctx'.batchCount) ctx'.vertexCount ∧
      (∀ b : Batch, 0 < ctx'.batchCount → ctx'.batches[ctx'.batchCount - 1]? = some b →
        b.startVertex + b.vertexCount = ctx'.vertexCount) := by
  obtain ⟨ctx1, h1, vc1, vl1, bc1, bl1⟩ :=
    OnDrawVertexArray_fan_returns specOps (sampleHelper 0) sampleBackend zeroMemory 4
      samplePointers 0 (D2DXContext.initial specOps 4 32 zeroVertex) (by decide) (by decide)
  have hvc1 : ctx1.vertexCount = 6 := by rw [vc1]; rfl
  have hvl1 : ctx1.vertices.length = 32 := by rw [vl1]; rfl
  have hbc1 : ctx1.batchCount = 1 := by rw [bc1]; rfl
  have hbl1 : ctx1.batches.length = 4 := by rw [bl1]; rfl
  obtain ⟨ctx2, h2, vc2, vl2, bc2, bl2⟩ :=
    OnDrawLine_returns specOps exactFloat (sampleHelper 0) zeroMemory 0 32 0 ctx1
      (by rw [hvc1, hvl1]; decide) (by rw [hbc1, hbl1]; decide)
  rw [hvc1] at vc2
  rw [hvl1] at vl2
  rw [hbc1] at bc2
  rw [hbl1] at bl2
  obtain ⟨ctx3, h3, vc3, vl3, bc3, bl3⟩ :=
    OnDrawVertexArray_strip_returns specOps (sampleHelper 0) sampleBackend zeroMemory 3
      samplePointers 0 ctx2 (by rw [vc2, vl2]; decide) (by rw [bc2, bl2]; decide)
  rw [vc2] at vc3
  rw [bc2] at bc3
  have hrun : submitAll specOps exactFloat (sampleHelper 0) sampleBackend zeroMemory
      [Submission.vertexArray VertexArrayMode.GR_TRIANGLE_FAN 4 samplePointers 0,
       Submission.line 0 32 0,
       Submission.vertexArray VertexArrayMode.GR_TRIANGLE_STRIP 3 samplePointers 0]
      (D2DXContext.initial specOps 4 32 zeroVertex) = some ctx3 := by
    simp only [submitAll, submit, h1, h2, h3]
  obtain ⟨_, _, hcover, _, hlast⟩ :=
    submitAll_ranges_monotonic specOps exactFloat (sampleHelper 0) sampleBackend zeroMemory
      [Submission.vertexArray VertexArrayMode.GR_TRIANGLE_FAN 4 samplePointers 0,
       Submission.line 0 32 0,
       Submission.vertexArray VertexArrayMode.GR_TRIANGLE_STRIP 3 samplePointers 0]
      (D2DXContext.initial specOps 4 32 zeroVertex) ctx3 ⟨rfl, rfl⟩ (by decide)
      (by
        intro s hs c hc
        simp only [List.mem_cons, List.mem_singleton, List.not_mem_nil, or_false] at hs
        rcases hs with rfl | rfl | rfl
        · cases hc; decide
        · cases hc
        · cases hc; decide)
      hrun
  exact ⟨ctx3, hrun, bc3, vc3, hcover, hlast⟩

end Ranges

/-! ## Theorems: vertex layout -/

section Layout

theorem byte_or (a b k : Nat) :
    ((a ||| b) >>> k) &&& 0xFF = ((a >>> k) &&& 0xFF) ||| ((b >>> k) &&& 0xFF) := by
  apply Nat.eq_of_testBit_eq
  intro i
  simp only [Nat.testBit_and, Nat.testBit_or, Nat.testBit_shiftRight, Bool.and_or_distrib_right]

theorem byte_and (x m k : Nat) :
    ((x &&& m) >>> k) &&& 0xFF = (x >>> k) &&& (0xFF &&& (m >>> k)) := by
  apply Nat.eq_of_testBit_eq
  intro i
  simp only [Nat.testBit_and, Nat.testBit_shiftRight]
  cases x.testBit (k + i) <;> cases m.testBit (k + i) <;> cases Nat.testBit 255 i <;> rfl

theorem and_byte (x : Nat) : x &&& 0xFF = x % 256 :=
  Nat.and_pow_two_sub_one_eq_mod x 8

theorem lowByte_lt (offset : Int) : lowByte offset < 256 := by
  unfold lowByte
  rw [and_byte]
  omega

theorem lowByte_eq_emod (offset : Int) : (lowByte offset : Int) = offset % 256 := by
  unfold lowByte
  rw [and_byte]
  omega

theorem byte_lowByte (offset : Int) (k : Nat) :
    ((lowByte offset <<< k) >>> k) &&& 0xFF = lowByte offset := by
  have h := lowByte_lt offset
  rw [Nat.shiftLeft_shiftRight, and_byte]
  omega

/-- The three offsets that `ReadVertex` extracts from the layout
`(layout & mask) | (lowByte << shift)`, for the three mask and shift pairs of
`OnVertexLayout`. -/
theorem layout_bytes (layout : Nat) (offset : Int) :
    ((((layout &&& 0xFFFF) ||| (lowByte offset <<< 16)) >>> 16) &&& 0xFF = lowByte offset ∧
      (((layout &&& 0xFFFF) ||| (lowByte offset <<< 16)) >>> 8) &&& 0xFF =
        (layout >>> 8) &&& 0xFF ∧
      ((layout &&& 0xFFFF) ||| (lowByte offset <<< 16)) &&& 0xFF = layout &&& 0xFF) ∧
    ((((layout &&& 0xFF00FF) ||| (lowByte offset <<< 8)) >>> 8) &&& 0xFF = lowByte offset ∧
      (((layout &&& 0xFF00FF) ||| (lowByte offset <<< 8)) >>> 16) &&& 0xFF =
        (layout >>> 16) &&& 0xFF ∧
      ((layout &&& 0xFF00FF) ||| (lowByte offset <<< 8)) &&& 0xFF = layout &&& 0xFF) ∧
    (((layout &&& 0xFFFF00) ||| lowByte offset) &&& 0xFF = lowByte offset ∧
      (((layout &&& 0xFFFF00) ||| lowByte offset) >>> 16) &&& 0xFF =
        (layout >>> 16) &&& 0xFF ∧
      (((layout &&& 0xFFFF00) ||| lowByte offset) >>> 8) &&& 0xFF =
        (layout >>> 8) &&& 0xFF) := by
  have hlt := lowByte_lt offset
  have c1 : (0xFF &&& (0xFFFF >>> 16) : Nat) = 0 := by decide
  have c2 : (0xFF &&& (0xFFFF >>> 8) : Nat) = 0xFF := by decide
  have c3 : (0xFF &&& (0xFFFF >>> 0) : Nat) = 0xFF := by decide
  have c4 : (0xFF &&& (0xFF00FF >>> 8) : Nat) = 0 := by decide
  have c5 : (0xFF &&& (0xFF00FF >>> 16) : Nat) = 0xFF := by decide
  have c6 : (0xFF &&& (0xFF00FF >>> 0) : Nat) = 0xFF := by decide
  have c7 : (0xFF &&& (0xFFFF00 >>> 0) : Nat) = 0 := by decide
  have c8 : (0xFF &&& (0xFFFF00 >>> 16) : Nat) = 0xFF := by decide
  have c9 : (0xFF &&& (0xFFFF00 >>> 8) : Nat) = 0xFF := by decide
  have z1 : ((lowByte offset <<< 16) >>> 8) &&& 0xFF = 0 := by
    rw [and_byte, Nat.shiftLeft_eq, Nat.shiftRight_eq_div_pow]
    omega
  have z2 : ((lowByte offset <<< 16) >>> 0) &&& 0xFF = 0 := by
    rw [and_byte, Nat.shiftLeft_eq, Nat.shiftRight_eq_div_pow]
    omega
  have z3 : ((lowByte offset <<< 8) >>> 16) &&& 0xFF = 0 := by
    rw [and_byte, Nat.shiftLeft_eq, Nat.shiftRight_eq_div_pow]
    omega
  have z4 : ((lowByte offset <<< 8) >>> 0) &&& 0xFF = 0 := by
    rw [and_byte, Nat.shiftLeft_eq, Nat.shiftRight_eq_div_pow]
    omega
  have z5 : (lowByte offset >>> 16) &&& 0xFF = 0 := by
    rw [and_byte, Nat.shiftRight_eq_div_pow]
    omega
  have z6 : (lowByte offset >>> 8) &&& 0xFF = 0 := by
    rw [and_byte, Nat.shiftRight_eq_div_pow]
    omega
  have z7 : (lowByte offset >>> 0) &&& 0xFF = lowByte offset := by
    rw [and_byte, Nat.shiftRight_eq_div_pow]
    omega
  refine ⟨⟨?_, ?_, ?_⟩, ⟨?_, ?_, ?_⟩, ⟨?_, ?_, ?_⟩⟩
  · rw [byte_or, byte_and, c1, byte_lowByte, Nat.and_zero, Nat.zero_or]
  · rw [byte_or, byte_and, c2, z1, Nat.or_zero]
  · have h := byte_or (layout &&& 0xFFFF) (lowByte offset <<< 16) 0
    rw [byte_and, c3, z2, Nat.or_zero] at h
    exact h
  · rw [byte_or, byte_and, c4, byte_lowByte, Nat.and_zero, Nat.zero_or]
  · rw [byte_or, byte_and, c5, z3, Nat.or_zero]
  · have h := byte_or (layout &&& 0xFF00FF) (lowByte offset <<< 8) 0
    rw [byte_and, c6, z4, Nat.or_zero] at h
    exact h
  · have h := byte_or (layout &&& 0xFFFF00) (lowByte offset) 0
    rw [byte_and, c7, z7, Nat.and_zero, Nat.zero_or] at h
    exact h
  · rw [byte_or, byte_and, c8, z5, Nat.or_zero]
  · rw [byte_or, byte_and, c9, z6, Nat.or_zero]

/-- The fields of the vertex that `ReadVertex` returns, in terms of the three offsets it
extracts from the layout. -/
theorem ReadVertex_fields (ops : BatchOps) (mem : Memory)
    (constantColor vertex vertexLayout : Nat) (batch : Batch) :
    ∃ v, ReadVertex ops mem constantColor vertex vertexLayout batch = some v ∧
      v.x = mem.readFloat (vertex + ((vertexLayout >>> 16) &&& 0xFF)) ∧
      v.y = mem.readFloat (vertex + ((vertexLayout >>> 16) &&& 0xFF) + 4) ∧
      v.s = floatToInt16 (mem.readFloat (vertex + ((vertexLayout >>> 8) &&& 0xFF))) >>>
        ((8 + 2 ^ 32 - Nat.log2 (max batch.width batch.height)) % 2 ^ 32) ∧
      v.t = floatToInt16 (mem.readFloat (vertex + ((vertexLayout >>> 8) &&& 0xFF) + 4)) >>>
        ((8 + 2 ^ 32 - Nat.log2 (max batch.width batch.height)) % 2 ^ 32) ∧
      v.color = ops.SelectColorAndAlpha batch
        (if vertexLayout &&& 0xFF ≠ 0xFF then mem.readUInt32 (vertex + (vertexLayout &&& 0xFF))
          else 0xFFFFFFFF) constantColor := by
  have hfract : ∀ q : Rat, q - (⌊q⌋ : Rat) < 1000000 := by
    intro q
    have h := Int.fract_lt_one q
    unfold Int.fract at h
    linarith
  simp only [ReadVertex, hfract, and_self, if_true]
  exact ⟨_, rfl, rfl, rfl, rfl, rfl, rfl⟩

/-- C23: the packed vertex layout round-trips per field. After
`OnVertexLayout(field, offset)` for the position, the texture coordinates (`ST0` or `ST1`)
or the color, the offset that `ReadVertex` extracts for that field is `offset & 0xFF`
(`offset mod 256`) and the offsets of the other two fields are as before; any other `param`
leaves the context as it is; nothing but the layout is changed. `ReadVertex` reads the
position, the texture coordinates and the color at the extracted offsets, and whenever the
extracted color offset is `0xFF`, as in the initial layout `0xFF`, it passes `0xFFFFFFFF`
as the vertex color input. -/
theorem OnVertexLayout_roundtrip (ops : BatchOps) (mem : Memory)
    (constantColor vertex : Nat) (batch : Batch) (offset : Int) (ctx : D2DXContext) :
    ((lowByte offset : Int) = offset % 256) ∧
    ((((OnVertexLayout GrParam.GR_PARAM_XY offset ctx).vertexLayout >>> 16) &&& 0xFF =
        lowByte offset ∧
      ((OnVertexLayout GrParam.GR_PARAM_XY offset ctx).vertexLayout >>> 8) &&& 0xFF =
        (ctx.vertexLayout >>> 8) &&& 0xFF ∧
      (OnVertexLayout GrParam.GR_PARAM_XY offset ctx).vertexLayout &&& 0xFF =
        ctx.vertexLayout &&& 0xFF)) ∧
    ((((OnVertexLayout GrParam.GR_PARAM_ST0 offset ctx).vertexLayout >>> 8) &&& 0xFF =
        lowByte offset ∧
      ((OnVertexLayout GrParam.GR_PARAM_ST0 offset ctx).vertexLayout >>> 16) &&& 0xFF =
        (ctx.vertexLayout >>> 16) &&& 0xFF ∧
      (OnVertexLayout GrParam.GR_PARAM_ST0 offset ctx).vertexLayout &&& 0xFF =
        ctx.vertexLayout &&& 0xFF)) ∧
    ((((OnVertexLayout GrParam.GR_PARAM_ST1 offset ctx).vertexLayout >>> 8) &&& 0xFF =
        lowByte offset ∧
      ((OnVertexLayout GrParam.GR_PARAM_ST1 offset ctx).vertexLayout >>> 16) &&& 0xFF =
        (ctx.vertexLayout >>> 16) &&& 0xFF ∧
      (OnVertexLayout GrParam.GR_PARAM_ST1 offset ctx).vertexLayout &&& 0xFF =
        ctx.vertexLayout &&& 0xFF)) ∧
    (((OnVertexLayout GrParam.GR_PARAM_PARGB offset ctx).vertexLayout &&& 0xFF =
        lowByte offset ∧
      ((OnVertexLayout GrParam.GR_PARAM_PARGB offset ctx).vertexLayout >>> 16) &&& 0xFF =
        (ctx.vertexLayout >>> 16) &&& 0xFF ∧
      ((OnVertexLayout GrParam.GR_PARAM_PARGB offset ctx).vertexLayout >>> 8) &&& 0xFF =
        (ctx.vertexLayout >>> 8) &&& 0xFF)) ∧
    (∀ code : Nat, OnVertexLayout (GrParam.other code) offset ctx = ctx) ∧
    (∀ param : GrParam, OnVertexLayout param offset ctx =
      { ctx with vertexLayout := (OnVertexLayout param offset ctx).vertexLayout }) ∧
    (∀ vertexLayout : Nat,
      ∃ v, ReadVertex ops mem constantColor vertex vertexLayout batch = some v ∧
        v.x = mem.readFloat (vertex + ((vertexLayout >>> 16) &&& 0xFF)) ∧
        v.y = mem.readFloat (vertex + ((vertexLayout >>> 16) &&& 0xFF) + 4) ∧
        v.s = floatToInt16 (mem.readFloat (vertex + ((vertexLayout >>> 8) &&& 0xFF))) >>>
          ((8 + 2 ^ 32 - Nat.log2 (max batch.width batch.height)) % 2 ^ 32) ∧
        v.t = floatToInt16 (mem.readFloat (vertex + ((vertexLayout >>> 8) &&& 0xFF) + 4)) >>>
          ((8 + 2 ^ 32 - Nat.log2 (max batch.width batch.height)) % 2 ^ 32) ∧
        v.color = ops.SelectColorAndAlpha batch
          (if vertexLayout &&& 0xFF ≠ 0xFF then
            mem.readUInt32 (vertex + (vertexLayout &&& 0xFF))
          else 0xFFFFFFFF) constantColor ∧
        (vertexLayout &&& 0xFF = 0xFF →
          v.color = ops.SelectColorAndAlpha batch 0xFFFFFFFF constantColor)) ∧
    (∀ (maxBatches maxVertices : Nat) (v0 : Vertex),
      (D2DXContext.initial ops maxBatches maxVertices v0).vertexLayout = 0xFF ∧
      ∃ v, ReadVertex ops mem constantColor vertex
          (D2DXContext.initial ops maxBatches maxVertices v0).vertexLayout batch = some v ∧
        v.color = ops.SelectColorAndAlpha batch 0xFFFFFFFF constantColor) := by
  obtain ⟨hxy, hst, hc⟩ := layout_bytes ctx.vertexLayout offset
  refine ⟨lowByte_eq_emod offset, hxy, hst, hst, hc, fun _ => rfl, ?_, ?_, ?_⟩
  · intro param
    cases param <;> rfl
  · intro vertexLayout
    obtain ⟨v, hv, hx, hy, hs, ht, hcol⟩ :=
      ReadVertex_fields ops mem constantColor vertex vertexLayout batch
    refine ⟨v, hv, hx, hy, hs, ht, hcol, ?_⟩
    intro habsent
    rw [hcol, habsent]
    rfl
  · intro maxBatches maxVertices v0
    obtain ⟨v, hv, _, _, _, _, hcol⟩ :=
      ReadVertex_fields ops mem constantColor vertex 0xFF batch
    exact ⟨rfl, v, hv, hcol⟩

theorem OnVertexLayout_roundtrip_witness :
    ((OnVertexLayout GrParam.GR_PARAM_XY (-248)
      (D2DXContext.initial specOps 4 16 zeroVertex)).vertexLayout >>> 16) &&& 0xFF = 8 ∧
    ((OnVertexLayout GrParam.GR_PARAM_XY (-248)
      (D2DXContext.initial specOps 4 16 zeroVertex)).vertexLayout >>> 8) &&& 0xFF = 0 ∧
    (OnVertexLayout GrParam.GR_PARAM_XY (-248)
      (D2DXContext.initial specOps 4 16 zeroVertex)).vertexLayout &&& 0xFF = 0xFF := by
  obtain ⟨_, ⟨h1, h2, h3⟩, _⟩ := OnVertexLayout_roundtrip specOps zeroMemory 0 0
    (sampleBatch 1 0 0 3) (-248) (D2DXContext.initial specOps 4 16 zeroVertex)
  exact ⟨h1.trans (by decide), h2.trans (by decide), h3.trans (by decide)⟩

end Layout

/-! ## Theorems: fractional texture coordinates -/

section Fraction

theorem floatToInt16_half : floatToInt16 (1 / 2) = 0 := by
  have hf : ⌊(1 / 2 : ℚ)⌋ = 0 := by
    rw [Int.floor_eq_iff]
    norm_num
  simp only [floatToInt16]
  rw [if_pos (by norm_num), hf]
  norm_num

theorem fract_half : Int.fract (1 / 2 : ℚ) = 1 / 2 := by
  rw [Int.fract_eq_iff]
  exact ⟨by norm_num, by norm_num, 0, by norm_num⟩

/-- C21 (the code differs): the two assertions of `ReadVertex` compare the fractional part of
a texture coordinate with `1e6`, which every fractional part is below, so they never fail:
`ReadVertex` returns a vertex for every record, and for a record whose two texture
coordinates are 0.5 it returns the vertex with `s = 0` and `t = 0`. -/
theorem ReadVertex_fractional_texcoord_returns (ops : BatchOps) (mem : Memory)
    (constantColor vertex vertexLayout : Nat) (batch : Batch) :
    (∀ q : Rat, q - (⌊q⌋ : Rat) < 1000000) ∧
    (∃ v, ReadVertex ops mem constantColor vertex vertexLayout batch = some v) ∧
    (Int.fract (halfMemory.readFloat (vertex + ((vertexLayout >>> 8) &&& 0xFF))) = 1 / 2 ∧
      Int.fract (halfMemory.readFloat (vertex + ((vertexLayout >>> 8) &&& 0xFF) + 4)) =
        1 / 2) ∧
    ∃ v, ReadVertex ops halfMemory constantColor vertex vertexLayout batch = some v ∧
      v.s = 0 ∧ v.t = 0 := by
  refine ⟨?_, ReadVertex_isSome ops mem constantColor vertex vertexLayout batch,
    ⟨fract_half, fract_half⟩, ?_⟩
  · intro q
    have h := Int.fract_lt_one q
    unfold Int.fract at h
    linarith
  · obtain ⟨v, hv, _, _, hs, ht, _⟩ :=
      ReadVertex_fields ops halfMemory constantColor vertex vertexLayout batch
    have hr : ∀ a, halfMemory.readFloat a = 1 / 2 := fun _ => rfl
    exact ⟨v, hv, by rw [hs, hr, floatToInt16_half, Int.zero_shiftRight],
      by rw [ht, hr, floatToInt16_half, Int.zero_shiftRight]⟩

end Fraction

/-! ## Theorems: short lines -/

section ShortLines

/-- What a passing `OnDrawLine` writes: the six corners built from the decoded end points
and the offset `lineOffset`. -/
theorem OnDrawLine_corners (ops : BatchOps) (F : FloatOps) (gh : GameHelper) (mem : Memory)
    (v1 v2 gameContext : Nat) (ctx : D2DXContext)
    (hcap : ctx.vertexCount + 6 < ctx.vertices.length)
    (hbatch : ctx.batchCount < ctx.batches.length) :
    ∃ (ctx' : D2DXContext) (startVertex endVertex : Vertex),
      ReadVertex ops mem ctx.constantColor v1 ctx.vertexLayout (lineBatch gh gameContext ctx) =
        some startVertex ∧
      ReadVertex ops mem ctx.constantColor v2 ctx.vertexLayout (lineBatch gh gameContext ctx) =
        some endVertex ∧
      OnDrawLine ops F gh mem v1 v2 gameContext ctx = some ctx' ∧
      ctx'.vertexCount = ctx.vertexCount + 6 ∧
      ctx'.vertices[ctx.vertexCount]? =
        some (startVertex.minus F (lineOffset F startVertex endVertex)) ∧
      ctx'.vertices[ctx.vertexCount + 1]? =
        some (startVertex.plus F (lineOffset F startVertex endVertex)) ∧
      ctx'.vertices[ctx.vertexCount + 2]? =
        some (endVertex.minus F (lineOffset F startVertex endVertex)) ∧
      ctx'.vertices[ctx.vertexCount + 3]? =
        some (startVertex.plus F (lineOffset F startVertex endVertex)) ∧
      ctx'.vertices[ctx.vertexCount + 4]? =
        some (endVertex.minus F (lineOffset F startVertex endVertex)) ∧
      ctx'.vertices[ctx.vertexCount + 5]? =
        some (endVertex.plus F (lineOffset F startVertex endVertex)) := by
  obtain ⟨fcc, fvl, fvc, fvs, fbs, fbc, _⟩ := FixIngameMousePosition_fields ctx
  obtain ⟨s, hs⟩ := ReadVertex_isSome ops mem ctx.constantColor v1 ctx.vertexLayout
    (lineBatch gh gameContext ctx)
  obtain ⟨e, he⟩ := ReadVertex_isSome ops mem ctx.constantColor v2 ctx.vertexLayout
    (lineBatch gh gameContext ctx)
  obtain ⟨ctx1, hw, wbs, wbc, wvc, _, _, w0, w1, w2, w3, w4, w5⟩ :=
    writeQuad_spec (FixIngameMousePosition ctx)
      (s.minus F (lineOffset F s e)) (s.plus F (lineOffset F s e))
      (e.minus F (lineOffset F s e)) (s.plus F (lineOffset F s e))
      (e.minus F (lineOffset F s e)) (e.plus F (lineOffset F s e))
      (by rw [fvc, fvs]; exact hcap)
  obtain ⟨ctx2, happ, avc, avs, _, _⟩ :=
    appendBatch_spec ctx1 ((lineBatch gh gameContext ctx).SetVertexCount 6)
      (by rw [wbs, wbc, fbs, fbc]; exact hbatch)
  rw [fvc] at wvc w0 w1 w2 w3 w4 w5
  refine ⟨ctx2, s, e, hs, he, ?_, by rw [avc, wvc], by rw [avs]; exact w0,
    by rw [avs]; exact w1, by rw [avs]; exact w2, by rw [avs]; exact w3,
    by rw [avs]; exact w4, by rw [avs]; exact w5⟩
  simp only [OnDrawLine, lineBatch_fix, fcc, fvl, hs, he]
  exact (congrArg (fun r => match r with
    | none => none
    | some c => appendBatch c ((lineBatch gh gameContext ctx).SetVertexCount 6)) hw).trans happ

/-- The offset of a short line: when the squared length is not above `0.01f` the length is
replaced by 1, so the perpendicular is scaled by `1 / (2 * 1)`. -/
theorem lineOffset_short (F : FloatOps) (s e : Vertex)
    (h : ¬ F.add (F.mul (F.sub s.y e.y) (F.sub s.y e.y))
      (F.mul (F.sub e.x s.x) (F.sub e.x s.x)) > float001) :
    lineOffset F s e =
      (F.mul (F.sub s.y e.y) (F.div 1 (F.mul 2 1)),
        F.mul (F.sub e.x s.x) (F.div 1 (F.mul 2 1))) := by
  simp only [lineOffset, if_neg h]

theorem lineOffset_short_exact (F : FloatOps) (s e : Vertex) (hF : F.Exact)
    (h : (e.x - s.x) ^ 2 + (e.y - s.y) ^ 2 ≤ float001) :
    lineOffset F s e = ((s.y - e.y) / 2, (e.x - s.x) / 2) := by
  obtain ⟨hsub, hadd, hmul, hdiv⟩ := hF
  have hn : ¬ F.add (F.mul (F.sub s.y e.y) (F.sub s.y e.y))
      (F.mul (F.sub e.x s.x) (F.sub e.x s.x)) > float001 := by
    rw [hadd, hmul, hmul, hsub, hsub]
    have : (s.y - e.y) * (s.y - e.y) + (e.x - s.x) * (e.x - s.x) =
        (e.x - s.x) ^ 2 + (e.y - s.y) ^ 2 := by ring
    rw [this]
    exact not_lt.mpr h
  rw [lineOffset_short F s e hn, hmul, hmul, hdiv, hmul, hsub, hsub]
  norm_num
  constructor <;> ring

theorem float001_pos : 0 < float001 := by
  unfold float001
  norm_num

theorem lineOffset_zero_length (F : FloatOps) (s e : Vertex) (hF : F.Exact)
    (hx : s.x = e.x) (hy : s.y = e.y) :
    lineOffset F s e = (0, 0) ∧ s.minus F (lineOffset F s e) = s ∧
      s.plus F (lineOffset F s e) = s ∧ e.minus F (lineOffset F s e) = e ∧
      e.plus F (lineOffset F s e) = e := by
  have h0 : lineOffset F s e = (0, 0) := by
    rw [lineOffset_short_exact F s e hF
      (by rw [hx, hy]; simp only [sub_self]; norm_num; exact le_of_lt float001_pos), hx, hy]
    simp
  obtain ⟨hsub, hadd, _, _⟩ := hF
  rw [h0]
  refine ⟨rfl, ?_, ?_, ?_, ?_⟩
  · simp only [Vertex.minus, hsub, sub_zero]
  · simp only [Vertex.plus, hadd, add_zero]
  · simp only [Vertex.minus, hsub, sub_zero]
  · simp only [Vertex.plus, hadd, add_zero]

/-- C22 (as amended): for a line whose squared length is at most `0.01f`, `OnDrawLine` (with
room in the vertex buffer and the batch list) replaces the length by 1, not the
perpendicular by a vector: the offset `d` is the perpendicular `(sy - ey, ex - sx)` scaled by
`1 / (2 * 1)`, in exact arithmetic `((sy - ey) / 2, (ex - sx) / 2)`, and the six emitted
vertices are the end points minus and plus `d`. For a zero-length line `d = (0, 0)`: every
emitted corner is the end point itself, so the two corners derived from one end point
coincide. -/
theorem OnDrawLine_short_line (ops : BatchOps) (F : FloatOps) (gh : GameHelper) (mem : Memory)
    (v1 v2 gameContext : Nat) (ctx : D2DXContext)
    (hcap : ctx.vertexCount + 6 < ctx.vertices.length)
    (hbatch : ctx.batchCount < ctx.batches.length) :
    ∃ (ctx' : D2DXContext) (startVertex endVertex : Vertex),
      ReadVertex ops mem ctx.constantColor v1 ctx.vertexLayout (lineBatch gh gameContext ctx) =
        some startVertex ∧
      ReadVertex ops mem ctx.constantColor v2 ctx.vertexLayout (lineBatch gh gameContext ctx) =
        some endVertex ∧
      OnDrawLine ops F gh mem v1 v2 gameContext ctx = some ctx' ∧
      ctx'.vertexCount = ctx.vertexCount + 6 ∧
      ctx'.vertices[ctx.vertexCount]? =
        some (startVertex.minus F (lineOffset F startVertex endVertex)) ∧
      ctx'.vertices[ctx.vertexCount + 1]? =
        some (startVertex.plus F (lineOffset F startVertex endVertex)) ∧
      ctx'.vertices[ctx.vertexCount + 2]? =
        some (endVertex.minus F (lineOffset F startVertex endVertex)) ∧
      ctx'.vertices[ctx.vertexCount + 3]? =
        some (startVertex.plus F (lineOffset F startVertex endVertex)) ∧
      ctx'.vertices[ctx.vertexCount + 4]? =
        some (endVertex.minus F (lineOffset F startVertex endVertex)) ∧
      ctx'.vertices[ctx.vertexCount + 5]? =
        some (endVertex.plus F (lineOffset F startVertex endVertex)) ∧
      (¬ F.add (F.mul (F.sub startVertex.y endVertex.y) (F.sub startVertex.y endVertex.y))
          (F.mul (F.sub endVertex.x startVertex.x) (F.sub endVertex.x startVertex.x)) >
          float001 →
        lineOffset F startVertex endVertex =
          (F.mul (F.sub startVertex.y endVertex.y) (F.div 1 (F.mul 2 1)),
            F.mul (F.sub endVertex.x startVertex.x) (F.div 1 (F.mul 2 1)))) ∧
      (F.Exact →
        (endVertex.x - startVertex.x) ^ 2 + (endVertex.y - startVertex.y) ^ 2 ≤ float001 →
        lineOffset F startVertex endVertex =
          ((startVertex.y - endVertex.y) / 2, (endVertex.x - startVertex.x) / 2)) ∧
      (F.Exact → startVertex.x = endVertex.x → startVertex.y = endVertex.y →
        lineOffset F startVertex endVertex = (0, 0) ∧
        ctx'.vertices[ctx.vertexCount]? = some startVertex ∧
        ctx'.vertices[ctx.vertexCount + 1]? = some startVertex ∧
        ctx'.vertices[ctx.vertexCount + 2]? = some endVertex ∧
        ctx'.vertices[ctx.vertexCount + 5]? = some endVertex) := by
  obtain ⟨ctx', s, e, hs, he, h, hvc, w0, w1, w2, w3, w4, w5⟩ :=
    OnDrawLine_corners ops F gh mem v1 v2 gameContext ctx hcap hbatch
  refine ⟨ctx', s, e, hs, he, h, hvc, w0, w1, w2, w3, w4, w5, lineOffset_short F s e,
    lineOffset_short_exact F s e, ?_⟩
  intro hF hx hy
  obtain ⟨h0, m0, p0, m1, p1⟩ := lineOffset_zero_length F s e hF hx hy
  exact ⟨h0, by rw [w0, m0], by rw [w1, p0], by rw [w2, m1], by rw [w5, p1]⟩

theorem OnDrawLine_short_line_witness :
    ∃ (ctx' : D2DXContext) (c : Vertex),
      OnDrawLine specOps exactFloat (sampleHelper 0) zeroMemory 0 32 0
        { D2DXContext.initial specOps 4 16 zeroVertex with vertexLayout := 0x0008FF } =
        some ctx' ∧
      ctx'.vertexCount = 6 ∧ c.x = 0 ∧ c.y = 0 ∧
      ctx'.vertices[0]? = some c ∧ ctx'.vertices[1]? = some c := by
  obtain ⟨ctx', s, e, hs, he, h, hvc, _, _, _, _, _, _, _, _, hzero⟩ :=
    OnDrawLine_short_line specOps exactFloat (sampleHelper 0) zeroMemory 0 32 0
      { D2DXContext.initial specOps 4 16 zeroVertex with vertexLayout := 0x0008FF }
      (by decide) (by decide)
  obtain ⟨hsx, hsy⟩ := ReadVertex_position _ _ _ _ _ _ _ hs
  obtain ⟨hex, hey⟩ := ReadVertex_position _ _ _ _ _ _ _ he
  have hx : s.x = e.x := by rw [hsx, hex]; rfl
  have hy : s.y = e.y := by rw [hsy, hey]; rfl
  obtain ⟨_, c0, c1, _, _⟩ := hzero exactFloat_exact hx hy
  exact ⟨ctx', s, h, hvc, by rw [hsx]; rfl, by rw [hsy]; rfl, c0, c1⟩

/-- C22 (as stated) fails: a zero-length line (both end points the vertex record at address
0, position (0, 0)) drawn in exact arithmetic passes and writes six vertices that are all the
end point itself; the corners derived from one end point are not distinct, and none is
offset along (0, 1). -/
theorem OnDrawLine_zero_length_degenerate :
    ∃ (ctx' : D2DXContext) (c : Vertex),
      OnDrawLine specOps exactFloat (sampleHelper 0) zeroMemory 0 0 0
        (D2DXContext.initial specOps 4 16 zeroVertex) = some ctx' ∧
      c.x = 0 ∧ c.y = 0 ∧
      ctx'.vertices[0]? = some c ∧ ctx'.vertices[1]? = some c ∧
      ctx'.vertices[2]? = some c ∧ ctx'.vertices[3]? = some c ∧
      ctx'.vertices[4]? = some c ∧ ctx'.vertices[5]? = some c ∧
      ctx'.vertices[0]? = ctx'.vertices[1]? := by
  obtain ⟨ctx', s, e, hs, he, h, _, w0, w1, w2, w3, w4, w5⟩ :=
    OnDrawLine_corners specOps exactFloat (sampleHelper 0) zeroMemory 0 0 0
      (D2DXContext.initial specOps 4 16 zeroVertex) (by decide) (by decide)
  have hse : s = e := Option.some.inj (hs.symm.trans he)
  subst hse
  obtain ⟨hsx, hsy⟩ := ReadVertex_position _ _ _ _ _ _ _ hs
  obtain ⟨_, m0, p0, _, _⟩ := lineOffset_zero_length exactFloat s s exactFloat_exact rfl rfl
  rw [m0] at w0 w2 w4
  rw [p0] at w1 w3 w5
  exact ⟨ctx', s, h, by rw [hsx]; rfl, by rw [hsy]; rfl, w0, w1, w2, w3, w4, w5,
    w0.trans w1.symm⟩

end ShortLines

/-! ## Theorems: logo overlay -/

section Logo

theorem PrepareLogoTextureBatch_vertexCount (ops : BatchOps) (fnv : List Nat → Nat)
    (logo : LogoAsset) (ctx : D2DXContext)
    (hinv : ops.IsValid ctx.logoTextureBatch = true → ctx.logoTextureBatch.vertexCount = 6) :
    (PrepareLogoTextureBatch ops fnv logo ctx).logoTextureBatch.vertexCount = 6 := by
  unfold PrepareLogoTextureBatch
  by_cases hv : ops.IsValid ctx.logoTextureBatch = true
  · rw [if_pos hv]
    exact hinv hv
  · rw [if_neg hv]

theorem set6_getElem?_other {α : Type} (l : List α) (i : Nat) (a b c d e f : α) (j : Nat)
    (hj : j < i ∨ i + 6 ≤ j) :
    ((((((l.set i a).set (i + 1) b).set (i + 2) c).set (i + 3) d).set (i + 4) e).set
      (i + 5) f)[j]? = l[j]? := by
  rw [List.getElem?_set_ne (by omega), List.getElem?_set_ne (by omega),
    List.getElem?_set_ne (by omega), List.getElem?_set_ne (by omega),
    List.getElem?_set_ne (by omega), List.getElem?_set_ne (by omega)]

/-- C24: `InsertLogoOnTitleScreen` leaves the whole context as it is when the logo is
disabled, the state is not `TitleScreen` or the frame has no batch. Otherwise (with room for
6 vertices and one batch) it returns having appended exactly one batch, the logo batch with
vertex count 6 starting at the previous vertex count, and exactly 6 vertices at the previous
vertex count; every other slot of the batch list and of the vertex buffer is as before. The
logo batch is either still invalid or was prepared with vertex count 6. -/
theorem InsertLogoOnTitleScreen_effect (ops : BatchOps) (F : FloatOps) (fnv : List Nat → Nat)
    (logo : LogoAsset) (backend : RenderBackend) (ctx : D2DXContext)
    (hinv : ops.IsValid ctx.logoTextureBatch = true → ctx.logoTextureBatch.vertexCount = 6) :
    ((ctx.noLogo = true ∨ ctx.majorGameState ≠ MajorGameState.TitleScreen ∨
        ctx.batchCount = 0) →
      InsertLogoOnTitleScreen ops F fnv logo backend ctx = Except.ok ctx) ∧
    (ctx.noLogo = false → ctx.majorGameState = MajorGameState.TitleScreen →
      0 < ctx.batchCount → ctx.vertexCount + 6 < ctx.vertices.length →
      ctx.batchCount < ctx.batches.length →
      ∃ (ctx' : D2DXContext) (b : Batch),
        InsertLogoOnTitleScreen ops F fnv logo backend ctx = Except.ok ctx' ∧
        ctx'.batchCount = ctx.batchCount + 1 ∧
        ctx'.batches = ctx.batches.set ctx.batchCount b ∧
        b.vertexCount = 6 ∧ b.startVertex = ctx.vertexCount ∧
        ctx'.vertexCount = ctx.vertexCount + 6 ∧
        ctx'.vertices.length = ctx.vertices.length ∧
        (∀ j : Nat, j < ctx.vertexCount ∨ ctx.vertexCount + 6 ≤ j →
          ctx'.vertices[j]? = ctx.vertices[j]?) ∧
        ctx'.logoTextureBatch = b) := by
  obtain ⟨pvc, pvs, pbs, pbc, _, _⟩ := PrepareLogoTextureBatch_fields ops fnv logo ctx
  have p6 := PrepareLogoTextureBatch_vertexCount ops fnv logo ctx hinv
  refine ⟨?_, ?_⟩
  · intro hskip
    have hskip' : ctx.noLogo = true ∨ ctx.majorGameState ≠ MajorGameState.TitleScreen ∨
        ctx.batchCount ≤ 0 := by
      rcases hskip with h | h | h
      · exact Or.inl h
      · exact Or.inr (Or.inl h)
      · exact Or.inr (Or.inr (by omega))
    unfold InsertLogoOnTitleScreen
    rw [if_pos hskip']
  · intro hlogo hstate hpos hcap hlt
    have hskip : ¬ (ctx.noLogo = true ∨ ctx.majorGameState ≠ MajorGameState.TitleScreen ∨
        ctx.batchCount ≤ 0) := by
      simp only [hlogo, hstate, ne_eq, not_true_eq_false, Bool.false_eq_true, false_or]
      omega
    unfold InsertLogoOnTitleScreen
    rw [if_neg hskip]
    simp only [writeQuad, pvc, pvs, hcap, if_true, pbs, pbc, hlt]
    refine ⟨_, _, rfl, rfl, rfl, p6, rfl, rfl, ?_, ?_, rfl⟩
    · simp only [List.length_set]
    · intro j hj
      exact set6_getElem?_other ctx.vertices ctx.vertexCount _ _ _ _ _ _ j hj

theorem InsertLogoOnTitleScreen_effect_witness :
    ∃ (ctx' : D2DXContext) (b : Batch),
      InsertLogoOnTitleScreen specOps exactFloat sampleFnv sampleLogo sampleBackend
        { D2DXContext.initial specOps 4 16 zeroVertex with
          majorGameState := MajorGameState.TitleScreen, batchCount := 1 } = Except.ok ctx' ∧
      ctx'.batchCount = 2 ∧ ctx'.batches[1]? = some b ∧ b.vertexCount = 6 ∧
      b.startVertex = 0 ∧ ctx'.vertexCount = 6 := by
  obtain ⟨ctx', b, h, hbc, hbs, hb6, hstart, hvc, _⟩ :=
    (InsertLogoOnTitleScreen_effect specOps exactFloat sampleFnv sampleLogo sampleBackend
      { D2DXContext.initial specOps 4 16 zeroVertex with
        majorGameState := MajorGameState.TitleScreen, batchCount := 1 }
      (fun hv => absurd hv (by decide))).2 rfl rfl (by decide) (by decide) (by decide)
  refine ⟨ctx', b, h, hbc, ?_, hb6, hstart, hvc⟩
  rw [hbs]
  exact List.getElem?_set_eq_of_lt _ (by decide)

end Logo

/-! ## Theorems: contiguous vertex arrays -/

section Contiguous

theorem fanLoopContiguous_eq_fanLoop (readAt : Nat → Option Vertex) (base stride : Nat)
    (first : Vertex) (n : Nat) :
    ∀ (k : Nat) (prev : Vertex) (ctx : D2DXContext),
      fanLoopContiguous readAt stride first n (base + k * stride) prev ctx =
        fanLoop (fun i => readAt (base + i * stride)) first (List.range' k n) prev ctx := by
  induction n with
  | zero => intro k prev ctx; rfl
  | succ n ih =>
    intro k prev ctx
    rw [List.range'_succ]
    simp only [fanLoopContiguous, fanLoop]
    cases readAt (base + k * stride) with
    | none => rfl
    | some cur =>
      simp only
      cases writeTriangle ctx first prev cur with
      | none => rfl
      | some ctx1 =>
        simp only
        have e : base + k * stride + stride = base + (k + 1) * stride := by
          rw [Nat.succ_mul, Nat.add_assoc]
        rw [e]
        exact ih (k + 1) cur ctx1

theorem stripLoopContiguous_eq_stripLoop (readAt : Nat → Option Vertex) (base stride : Nat)
    (n : Nat) :
    ∀ (k : Nat) (pp prev : Vertex) (ctx : D2DXContext),
      stripLoopContiguous readAt stride n (base + k * stride) pp prev ctx =
        stripLoop (fun i => readAt (base + i * stride)) (List.range' k n) pp prev ctx := by
  induction n with
  | zero => intro k pp prev ctx; rfl
  | succ n ih =>
    intro k pp prev ctx
    rw [List.range'_succ]
    simp only [stripLoopContiguous, stripLoop]
    cases readAt (base + k * stride) with
    | none => rfl
    | some cur =>
      simp only
      cases writeTriangle ctx pp prev cur with
      | none => rfl
      | some ctx1 =>
        simp only
        have e : base + k * stride + stride = base + (k + 1) * stride := by
          rw [Nat.succ_mul, Nat.add_assoc]
        rw [e]
        exact ih (k + 1) prev cur ctx1

/-- The contiguous call is the pointer-array call on the pointer array
`pointers[i] = vertex + i * stride`, for every mode and count and also when an assertion
fails. -/
theorem OnDrawVertexArrayContiguous_eq (ops : BatchOps) (gh : GameHelper)
    (backend : RenderBackend) (mem : Memory) (mode : VertexArrayMode) (count : Nat)
    (vertex stride gameContext : Nat) (ctx : D2DXContext) :
    OnDrawVertexArrayContiguous ops gh backend mem mode count vertex stride gameContext ctx =
      OnDrawVertexArray ops gh backend mem mode count (fun i => vertex + i * stride)
        gameContext ctx := by
  have e0 : vertex + 0 * stride = vertex := by rw [Nat.zero_mul, Nat.add_zero]
  have e1 : vertex + 1 * stride = vertex + stride := by rw [Nat.one_mul]
  have e2 : vertex + stride + stride = vertex + 2 * stride := by
    rw [Nat.two_mul, Nat.add_assoc]
  cases mode with
  | GR_TRIANGLE_FAN =>
    simp only [OnDrawVertexArrayContiguous, OnDrawVertexArray, e0, e1, e2,
      fanLoopContiguous_eq_fanLoop]
  | GR_TRIANGLE_STRIP =>
    simp only [OnDrawVertexArrayContiguous, OnDrawVertexArray, e0, e1, e2,
      stripLoopContiguous_eq_stripLoop]
  | other code => rfl

/-- C25: `OnDrawVertexArrayContiguous` is `OnDrawVertexArray` on the pointer array
`pointers[i] = vertex + i * stride`: from the same starting state both calls give the same
result, for every mode and count. For a fan or strip of `count >= 2` vertices with room in
the vertex buffer and the batch list, both return the same context, with `3 * (count - 2)`
vertices and one batch appended. -/
theorem OnDrawVertexArrayContiguous_equivalent (ops : BatchOps) (gh : GameHelper)
    (backend : RenderBackend) (mem : Memory) (mode : VertexArrayMode) (count : Nat)
    (vertex stride gameContext : Nat) (ctx : D2DXContext) :
    OnDrawVertexArrayContiguous ops gh backend mem mode count vertex stride gameContext ctx =
      OnDrawVertexArray ops gh backend mem mode count (fun i => vertex + i * stride)
        gameContext ctx ∧
    ((mode = VertexArrayMode.GR_TRIANGLE_FAN ∨ mode = VertexArrayMode.GR_TRIANGLE_STRIP) →
      2 ≤ count →
      (count = 2 ∨ ctx.vertexCount + 3 * (count - 2) < ctx.vertices.length) →
      ctx.batchCount < ctx.batches.length →
      ∃ ctx' : D2DXContext,
        OnDrawVertexArrayContiguous ops gh backend mem mode count vertex stride gameContext
          ctx = some ctx' ∧
        OnDrawVertexArray ops gh backend mem mode count (fun i => vertex + i * stride)
          gameContext ctx = some ctx' ∧
        ctx'.vertexCount = ctx.vertexCount + 3 * (count - 2) ∧
        ctx'.batchCount = ctx.batchCount + 1) := by
  have heq := OnDrawVertexArrayContiguous_eq ops gh backend mem mode count vertex stride
    gameContext ctx
  refine ⟨heq, ?_⟩
  intro hmode h2 hcap hbatch
  have hcap' : count - 2 = 0 ∨ ctx.vertexCount + 3 * (count - 2) < ctx.vertices.length := by
    rcases hcap with h | h
    · exact Or.inl (by omega)
    · exact Or.inr h
  rcases hmode with hm | hm
  · subst hm
    obtain ⟨ctx', h, hvc, _, hbc, _⟩ :=
      OnDrawVertexArray_fan_returns ops gh backend mem count (fun i => vertex + i * stride)
        gameContext ctx hcap' hbatch
    exact ⟨ctx', heq.trans h, h, hvc, hbc⟩
  · subst hm
    obtain ⟨ctx', h, hvc, _, hbc, _⟩ :=
      OnDrawVertexArray_strip_returns ops gh backend mem count (fun i => vertex + i * stride)
        gameContext ctx hcap' hbatch
    exact ⟨ctx', heq.trans h, h, hvc, hbc⟩

theorem OnDrawVertexArrayContiguous_equivalent_witness :
    ∃ ctx' : D2DXContext,
      OnDrawVertexArrayContiguous specOps (sampleHelper 0) sampleBackend zeroMemory
        VertexArrayMode.GR_TRIANGLE_STRIP 5 64 32 0
        (D2DXContext.initial specOps 4 16 zeroVertex) = some ctx' ∧
      OnDrawVertexArray specOps (sampleHelper 0) sampleBackend zeroMemory
        VertexArrayMode.GR_TRIANGLE_STRIP 5 (fun i => 64 + i * 32) 0
        (D2DXContext.initial specOps 4 16 zeroVertex) = some ctx' ∧
      ctx'.vertexCount = 9 ∧ ctx'.batchCount = 1 :=
  (OnDrawVertexArrayContiguous_equivalent specOps (sampleHelper 0) sampleBackend zeroMemory
    VertexArrayMode.GR_TRIANGLE_STRIP 5 64 32 0
    (D2DXContext.initial specOps 4 16 zeroVertex)).2 (Or.inr rfl) (by decide)
    (Or.inr (by decide)) (by decide)

end Contiguous

/-! ## Theorems: start vertices stay inside the vertex buffer -/

section Bounds

theorem writeQuad_lt (ctx ctx1 : D2DXContext) (a b c d e f : Vertex)
    (h : writeQuad ctx a b c d e f = some ctx1) :
    ctx1.vertexCount < ctx1.vertices.length := by
  unfold writeQuad at h
  split_ifs at h with hc
  cases h
  simpa using hc

/-- The common tail of the vertex-array calls, for any count: the stamped batch starts at
the old vertex count, and the new vertex count is the old one or below the capacity. -/
theorem bounds_step (gh : GameHelper) (backend : RenderBackend) (count gameContext : Nat)
    (ctx ctx2 ctx' : D2DXContext)
    (hb : ctx2.batches = (preparedSubmit gh backend count gameContext ctx).2.batches)
    (hbc : ctx2.batchCount = (preparedSubmit gh backend count gameContext ctx).2.batchCount)
    (hvc : ctx2.vertexCount =
      (preparedSubmit gh backend count gameContext ctx).2.vertexCount + 3 * (count - 2))
    (hl : ctx2.vertices.length =
      (preparedSubmit gh backend count gameContext ctx).2.vertices.length)
    (hlt : count - 2 ≠ 0 → ctx2.vertexCount < ctx2.vertices.length)
    (happ : appendBatch ctx2 (preparedSubmit gh backend count gameContext ctx).1 = some ctx') :
    ∃ b : Batch, ctx.batchCount < ctx.batches.length ∧
      ctx'.batches = ctx.batches.set ctx.batchCount b ∧
      ctx'.batchCount = ctx.batchCount + 1 ∧ b.startVertex = ctx.vertexCount ∧
      (ctx'.vertexCount = ctx.vertexCount ∨ ctx'.vertexCount < ctx'.vertices.length) ∧
      ctx'.vertices.length = ctx.vertices.length := by
  obtain ⟨_, _, pvc, pvs, pbs, pbc, pstart, _, _⟩ :=
    preparedSubmit_fields gh backend count gameContext ctx
  obtain ⟨alt, ab, abc, avc, avs⟩ := appendBatch_some _ _ _ happ
  rw [pvc] at hvc
  rw [pvs] at hl
  rw [hb, hbc, pbs, pbc] at ab alt
  rw [hbc, pbc] at abc
  refine ⟨_, alt, ab, abc, pstart, ?_, by rw [avs, hl]⟩
  by_cases h0 : count - 2 = 0
  · left
    rw [avc, hvc, h0, Nat.mul_zero, Nat.add_zero]
  · right
    rw [avc, avs]
    exact hlt h0

theorem OnDrawVertexArray_bounds (ops : BatchOps) (gh : GameHelper) (backend : RenderBackend)
    (mem : Memory) (mode : VertexArrayMode) (count : Nat) (pointers : Nat → Nat)
    (gameContext : Nat) (ctx ctx' : D2DXContext)
    (h : OnDrawVertexArray ops gh backend mem mode count pointers gameContext ctx = some ctx') :
    ∃ b : Batch, ctx.batchCount < ctx.batches.length ∧
      ctx'.batches = ctx.batches.set ctx.batchCount b ∧
      ctx'.batchCount = ctx.batchCount + 1 ∧ b.startVertex = ctx.vertexCount ∧
      (ctx'.vertexCount = ctx.vertexCount ∨ ctx'.vertexCount < ctx'.vertices.length) ∧
      ctx'.vertices.length = ctx.vertices.length := by
  obtain ⟨w0, h0⟩ := ReadVertex_isSome ops mem
    (preparedSubmit gh backend count gameContext ctx).2.constantColor (pointers 0)
    (preparedSubmit gh backend count gameContext ctx).2.vertexLayout
    (preparedSubmit gh backend count gameContext ctx).1
  obtain ⟨w1, h1⟩ := ReadVertex_isSome ops mem
    (preparedSubmit gh backend count gameContext ctx).2.constantColor (pointers 1)
    (preparedSubmit gh backend count gameContext ctx).2.vertexLayout
    (preparedSubmit gh backend count gameContext ctx).1
  cases mode with
  | GR_TRIANGLE_FAN =>
    have h' : (match ReadVertex ops mem
          (preparedSubmit gh backend count gameContext ctx).2.constantColor (pointers 0)
          (preparedSubmit gh backend count gameContext ctx).2.vertexLayout
          (preparedSubmit gh backend count gameContext ctx).1,
        ReadVertex ops mem (preparedSubmit gh backend count gameContext ctx).2.constantColor
          (pointers 1) (preparedSubmit gh backend count gameContext ctx).2.vertexLayout
          (preparedSubmit gh backend count gameContext ctx).1 with
      | some firstVertex, some prevVertex =>
        match fanLoop (fun i => ReadVertex ops mem
            (preparedSubmit gh backend count gameContext ctx).2.constantColor (pointers i)
            (preparedSubmit gh backend count gameContext ctx).2.vertexLayout
            (preparedSubmit gh backend count gameContext ctx).1) firstVertex
            (List.range' 2 (count - 2)) prevVertex
            (preparedSubmit gh backend count gameContext ctx).2 with
        | none => none
        | some ctx2 => appendBatch ctx2 (preparedSubmit gh backend count gameContext ctx).1
      | _, _ => none) = some ctx' := h
    rw [h0, h1] at h'
    simp only at h'
    obtain ⟨ctx2, hloop, happ⟩ := then_appendBatch_some _ _ _ h'
    obtain ⟨lb, lbc, lvc, ll, llt⟩ := fanLoop_some _ _ _ _ _ _ hloop
    rw [List.length_range'] at lvc llt
    exact bounds_step gh backend count gameContext ctx ctx2 ctx' lb lbc lvc ll llt happ
  | GR_TRIANGLE_STRIP =>
    have h' : (match ReadVertex ops mem
          (preparedSubmit gh backend count gameContext ctx).2.constantColor (pointers 0)
          (preparedSubmit gh backend count gameContext ctx).2.vertexLayout
          (preparedSubmit gh backend count gameContext ctx).1,
        ReadVertex ops mem (preparedSubmit gh backend count gameContext ctx).2.constantColor
          (pointers 1) (preparedSubmit gh backend count gameContext ctx).2.vertexLayout
          (preparedSubmit gh backend count gameContext ctx).1 with
      | some prevPrevVertex, some prevVertex =>
        match stripLoop (fun i => ReadVertex ops mem
            (preparedSubmit gh backend count gameContext ctx).2.constantColor (pointers i)
            (preparedSubmit gh backend count gameContext ctx).2.vertexLayout
            (preparedSubmit gh backend count gameContext ctx).1)
            (List.range' 2 (count - 2)) prevPrevVertex prevVertex
            (preparedSubmit gh backend count gameContext ctx).2 with
        | none => none
        | some ctx2 => appendBatch ctx2 (preparedSubmit gh backend count gameContext ctx).1
      | _, _ => none) = some ctx' := h
    rw [h0, h1] at h'
    simp only at h'
    obtain ⟨ctx2, hloop, happ⟩ := then_appendBatch_some _ _ _ h'
    obtain ⟨lb, lbc, lvc, ll, llt⟩ := stripLoop_some _ _ _ _ _ _ hloop
    rw [List.length_range'] at lvc llt
    exact bounds_step gh backend count gameContext ctx ctx2 ctx' lb lbc lvc ll llt happ
  | other code => cases h

theorem OnDrawLine_bounds (ops : BatchOps) (F : FloatOps) (gh : GameHelper) (mem : Memory)
    (v1 v2 gameContext : Nat) (ctx ctx' : D2DXContext)
    (h : OnDrawLine ops F gh mem v1 v2 gameContext ctx = some ctx') :
    ∃ b : Batch, ctx.batchCount < ctx.batches.length ∧
      ctx'.batches = ctx.batches.set ctx.batchCount b ∧
      ctx'.batchCount = ctx.batchCount + 1 ∧ b.startVertex = ctx.vertexCount ∧
      (ctx'.vertexCount = ctx.vertexCount ∨ ctx'.vertexCount < ctx'.vertices.length) ∧
      ctx'.vertices.length = ctx.vertices.length := by
  obtain ⟨b, hlt, hb, hbc, hstart, _, hl⟩ :=
    OnDrawLine_some ops F gh mem v1 v2 gameContext ctx ctx' h
  refine ⟨b, hlt, hb, hbc, hstart, Or.inr ?_, hl⟩
  unfold OnDrawLine at h
  simp only at h
  cases hs : ReadVertex ops mem (FixIngameMousePosition ctx).constantColor v1
      (FixIngameMousePosition ctx).vertexLayout
      (lineBatch gh gameContext (FixIngameMousePosition ctx)) with
  | none => rw [hs] at h; cases h
  | some s =>
    cases he : ReadVertex ops mem (FixIngameMousePosition ctx).constantColor v2
        (FixIngameMousePosition ctx).vertexLayout
        (lineBatch gh gameContext (FixIngameMousePosition ctx)) with
    | none => rw [hs, he] at h; cases h
    | some e =>
      rw [hs, he] at h
      simp only at h
      obtain ⟨ctx1, hq, happ⟩ := then_appendBatch_some _ _ _ h
      obtain ⟨_, _, _, avc, avs⟩ := appendBatch_some _ _ _ happ
      rw [avc, avs]
      exact writeQuad_lt _ _ _ _ _ _ _ _ hq

theorem submit_bounds (ops : BatchOps) (F : FloatOps) (gh : GameHelper)
    (backend : RenderBackend) (mem : Memory) (s : Submission) (ctx ctx' : D2DXContext)
    (h : submit ops F gh backend mem s ctx = some ctx') :
    ∃ b : Batch, ctx.batchCount < ctx.batches.length ∧
      ctx'.batches = ctx.batches.set ctx.batchCount b ∧
      ctx'.batchCount = ctx.batchCount + 1 ∧ b.startVertex = ctx.vertexCount ∧
      (ctx'.vertexCount = ctx.vertexCount ∨ ctx'.vertexCount < ctx'.vertices.length) ∧
      ctx'.vertices.length = ctx.vertices.length := by
  cases s with
  | line v1 v2 gameContext => exact OnDrawLine_bounds ops F gh mem v1 v2 gameContext ctx ctx' h
  | vertexArray mode count pointers gameContext =>
    exact OnDrawVertexArray_bounds ops gh backend mem mode count pointers gameContext ctx ctx' h
  | contiguous mode count vertex stride gameContext =>
    have h' : OnDrawVertexArrayContiguous ops gh backend mem mode count vertex stride
        gameContext ctx = some ctx' := h
    rw [OnDrawVertexArrayContiguous_eq] at h'
    exact OnDrawVertexArray_bounds ops gh backend mem mode count _ gameContext ctx ctx' h'

theorem submitAll_bounds (ops : BatchOps) (F : FloatOps) (gh : GameHelper)
    (backend : RenderBackend) (mem : Memory) (subs : List Submission) :
    ∀ (ctx ctx' : D2DXContext),
      ctx.vertexCount < ctx.vertices.length →
      ctx.batchCount ≤ ctx.batches.length →
      (∀ b ∈ ctx.batches.take ctx.batchCount, b.startVertex < ctx.vertices.length) →
      submitAll ops F gh backend mem subs ctx = some ctx' →
      ctx'.vertices.length = ctx.vertices.length ∧
      ctx'.vertexCount < ctx'.vertices.length ∧
      ctx'.batchCount ≤ ctx'.batches.length ∧
      ∀ b ∈ ctx'.batches.take ctx'.batchCount, b.startVertex < ctx'.vertices.length := by
  induction subs with
  | nil =>
    intro ctx ctx' hvc hle hstart h
    simp only [submitAll, Option.some.injEq] at h
    subst h
    exact ⟨rfl, hvc, hle, hstart⟩
  | cons s rest ih =>
    intro ctx ctx' hvc hle hstart h
    simp only [submitAll] at h
    cases hs : submit ops F gh backend mem s ctx with
    | none => rw [hs] at h; cases h
    | some ctx1 =>
      rw [hs] at h
      simp only at h
      obtain ⟨b, hlt, hb, hbc, hbstart, hvc1, hl⟩ :=
        submit_bounds ops F gh backend mem s ctx ctx1 hs
      have hvc1' : ctx1.vertexCount < ctx1.vertices.length := by
        rcases hvc1 with h1 | h1
        · rw [h1, hl]; exact hvc
        · exact h1
      have hle1 : ctx1.batchCount ≤ ctx1.batches.length := by
        rw [hb, hbc, List.length_set]
        omega
      have hstart1 : ∀ x ∈ ctx1.batches.take ctx1.batchCount,
          x.startVertex < ctx1.vertices.length := by
        intro x hx
        rw [hb, hbc, take_set_succ _ _ _ hlt, List.mem_append, List.mem_singleton] at hx
        rw [hl]
        rcases hx with hx | hx
        · exact hstart x hx
        · rw [hx, hbstart]; exact hvc
      obtain ⟨r1, r2, r3, r4⟩ := ih ctx1 ctx' hvc1' hle1 hstart1 h
      exact ⟨r1.trans hl, r2, r3, r4⟩

/-- `CheckMajorGameState` returns when the batch count is within the batch list and every
counted batch starts inside the vertex buffer. -/
theorem CheckMajorGameState_returns (gh : GameHelper) (ctx : D2DXContext)
    (hle : ctx.batchCount ≤ ctx.batches.length)
    (hstart : ∀ b ∈ ctx.batches.take ctx.batchCount, b.startVertex < ctx.vertices.length) :
    ∃ ctx', CheckMajorGameState gh ctx = some ctx' := by
  have hn : (int32Cast ctx.batchCount).toNat ≤ ctx.batchCount := int32Cast_toNat_le _
  have hidx : loopIndices (int32Cast ctx.batchCount) =
      List.range' 0 (int32Cast ctx.batchCount).toNat := by
    simp only [loopIndices, List.range_eq_range']
  have hfloor := scanDrawFloor_range ctx.batches (int32Cast ctx.batchCount).toNat 0 (by omega)
  have htitle := scanTitleScreen_range ctx.batches ctx.vertices
    (int32Cast ctx.batchCount).toNat 0 (by omega)
    (by
      intro b hb
      rw [List.drop_zero] at hb
      have e : ctx.batches.take (int32Cast ctx.batchCount).toNat =
          (ctx.batches.take ctx.batchCount).take (int32Cast ctx.batchCount).toNat := by
        rw [List.take_take, Nat.min_eq_left hn]
      rw [e] at hb
      exact hstart b (List.mem_of_mem_take hb))
  rw [CheckMajorGameState_eq, hidx, hfloor, htitle]
  simp only
  split_ifs <;> exact ⟨_, rfl⟩

/-- C26: in every state reached from a reset (vertex count 0, batch count 0, with a vertex
buffer of positive capacity) through geometry submissions that pass their assertions, the
frame vertex count is strictly below the vertex capacity, the batch count is within the
batch list and every batch of the frame has a start vertex strictly below the vertex
capacity (also the zero-vertex batches of a fan or strip with `count = 2`); hence the reads
of `CheckMajorGameState` are in bounds: it returns. -/
theorem submitAll_startVertex_in_bounds (ops : BatchOps) (F : FloatOps) (gh : GameHelper)
    (backend : RenderBackend) (mem : Memory) (subs : List Submission)
    (ctx ctx' : D2DXContext)
    (hreset : ctx.batchCount = 0 ∧ ctx.vertexCount = 0)
    (hcap : 0 < ctx.vertices.length)
    (h : submitAll ops F gh backend mem subs ctx = some ctx') :
    ctx'.vertices.length = ctx.vertices.length ∧
    ctx'.vertexCount < ctx'.vertices.length ∧
    ctx'.batchCount ≤ ctx'.batches.length ∧
    (∀ (i : Nat) (b : Batch), i < ctx'.batchCount → ctx'.batches[i]? = some b →
      b.startVertex < ctx'.vertices.length) ∧
    (∀ helper : GameHelper, ∃ ctx'', CheckMajorGameState helper ctx' = some ctx'') := by
  obtain ⟨hbc0, hvc0⟩ := hreset
  obtain ⟨hl, hvc, hle, hstart⟩ := submitAll_bounds ops F gh backend mem subs ctx ctx'
    (by rw [hvc0]; exact hcap) (by rw [hbc0]; exact Nat.zero_le _)
    (by rw [hbc0]; intro b hb; simp at hb) h
  refine ⟨hl, hvc, hle, ?_, fun helper => CheckMajorGameState_returns helper ctx' hle hstart⟩
  intro i b hi hb
  apply hstart b
  have hb' : (ctx'.batches.take ctx'.batchCount)[i]? = some b := by
    rw [List.getElem?_take_of_lt hi]
    exact hb
  exact List.getElem?_mem hb'

theorem submitAll_startVertex_in_bounds_witness :
    ∃ ctx' : D2DXContext,
      submitAll specOps exactFloat (sampleHelper 0) sampleBackend zeroMemory
        [Submission.vertexArray VertexArrayMode.GR_TRIANGLE_FAN 2 samplePointers 0,
         Submission.line 0 32 0]
        (D2DXContext.initial specOps 4 16 zeroVertex) = some ctx' ∧
      ctx'.batchCount = 2 ∧ ctx'.vertexCount = 6 ∧
      ctx'.vertexCount < ctx'.vertices.length ∧
      (∀ (i : Nat) (b : Batch), i < ctx'.batchCount → ctx'.batches[i]? = some b →
        b.startVertex < ctx'.vertices.length) ∧
      ∃ ctx'', CheckMajorGameState (sampleHelper 0) ctx' = some ctx'' := by
  obtain ⟨ctx1, h1, vc1, vl1, bc1, bl1⟩ :=
    OnDrawVertexArray_fan_returns specOps (sampleHelper 0) sampleBackend zeroMemory 2
      samplePointers 0 (D2DXContext.initial specOps 4 16 zeroVertex) (by decide) (by decide)
  have hvc1 : ctx1.vertexCount = 0 := by rw [vc1]; rfl
  have hvl1 : ctx1.vertices.length = 16 := by rw [vl1]; rfl
  have hbc1 : ctx1.batchCount = 1 := by rw [bc1]; rfl
  have hbl1 : ctx1.batches.length = 4 := by rw [bl1]; rfl
  obtain ⟨ctx2, h2, vc2, _, bc2, _⟩ :=
    OnDrawLine_returns specOps exactFloat (sampleHelper 0) zeroMemory 0 32 0 ctx1
      (by rw [hvc1, hvl1]; decide) (by rw [hbc1, hbl1]; decide)
  rw [hvc1] at vc2
  rw [hbc1] at bc2
  have hrun : submitAll specOps exactFloat (sampleHelper 0) sampleBackend zeroMemory
      [Submission.vertexArray VertexArrayMode.GR_TRIANGLE_FAN 2 samplePointers 0,
       Submission.line 0 32 0]
      (D2DXContext.initial specOps 4 16 zeroVertex) = some ctx2 := by
    simp only [submitAll, submit, h1, h2]
  obtain ⟨_, hlt, _, hstart, hcheck⟩ :=
    submitAll_startVertex_in_bounds specOps exactFloat (sampleHelper 0) sampleBackend
      zeroMemory
      [Submission.vertexArray VertexArrayMode.GR_TRIANGLE_FAN 2 samplePointers 0,
       Submission.line 0 32 0]
      (D2DXContext.initial specOps 4 16 zeroVertex) ctx2 ⟨rfl, rfl⟩ (by decide) hrun
  exact ⟨ctx2, hrun, bc2, vc2, hlt, hstart, hcheck (sampleHelper 0)⟩

end Bounds

/-! ## Theorems: the offset of a diagonal line -/

section DiagonalLine

end DiagonalLine

end D2DX
